import Mathlib

set_option maxRecDepth 100000

/-!
# BiblePay superblock governance and coinbase attestation

A shallow embedding of `src/governance/governance-classes.cpp` and
`src/evo/cbtx.cpp`, with theorems about the embedded functions.

Conventions of the embedding.

* `int`, `int64_t` and `CAmount` values are integers. The `int` sums of block
  heights in `CSuperblock::IsExpired` and
  `CSuperblock::GetNearestSuperblocksHeights` are wrapped to 32 bits
  (`wrapInt32`), since a height read from JSON can lie anywhere in the range of
  `int`; the amounts handled elsewhere are bounded by the money range.
* `uint256` is a natural number; its order stands for the key order of the
  `std::map` containers keyed by a hash.
* `std::string` is a list of characters.
* Collaborators whose code lies outside the two translated files are fields
  of `ChainParams` (constants, block subsidy), `Externals` (vote tallies,
  address decoding, amount parsing) and `EvoExternals` (payload
  deserialisation, spork values, masternode lists, quorum commitments, merkle
  hashing).
* A function that writes through a reference parameter or to a static
  variable returns the new value next to its result.
* Log output and the benchmark timers are not part of the model.
-/

namespace BiblePay

/-! ## Basic types -/

abbrev uint256 := Nat
abbrev CAmount := Int
abbrev CScript := List Nat

/-- The value of an `int` expression whose mathematical value is `n`: `n`
itself inside the range of a 32-bit two's complement integer, wrapped around
outside it (signed overflow is undefined in the source; the compiled code
wraps). -/
def wrapInt32 (n : Int) : Int :=
  (n + 2147483648) % 4294967296 - 2147483648

/-- The fields of `Consensus::Params` read by the translated functions. -/
structure ConsensusParams where
  nSuperblockStartBlock : Int
  nSuperblockCycle : Int
  nDCCSuperblockStartBlock : Int
  nDCCSuperblockCycle : Int
  FPOG_CUTOVER_HEIGHT : Int
  F13000_CUTOVER_HEIGHT : Int
  PODC_LAST_BLOCK : Int
  POOM_PHASEOUT_HEIGHT : Int
  QTHeight : Int
  EVOLUTION_CUTOVER_HEIGHT : Int
  LLMQHeight : Int
  DIP0003HeightPhase2 : Int

/-- The chain parameters `Params()` together with the global constants the
budget computation reads, all declared outside the translated files and taken
as integers. `GetBlockSubsidy nBits nHeight` is the block-subsidy oracle
called with the consensus parameters and `fSuperblockPartOnly = true`. -/
structure ChainParams where
  consensus : ConsensusParams
  NetworkIDString : String
  fProd : Bool
  COIN : Int
  MAX_BLOCK_SUBSIDY : Int
  BLOCKS_PER_DAY : Int
  MAX_DAILY_WHALE_COMMITMENTS : Int
  GetBlockSubsidy : Int → Int → CAmount

/-- A transaction output; `sTxOutMessage` is the auxiliary message field. -/
structure CTxOut where
  nValue : CAmount
  scriptPubKey : CScript
  sTxOutMessage : List Char := []
deriving DecidableEq, Repr

/-- A governance payment: destination script and amount. -/
structure CGovernancePayment where
  script : CScript
  nAmount : CAmount
deriving DecidableEq, Repr

/-! ## Height-class predicates -/

/-- `CSuperblock::IsValidBlockHeight`: the primary (monthly) class. The C++
remainder truncates towards zero, as `Int.tmod` does. -/
def CSuperblock.IsValidBlockHeight (P : ChainParams) (nBlockHeight : Int) : Bool :=
  decide (nBlockHeight ≥ P.consensus.nSuperblockStartBlock) &&
    decide (Int.tmod nBlockHeight P.consensus.nSuperblockCycle = 0)

/-- `CSuperblock::IsSmartContract`: the active daily class. -/
def CSuperblock.IsSmartContract (P : ChainParams) (nHeight : Int) : Bool :=
  if nHeight > P.consensus.FPOG_CUTOVER_HEIGHT then
    decide (nHeight ≥ P.consensus.nDCCSuperblockStartBlock) &&
      decide (Int.tmod nHeight P.consensus.nDCCSuperblockCycle = 20)
  else
    false

/-- `CSuperblock::IsDCCSuperblock`: the legacy daily class. -/
def CSuperblock.IsDCCSuperblock (P : ChainParams) (nHeight : Int) : Bool :=
  if nHeight > P.consensus.PODC_LAST_BLOCK then false
  else if nHeight > P.consensus.F13000_CUTOVER_HEIGHT then
    decide (nHeight ≥ P.consensus.nDCCSuperblockStartBlock) &&
      decide (Int.tmod nHeight P.consensus.nDCCSuperblockCycle = 10)
  else
    decide (nHeight ≥ P.consensus.nDCCSuperblockStartBlock) &&
      decide (Int.tmod nHeight P.consensus.nDCCSuperblockCycle = 0)

/-- `CSuperblock::GetNearestSuperblocksHeights`: the values of the reference
parameters `nLastSuperblockRet` and `nNextSuperblockRet` afterwards. The sums
and differences are `int` operations. -/
def CSuperblock.GetNearestSuperblocksHeights (P : ChainParams) (nBlockHeight : Int) :
    Int × Int :=
  let nSuperblockStartBlock := P.consensus.nSuperblockStartBlock
  let nSuperblockCycle := P.consensus.nSuperblockCycle
  let nFirstSuperblockOffset :=
    Int.tmod (wrapInt32 (nSuperblockCycle - Int.tmod nSuperblockStartBlock nSuperblockCycle))
      nSuperblockCycle
  let nFirstSuperblock := wrapInt32 (nSuperblockStartBlock + nFirstSuperblockOffset)
  if nBlockHeight < nFirstSuperblock then (0, nFirstSuperblock)
  else
    let nLastSuperblockRet :=
      wrapInt32 (nBlockHeight - Int.tmod nBlockHeight nSuperblockCycle)
    (nLastSuperblockRet, wrapInt32 (nLastSuperblockRet + nSuperblockCycle))

/-! ## Binary64 arithmetic

`GetPaymentsLimit` multiplies integers by `double` constants. The model is
exact IEEE-754 binary64 with round-to-nearest-even, for finite values in the
normal exponent range (the only ones the budget computation meets). A value
is `± m * 2 ^ e`. -/

/-- Number of binary digits of `n`, by halving; the first argument bounds the
number of steps. -/
def bitLenAux : Nat → Nat → Nat
  | 0, _ => 0
  | fuel + 1, n => if n = 0 then 0 else bitLenAux fuel (n / 2) + 1

/-- Number of binary digits of `n`: `2 ^ (bitLen n - 1) ≤ n < 2 ^ bitLen n`
for `n > 0`. -/
def bitLen (n : Nat) : Nat := bitLenAux n n

/-- A finite binary64 value `± m * 2 ^ e`. -/
structure Dbl where
  neg : Bool
  m : Nat
  e : Int
deriving DecidableEq, Repr

/-- The binary64 value nearest to `a / b` (ties to even), for `b > 0`. -/
def rneRatio (a b : Nat) : Nat × Int :=
  if a = 0 then (0, 0)
  else
    let e0 : Int := (bitLen a : Int) - (bitLen b : Int) - 53
    let q0 := (a * 2 ^ (-e0).toNat) / (b * 2 ^ e0.toNat)
    let e : Int := if q0 < 2 ^ 53 then e0 else e0 + 1
    let num := a * 2 ^ (-e).toNat
    let den := b * 2 ^ e.toNat
    let q := num / den
    let r := num % den
    if 2 * r > den ∨ (2 * r = den ∧ q % 2 = 1) then (q + 1, e) else (q, e)

/-- A decimal literal `a / b` read as a `double`. -/
def Dbl.lit (a b : Nat) : Dbl :=
  let r := rneRatio a b
  ⟨false, r.1, r.2⟩

/-- Conversion of an integer to `double`. -/
def Dbl.ofInt (n : Int) : Dbl :=
  let r := rneRatio n.natAbs 1
  ⟨decide (n < 0), r.1, r.2⟩

/-- Product of two `double` values, rounded once. -/
def Dbl.mul (x y : Dbl) : Dbl :=
  let s : Int := x.e + y.e
  let r := rneRatio (x.m * y.m * 2 ^ s.toNat) (2 ^ (-s).toNat)
  ⟨xor x.neg y.neg, r.1, r.2⟩

/-- Conversion of a `double` to `CAmount`: truncation towards zero. -/
def Dbl.toCAmount (x : Dbl) : CAmount :=
  let a : Nat := (x.m * 2 ^ x.e.toNat) / 2 ^ (-x.e).toNat
  if x.neg then -(a : Int) else (a : Int)

/-! ## Budget limit -/

/-- `CSuperblock::GetPaymentsLimit`. `nType` is 0 for the monthly class, 1 for
the retired daily class and 2 for the active daily class. -/
def CSuperblock.GetPaymentsLimit (P : ChainParams) (nBlockHeight : Int)
    (fIncludeWhaleStakes : Bool) : CAmount :=
  if nBlockHeight < 1 then 0
  else if !CSuperblock.IsValidBlockHeight P nBlockHeight &&
      !CSuperblock.IsDCCSuperblock P nBlockHeight &&
      !CSuperblock.IsSmartContract P nBlockHeight then 0
  else
    let c := P.consensus
    let nBits : Int := 486585255
    let cls : Option (Int × Dbl × Nat) :=
      if CSuperblock.IsValidBlockHeight P nBlockHeight then
        some (c.nSuperblockCycle, Dbl.lit 30 100, 0)
      else if CSuperblock.IsDCCSuperblock P nBlockHeight then
        some (c.nDCCSuperblockCycle,
          if P.fProd && decide (nBlockHeight > 33600) &&
              decide (nBlockHeight < c.PODC_LAST_BLOCK) then Dbl.lit 1 1
          else Dbl.lit 65 100, 1)
      else if CSuperblock.IsSmartContract P nBlockHeight then
        some (c.nDCCSuperblockCycle,
          if nBlockHeight > c.POOM_PHASEOUT_HEIGHT then Dbl.lit 42 100
          else Dbl.lit 65 100, 2)
      else none
    match cls with
    | none => 0
    | some (nSuperblockCycle, nBudgetFactor, nType) =>
      let nMaxMonthlyBudget : CAmount := 13500000 * P.COIN
      let nMaxDailyBudget : CAmount := 1000000 * P.COIN
      let nAssessmentHeight : Int :=
        if nBlockHeight > c.QTHeight then nBlockHeight - 1 - P.BLOCKS_PER_DAY * 32
        else nBlockHeight - 1
      let nSuperblockPartOfSubsidy : CAmount := P.GetBlockSubsidy nBits nAssessmentHeight
      let nPaymentsLimit0 : CAmount :=
        (Dbl.mul (Dbl.ofInt (nSuperblockPartOfSubsidy * nSuperblockCycle))
          nBudgetFactor).toCAmount
      let nAbsoluteMaxMonthlyBudget : CAmount :=
        (Dbl.mul (Dbl.mul (Dbl.ofInt (P.MAX_BLOCK_SUBSIDY * P.BLOCKS_PER_DAY * 30))
          (Dbl.lit 20 100)) (Dbl.ofInt P.COIN)).toCAmount
      let nPaymentsLimit1 : CAmount :=
        if nPaymentsLimit0 > nAbsoluteMaxMonthlyBudget then nAbsoluteMaxMonthlyBudget
        else nPaymentsLimit0
      let nPaymentsLimit2 : CAmount :=
        if P.NetworkIDString = "main" then
          if nType = 0 ∧ nBlockHeight > c.EVOLUTION_CUTOVER_HEIGHT - 6150 ∧
              nPaymentsLimit1 > nMaxMonthlyBudget then nMaxMonthlyBudget
          else if nType = 2 ∧ nBlockHeight > c.EVOLUTION_CUTOVER_HEIGHT ∧
              nPaymentsLimit1 > nMaxDailyBudget then nMaxDailyBudget
          else nPaymentsLimit1
        else nPaymentsLimit1
      if nType = 2 ∧ fIncludeWhaleStakes = true then
        nPaymentsLimit2 + P.MAX_DAILY_WHALE_COMMITMENTS * P.COIN
      else nPaymentsLimit2

/-! ## Superblock validation -/

/-- The test of the inner loop of `CSuperblock::IsValid`: same script and same
amount. -/
def paymentMatch (payment : CGovernancePayment) (out : CTxOut) : Bool :=
  decide (payment.script = out.scriptPubKey) && decide (payment.nAmount = out.nValue)

/-- The inner loop `for (int j = nVoutIndex; j < nOutputs; j++)` of
`CSuperblock::IsValid`, run for at most `n` steps from index `j`: the index of
the first matching output, if any. -/
def findPaymentFrom (payment : CGovernancePayment) (vout : List CTxOut) :
    Nat → Nat → Option Nat
  | 0, _ => none
  | n + 1, j =>
    match vout[j]? with
    | none => none
    | some out =>
      if paymentMatch payment out then some j
      else findPaymentFrom payment vout n (j + 1)

/-- The outer loop `for (int i = 0; i < nPayments; i++)` of
`CSuperblock::IsValid`, over the payments still to be found, with the current
`nVoutIndex`. A match at `j` sets `nVoutIndex = j`. `GetPayment(i, payment)`
succeeds for every `i < nPayments`, so its failure branch is not reached. -/
def scanPayments (vout : List CTxOut) : List CGovernancePayment → Nat → Bool
  | [], _ => true
  | payment :: rest, nVoutIndex =>
    match findPaymentFrom payment vout (vout.length - nVoutIndex) nVoutIndex with
    | none => false
    | some j => scanPayments vout rest j

/-- `CSuperblock::GetPaymentsTotalAmount`. -/
def GetPaymentsTotalAmount (vecPayments : List CGovernancePayment) : CAmount :=
  vecPayments.foldl (fun nPaymentsTotalAmount p => nPaymentsTotalAmount + p.nAmount) 0

/-- Modelled from the spec: `CTransaction::GetValueOut` (primitives/transaction.cpp
is not part of the translated files), the transaction's total output value. -/
def GetValueOut (vout : List CTxOut) : CAmount :=
  vout.foldl (fun nValueOut o => nValueOut + o.nValue) 0

/-- `CSuperblock::IsValid`, on the trigger's payment vector and the
transaction's output vector. -/
def CSuperblock.IsValid (P : ChainParams) (vecPayments : List CGovernancePayment)
    (vout : List CTxOut) (nBlockHeight : Int) (blockReward : CAmount) : Bool :=
  if !CSuperblock.IsValidBlockHeight P nBlockHeight &&
      !CSuperblock.IsSmartContract P nBlockHeight then false
  else
    let nOutputs : Int := vout.length
    let nPayments : Int := vecPayments.length
    let nMinerAndMasternodePayments : Int := nOutputs - nPayments
    if nMinerAndMasternodePayments < 0 then false
    else
      let nPaymentsTotalAmount := GetPaymentsTotalAmount vecPayments
      let nPaymentsLimit := CSuperblock.GetPaymentsLimit P nBlockHeight true
      if nPaymentsTotalAmount > nPaymentsLimit then false
      else
        let nBlockValue := GetValueOut vout
        if nBlockValue > blockReward + nPaymentsTotalAmount then false
        else scanPayments vout vecPayments 0

/-! ## Governance objects, triggers and the trigger registry -/

/-- Modelled from the spec: the kind tag of a governance object (the constants
are declared outside the translated files); the translated code names only
the trigger kind. -/
inductive GovernanceObjectType
  | GOVERNANCE_OBJECT_TRIGGER
  | otherType (tag : Nat)
deriving DecidableEq, Repr

/-- Modelled from the spec: the lifecycle status of a trigger (the constants
are declared outside the translated files): the four codes named by the
translated code, and any other value of the `int` status. -/
inductive SeenObjectStatus
  | SEEN_OBJECT_IS_VALID
  | SEEN_OBJECT_ERROR_INVALID
  | SEEN_OBJECT_EXECUTED
  | SEEN_OBJECT_UNKNOWN
  | otherStatus (code : Nat)
deriving DecidableEq, Repr

/-- A JSON value as read through `UniValue`: a string, an integer number, the
null value returned for a missing key, or anything else. -/
inductive UniValue
  | VNULL
  | VSTR (s : List Char)
  | VNUM (n : Int)
  | VOTHER
deriving DecidableEq, Repr

/-- `UniValue::get_int`: the integer, or an exception. -/
def UniValue.get_int : UniValue → Except String Int
  | .VNUM n => .ok n
  | _ => .error "JSON value is not an integer as expected"

/-- `UniValue::get_str`: the string, or an exception. -/
def UniValue.get_str : UniValue → Except String (List Char)
  | .VSTR s => .ok s
  | _ => .error "JSON value is not a string as expected"

/-- `obj[key]` on a JSON object: the first value under the key, or null. -/
def jsonGet : List (String × UniValue) → String → UniValue
  | [], _ => .VNULL
  | (k, v) :: rest, key => if k = key then v else jsonGet rest key

/-- What the translated code reads from a `CGovernanceObject`: its kind, its
JSON payload, the absolute yes count of the funding signal, the cached funding
flag, and the expiry and deletion fields. -/
structure CGovernanceObject where
  nObjectType : GovernanceObjectType
  jsonObject : List (String × UniValue)
  nAbsoluteYesCountFunding : Int
  fCachedFunding : Bool
  fExpired : Bool := false
  nDeletionTime : Int := 0
deriving DecidableEq, Repr

/-- The governance-object store `governance`, read through
`FindGovernanceObject`. -/
abbrev GovStore := uint256 → Option CGovernanceObject

/-- Overwrite of the object stored under `nHash` (a write through the pointer
returned by `FindGovernanceObject`). -/
def GovStore.set (governance : GovStore) (nHash : uint256) (obj : CGovernanceObject) :
    GovStore :=
  fun k => if k = nHash then some obj else governance k

/-- The collaborators of the governance code that lie outside the translated
files: the vote-tally refresh, the required quorum level, address decoding,
the payment constructor, fixed-point parsing and the money range. -/
structure Externals where
  UpdateSentinelVariables : CGovernanceObject → CGovernanceObject
  GetRequiredQuorumLevel : Int → Int
  AddressIsValid : List Char → Bool
  AddressIsScript : List Char → Bool
  PaymentScript : List Char → Option CScript
  ParseFixedPoint : List Char → Nat → Option Int
  MAX_MONEY : Int

/-- A trigger: `CSuperblock`. -/
structure CSuperblock where
  nGovObjHash : uint256
  nBlockHeight : Int
  nStatus : SeenObjectStatus
  vecPayments : List CGovernancePayment
deriving DecidableEq, Repr

/-- `CSuperblock::GetGovernanceObject`. -/
def CSuperblock.GetGovernanceObject (governance : GovStore) (sb : CSuperblock) :
    Option CGovernanceObject :=
  governance sb.nGovObjHash

/-- Modelled from the spec: the registry `mapTrigger`, a mapping from
governance-object hash to trigger with unique keys. Its declaration
(governance-classes.h) is not among the translated files; its use in the
source (`count`, `insert(std::make_pair(...))`, `erase(it++)`, the iterator
type `trigger_m_it`) is that of a `std::map<uint256, CSuperblock_sptr>`, which
iterates in ascending key order. The entries are listed in that order; `none`
is a null pointer. -/
abbrev trigger_m_t := List (uint256 × Option CSuperblock)

/-- `std::map::count`. -/
def mapCount {β : Type} (k : uint256) (m : List (uint256 × β)) : Nat :=
  if m.any (fun p => decide (p.1 = k)) then 1 else 0

/-- `std::map::insert`: the pair goes to its place in key order; an existing
key keeps its value. -/
def mapInsert {β : Type} (k : uint256) (v : β) : List (uint256 × β) → List (uint256 × β)
  | [] => [(k, v)]
  | (k', v') :: rest =>
    if k < k' then (k, v) :: (k', v') :: rest
    else if k = k' then (k', v') :: rest
    else (k', v') :: mapInsert k v rest

/-! ## Payment schedule parsing -/

/-- `boost::split` with `is_any_of`: the pieces between delimiter characters,
empty pieces included. -/
def boostSplit (isDelim : Char → Bool) : List Char → List (List Char)
  | [] => [[]]
  | c :: cs =>
    if isDelim c then [] :: boostSplit isDelim cs
    else
      match boostSplit isDelim cs with
      | [] => [[c]]
      | t :: ts => (c :: t) :: ts

/-- `SplitBy`: split at any delimiter character, then erase every piece that
occurs inside the delimiter string (`strDelimit.find(piece) != npos`). -/
def SplitBy (strCommand strDelimit : List Char) : List (List Char) :=
  (boostSplit (fun c => strDelimit.contains c) strCommand).filter
    (fun part => !decide (part <:+: strDelimit))

/-- Modelled from the spec: `MoneyRange` (amount.h is not part of the
translated files), the valid money range `0 ≤ n ≤ MAX_MONEY`. -/
def MoneyRange (E : Externals) (nValue : CAmount) : Bool :=
  decide (0 ≤ nValue) && decide (nValue ≤ E.MAX_MONEY)

/-- `ParsePaymentAmount`; an exception is an `error`. -/
def ParsePaymentAmount (E : Externals) (strAmount : List Char) : Except String CAmount :=
  if strAmount.isEmpty then .error "ParsePaymentAmount: Amount is empty"
  else if strAmount.length > 20 then .error "ParsePaymentAmount: Amount string too long"
  else if strAmount.any (fun c => !("0123456789.".toList.contains c)) then
    .error "ParsePaymentAmount: Amount string contains invalid character"
  else
    let pos := strAmount.indexOf '.'
    if pos = 0 then
      .error "ParsePaymentAmount: Invalid amount string, leading decimal point not allowed"
    else if pos < strAmount.length ∧ (strAmount.drop (pos + 1)).contains '.' then
      .error "ParsePaymentAmount: Invalid amount string, too many decimal points"
    else
      match E.ParseFixedPoint strAmount 8 with
      | none => .error "ParsePaymentAmount: ParseFixedPoint failed"
      | some nAmount =>
        if !MoneyRange E nAmount then
          .error "ParsePaymentAmount: Invalid amount string, value outside of valid money range"
        else .ok nAmount

/-- The loop of `CSuperblock::ParsePaymentSchedule` over the address and amount
tokens, with the payment vector built so far. The result is the exception, if
one is thrown, and the payment vector as the loop leaves it. -/
def parsePaymentLoop (E : Externals) :
    List (List Char) → List (List Char) → List CGovernancePayment →
      Except String Unit × List CGovernancePayment
  | address :: addresses, amount :: amounts, vecPayments =>
    if !E.AddressIsValid address then
      (.error "CSuperblock::ParsePaymentSchedule -- Invalid Address", vecPayments)
    else if E.AddressIsScript address then
      (.error "CSuperblock::ParsePaymentSchedule -- Script addresses are not supported yet",
        vecPayments)
    else
      match ParsePaymentAmount E amount with
      | .error e => (.error e, vecPayments)
      | .ok nAmount =>
        match E.PaymentScript address with
        | some script =>
          parsePaymentLoop E addresses amounts (vecPayments ++ [⟨script, nAmount⟩])
        | none => (.error "CSuperblock::ParsePaymentSchedule -- Invalid payment found", [])
  | _, _, vecPayments => (.ok (), vecPayments)

/-- `CSuperblock::ParsePaymentSchedule`, on the payment vector `vecPayments` of
the object. -/
def CSuperblock.ParsePaymentSchedule (E : Externals) (vecPayments : List CGovernancePayment)
    (strPaymentAddresses strPaymentAmounts : List Char) :
    Except String Unit × List CGovernancePayment :=
  let vecParsed1 := SplitBy strPaymentAddresses ['|']
  let vecParsed2 := SplitBy strPaymentAmounts ['|']
  if vecParsed1.length ≠ vecParsed2.length then
    (.error "CSuperblock::ParsePaymentSchedule -- Mismatched payments and amounts", vecPayments)
  else if vecParsed1.length = 0 then
    (.error "CSuperblock::ParsePaymentSchedule -- Error no payments", vecPayments)
  else parsePaymentLoop E vecParsed1 vecParsed2 vecPayments

/-- The constructor `CSuperblock::CSuperblock(uint256& nHash)`; an exception
leaves no object. -/
def CSuperblock.construct (E : Externals) (governance : GovStore) (nHash : uint256) :
    Except String CSuperblock :=
  match governance nHash with
  | none => .error "CSuperblock: Failed to find Governance Object"
  | some pGovObj =>
    if pGovObj.nObjectType ≠ GovernanceObjectType.GOVERNANCE_OBJECT_TRIGGER then
      .error "CSuperblock: Governance Object not a trigger"
    else
      let obj := pGovObj.jsonObject
      match (jsonGet obj "event_block_height").get_int with
      | .error e => .error e
      | .ok nBlockHeight =>
        match (jsonGet obj "payment_addresses").get_str with
        | .error e => .error e
        | .ok strAddresses =>
          match (jsonGet obj "payment_amounts").get_str with
          | .error e => .error e
          | .ok strAmounts =>
            match CSuperblock.ParsePaymentSchedule E [] strAddresses strAmounts with
            | (.error e, _) => .error e
            | (.ok _, vecPayments) =>
              .ok { nGovObjHash := nHash, nBlockHeight := nBlockHeight,
                    nStatus := SeenObjectStatus.SEEN_OBJECT_UNKNOWN,
                    vecPayments := vecPayments }

/-- `CGovernanceTriggerManager::AddNewTrigger`: the returned flag and the
registry afterwards. -/
def CGovernanceTriggerManager.AddNewTrigger (E : Externals) (governance : GovStore)
    (mapTrigger : trigger_m_t) (nHash : uint256) : Bool × trigger_m_t :=
  if mapCount nHash mapTrigger ≠ 0 then (false, mapTrigger)
  else
    match CSuperblock.construct E governance nHash with
    | .error _ => (false, mapTrigger)
    | .ok pSuperblock =>
      (true, mapInsert nHash
        (some { pSuperblock with nStatus := SeenObjectStatus.SEEN_OBJECT_IS_VALID })
        mapTrigger)

/-- `CGovernanceTriggerManager::GetActiveTriggers`: the triggers, in map
order, whose key has a governance object. -/
def CGovernanceTriggerManager.GetActiveTriggers (governance : GovStore) :
    trigger_m_t → List (Option CSuperblock)
  | [] => []
  | pair :: rest =>
    match governance pair.1 with
    | some _ => pair.2 :: CGovernanceTriggerManager.GetActiveTriggers governance rest
    | none => CGovernanceTriggerManager.GetActiveTriggers governance rest

/-! ## Superblock selection -/

/-- The loop of `CSuperblockManager::IsSuperblockTriggered` over the active
triggers. `UpdateSentinelVariables` writes the refreshed object back to the
store. `bPassed` is computed and logged only. -/
def isSuperblockTriggeredLoop (P : ChainParams) (E : Externals) (nBlockHeight : Int) :
    List (Option CSuperblock) → GovStore → Bool × GovStore
  | [], governance => (false, governance)
  | none :: rest, governance => isSuperblockTriggeredLoop P E nBlockHeight rest governance
  | some pSuperblock :: rest, governance =>
    match pSuperblock.GetGovernanceObject governance with
    | none => isSuperblockTriggeredLoop P E nBlockHeight rest governance
    | some pObj =>
      if nBlockHeight ≠ pSuperblock.nBlockHeight then
        isSuperblockTriggeredLoop P E nBlockHeight rest governance
      else
        let pObj1 := E.UpdateSentinelVariables pObj
        let governance1 := governance.set pSuperblock.nGovObjHash pObj1
        if pObj1.fCachedFunding then
          if CSuperblock.IsSmartContract P nBlockHeight then
            let iVotes := pObj1.nAbsoluteYesCountFunding
            let iRequiredVotes := E.GetRequiredQuorumLevel nBlockHeight
            let _bPassed := decide (iVotes ≥ iRequiredVotes)
            (true, governance1)
          else
            (true, governance1)
        else
          isSuperblockTriggeredLoop P E nBlockHeight rest governance1

/-- `CSuperblockManager::IsSuperblockTriggered`: the returned flag and the
governance store afterwards. -/
def CSuperblockManager.IsSuperblockTriggered (P : ChainParams) (E : Externals)
    (governance : GovStore) (mapTrigger : trigger_m_t) (nBlockHeight : Int) :
    Bool × GovStore :=
  if !CSuperblock.IsValidBlockHeight P nBlockHeight then (false, governance)
  else
    let vecTriggers := CGovernanceTriggerManager.GetActiveTriggers governance mapTrigger
    isSuperblockTriggeredLoop P E nBlockHeight vecTriggers governance

/-- The loop of `CSuperblockManager::GetBestSuperblock`, with the running
`nYesCount` and `pSuperblockRet`. -/
def getBestSuperblockLoop (governance : GovStore) (nBlockHeight : Int) :
    List (Option CSuperblock) → Int → Option CSuperblock → Int × Option CSuperblock
  | [], nYesCount, pSuperblockRet => (nYesCount, pSuperblockRet)
  | none :: rest, nYesCount, pSuperblockRet =>
    getBestSuperblockLoop governance nBlockHeight rest nYesCount pSuperblockRet
  | some pSuperblock :: rest, nYesCount, pSuperblockRet =>
    match pSuperblock.GetGovernanceObject governance with
    | none => getBestSuperblockLoop governance nBlockHeight rest nYesCount pSuperblockRet
    | some pObj =>
      if nBlockHeight ≠ pSuperblock.nBlockHeight then
        getBestSuperblockLoop governance nBlockHeight rest nYesCount pSuperblockRet
      else
        let nTempYesCount := pObj.nAbsoluteYesCountFunding
        if nTempYesCount > nYesCount then
          getBestSuperblockLoop governance nBlockHeight rest nTempYesCount (some pSuperblock)
        else
          getBestSuperblockLoop governance nBlockHeight rest nYesCount pSuperblockRet

/-- `CSuperblockManager::GetBestSuperblock`: the returned flag and the value
of the reference parameter `pSuperblockRet` afterwards. -/
def CSuperblockManager.GetBestSuperblock (P : ChainParams) (governance : GovStore)
    (mapTrigger : trigger_m_t) (pSuperblockRet : Option CSuperblock) (nBlockHeight : Int) :
    Bool × Option CSuperblock :=
  if !CSuperblock.IsValidBlockHeight P nBlockHeight &&
      !CSuperblock.IsSmartContract P nBlockHeight then (false, pSuperblockRet)
  else
    let vecTriggers := CGovernanceTriggerManager.GetActiveTriggers governance mapTrigger
    let r := getBestSuperblockLoop governance nBlockHeight vecTriggers 0 pSuperblockRet
    (decide (r.1 > 0), r.2)

/-- `CSuperblockManager::IsValid`: the best trigger's own check, false when
there is no best trigger. -/
def CSuperblockManager.IsValid (P : ChainParams) (governance : GovStore)
    (mapTrigger : trigger_m_t) (vout : List CTxOut) (nBlockHeight : Int)
    (blockReward : CAmount) : Bool :=
  match CSuperblockManager.GetBestSuperblock P governance mapTrigger none nBlockHeight with
  | (true, some pSuperblock) =>
    CSuperblock.IsValid P pSuperblock.vecPayments vout nBlockHeight blockReward
  | _ => false

/-! ## Expiry and removal of triggers -/

/-- Modelled from the spec: `CGovernanceObject::SetExpired` (governance-object.h
is not among the translated files), which flags the object expired. -/
def CGovernanceObject.SetExpired (obj : CGovernanceObject) : CGovernanceObject :=
  { obj with fExpired := true }

/-- Modelled from the spec: `CGovernanceObject::PrepareDeletion` (outside the
translated files), which schedules the object for deletion at the given
time. -/
def CGovernanceObject.PrepareDeletion (obj : CGovernanceObject) (nDeletionTime : Int) :
    CGovernanceObject :=
  { obj with nDeletionTime := nDeletionTime }

/-- A write through a pointer obtained from `FindGovernanceObject(nHash)`: no
effect when the pointer is null. -/
def GovStore.update (governance : GovStore) (nHash : uint256)
    (f : CGovernanceObject → CGovernanceObject) : GovStore :=
  match governance nHash with
  | some obj => governance.set nHash (f obj)
  | none => governance

/-- The expiry window `nExpirationBlocks` of `CSuperblock::IsExpired`. -/
def expirationBlocks (P : ChainParams) (nStatus : SeenObjectStatus) : Int :=
  match nStatus with
  | SeenObjectStatus.SEEN_OBJECT_EXECUTED => P.consensus.nSuperblockCycle
  | SeenObjectStatus.SEEN_OBJECT_IS_VALID => 576
  | _ => 24

/-- `CSuperblock::IsExpired`: the returned flag and the governance store
afterwards. `nCachedBlockHeight` is `governance.GetCachedBlockHeight()` and
`nAdjustedTime` is `GetAdjustedTime()`. The write `fExpired = true` to the
trigger's own inherited member is not modelled: the member is declared outside
the translated files and nothing translated reads it. The sum
`nBlockHeight + nExpirationBlocks` is an `int` sum. -/
def CSuperblock.IsExpired (P : ChainParams) (governance : GovStore)
    (nCachedBlockHeight nAdjustedTime : Int) (sb : CSuperblock) : Bool × GovStore :=
  let nExpirationBlocks := expirationBlocks P sb.nStatus
  let nExpirationBlock := wrapInt32 (sb.nBlockHeight + nExpirationBlocks)
  if nCachedBlockHeight > nExpirationBlock then
    (true, governance.update sb.nGovObjHash
      (fun pgovobj => { pgovobj with fExpired := true, nDeletionTime := nAdjustedTime }))
  else (false, governance)

/-- The status of a trigger after the first test of the loop body of
`CleanAndRemove`: `SEEN_OBJECT_ERROR_INVALID` when the object under the key is
missing or not a trigger. -/
def statusAfterLookup (governance : GovStore) (key : uint256) (pSuperblock : CSuperblock) :
    CSuperblock :=
  match governance key with
  | none => { pSuperblock with nStatus := SeenObjectStatus.SEEN_OBJECT_ERROR_INVALID }
  | some pObj =>
    if pObj.nObjectType ≠ GovernanceObjectType.GOVERNANCE_OBJECT_TRIGGER then
      { pSuperblock with nStatus := SeenObjectStatus.SEEN_OBJECT_ERROR_INVALID }
    else pSuperblock

/-- The `switch` of the loop body of `CleanAndRemove`: the flag `remove` and
the governance store afterwards. The call `pObj->SetExpired()` is a write to
the object under the key; the pointer is not null in that branch. -/
def removeSwitch (P : ChainParams) (nCachedBlockHeight nAdjustedTime : Int)
    (governance : GovStore) (key : uint256) (pSuperblock : CSuperblock) : Bool × GovStore :=
  match pSuperblock.nStatus with
  | SeenObjectStatus.SEEN_OBJECT_ERROR_INVALID => (true, governance)
  | SeenObjectStatus.SEEN_OBJECT_UNKNOWN => (true, governance)
  | SeenObjectStatus.SEEN_OBJECT_IS_VALID =>
    let e := pSuperblock.IsExpired P governance nCachedBlockHeight nAdjustedTime
    if e.1 then (true, e.2.update key CGovernanceObject.SetExpired) else (false, e.2)
  | SeenObjectStatus.SEEN_OBJECT_EXECUTED =>
    let e := pSuperblock.IsExpired P governance nCachedBlockHeight nAdjustedTime
    if e.1 then (true, e.2.update key CGovernanceObject.SetExpired) else (false, e.2)
  | SeenObjectStatus.otherStatus _ => (false, governance)

/-- The loop of `CGovernanceTriggerManager::CleanAndRemove` over the registry:
the registry and the governance store afterwards. A removed entry whose object
pointer is not null has `PrepareDeletion(GetAdjustedTime())` called on the
object. -/
def cleanAndRemoveLoop (P : ChainParams) (nCachedBlockHeight nAdjustedTime : Int) :
    trigger_m_t → GovStore → trigger_m_t × GovStore
  | [], governance => ([], governance)
  | (_, none) :: rest, governance =>
    cleanAndRemoveLoop P nCachedBlockHeight nAdjustedTime rest governance
  | (key, some pSuperblock) :: rest, governance =>
    let sb1 := statusAfterLookup governance key pSuperblock
    let r := removeSwitch P nCachedBlockHeight nAdjustedTime governance key sb1
    if r.1 then
      cleanAndRemoveLoop P nCachedBlockHeight nAdjustedTime rest
        (r.2.update key (fun pObj => pObj.PrepareDeletion nAdjustedTime))
    else
      let res := cleanAndRemoveLoop P nCachedBlockHeight nAdjustedTime rest r.2
      ((key, some sb1) :: res.1, res.2)

/-- `CGovernanceTriggerManager::CleanAndRemove`. -/
def CGovernanceTriggerManager.CleanAndRemove (P : ChainParams)
    (nCachedBlockHeight nAdjustedTime : Int) (mapTrigger : trigger_m_t)
    (governance : GovStore) : trigger_m_t × GovStore :=
  cleanAndRemoveLoop P nCachedBlockHeight nAdjustedTime mapTrigger governance

/-! ## Superblock payments -/

/-- `GetQTPhaseXML`. `getValStr` is `UniValue::getValStr`, which lies outside
the translated files. -/
def GetQTPhaseXML (getValStr : UniValue → List Char) (governance : GovStore)
    (gObj : uint256) : List Char :=
  let dflt := "<price>-0.00</price><qtphase>-0.00</qtphase><btcprice>-0</btcprice>".toList
  match governance gObj with
  | some myGov =>
    let obj := myGov.jsonObject
    if obj.length > 0 then
      let sPrice := getValStr (jsonGet obj "price")
      let sQTPhase := getValStr (jsonGet obj "qtphase")
      let sBTC := getValStr (jsonGet obj "btcprice")
      let sSporkData := getValStr (jsonGet obj "spork_data")
      "<price>".toList ++ sPrice ++ "</price><qtphase>".toList ++ sQTPhase ++
        "</qtphase><btcprice>".toList ++ sBTC ++ "</btcprice>".toList ++ sSporkData
    else dflt
  | none => dflt

/-- The loop of `CSuperblockManager::GetSuperblockPayments` over the payments,
with the flag `bQTPhaseEmitted` and the output vector built so far. The hash
of the trigger's governance object is the hash it is stored under. `none` is
the dereference of a null governance-object pointer. -/
def superblockPaymentsLoop (getValStr : UniValue → List Char) (governance : GovStore)
    (pSuperblock : CSuperblock) :
    List CGovernancePayment → Bool → List CTxOut → Option (List CTxOut)
  | [], _, voutSuperblockRet => some voutSuperblockRet
  | payment :: rest, bQTPhaseEmitted, voutSuperblockRet =>
    let txout : CTxOut := { nValue := payment.nAmount, scriptPubKey := payment.script }
    if !bQTPhaseEmitted then
      match pSuperblock.GetGovernanceObject governance with
      | none => none
      | some _ =>
        superblockPaymentsLoop getValStr governance pSuperblock rest true
          (voutSuperblockRet ++
            [{ txout with
                sTxOutMessage := GetQTPhaseXML getValStr governance pSuperblock.nGovObjHash }])
    else
      superblockPaymentsLoop getValStr governance pSuperblock rest bQTPhaseEmitted
        (voutSuperblockRet ++ [txout])

/-- `CSuperblockManager::GetSuperblockPayments`: the returned flag and the
reference parameter `voutSuperblockRet` afterwards; `none` is the dereference
of a null pointer. -/
def CSuperblockManager.GetSuperblockPayments (P : ChainParams)
    (getValStr : UniValue → List Char) (governance : GovStore) (mapTrigger : trigger_m_t)
    (nBlockHeight : Int) (voutSuperblockRet : List CTxOut) : Option (Bool × List CTxOut) :=
  match CSuperblockManager.GetBestSuperblock P governance mapTrigger none nBlockHeight with
  | (false, _) => some (false, voutSuperblockRet)
  | (true, none) => none
  | (true, some pSuperblock) =>
    match superblockPaymentsLoop getValStr governance pSuperblock pSuperblock.vecPayments
        false [] with
    | none => none
    | some vout => some (true, vout)

/-! ## Coinbase special transaction (`evo/cbtx.cpp`) -/

/-- Modelled from the spec: the coinbase payload `CCbTx` (declared in cbtx.h,
outside the translated files): version, height and the two merkle roots. -/
structure CCbTx where
  nVersion : Nat
  nHeight : Int
  merkleRootMNList : uint256
  merkleRootQuorums : uint256
deriving DecidableEq, Repr

/-- What the translated code reads from a `CTransaction`. -/
structure CTransaction where
  nVersion : Int
  nType : Int
  vout : List CTxOut
  vExtraPayload : List Nat
deriving DecidableEq, Repr

/-- A block: its transactions. -/
structure CBlock where
  vtx : List CTransaction
deriving DecidableEq, Repr

/-- A block index entry with its `pprev` link. -/
inductive CBlockIndex where
  | mk (nHeight : Int) (hashBlock : uint256) (pprev : Option CBlockIndex)

/-- The field `nHeight` of a block index. -/
def CBlockIndex.nHeight : CBlockIndex → Int
  | .mk nHeight _ _ => nHeight

/-- The link `pprev` of a block index; `none` is a null pointer. -/
def CBlockIndex.pprev : CBlockIndex → Option CBlockIndex
  | .mk _ _ pprev => pprev

/-- The outcome of a validation function that reports through
`CValidationState`: `accept` is a return of true with the state untouched,
`DoS level reason` is `return state.DoS(level, false, REJECT_INVALID, reason)`. -/
inductive ValidationResult
  | accept
  | DoS (level : Nat) (strRejectReason : String)
deriving DecidableEq, Repr

/-- A final quorum commitment, as far as the translated code reads it. -/
structure CFinalCommitment where
  llmqType : Nat
  isNull : Bool
  content : Nat
deriving DecidableEq, Repr

/-- The fields of `Consensus::LLMQParams` read by the translated code. -/
structure LLMQParams where
  type : Nat
  signingActiveQuorumCount : Nat
deriving DecidableEq, Repr

abbrev CDeterministicMNList := List Nat
abbrev CSimplifiedMNListEntry := Nat

/-- The collaborators of `cbtx.cpp` that lie outside the translated files:
transaction-type constants, coinbase test, payload deserialisation, the
DIP0008 deployment state, spork values, the masternode-list builder and its
simplified view, the quorum-commitment store, hashing and merkle roots. A
block index in the quorum store's answer is named by its block hash. -/
structure EvoExternals where
  TRANSACTION_COINBASE : Int
  TRANSACTION_QUORUM_COMMITMENT : Int
  CURRENT_VERSION : Nat
  IsCoinBase : CTransaction → Bool
  GetCbTxPayload : CTransaction → Option CCbTx
  fDIP0008Active : CBlockIndex → Bool
  fChainLocksActive : Bool
  nSpork15Value : Int
  BuildNewListFromBlock : CBlock → Option CBlockIndex → Option CDeterministicMNList
  CSimplifiedMNList : CDeterministicMNList → List CSimplifiedMNListEntry
  CalcMerkleRoot : List CSimplifiedMNListEntry → uint256 × Bool
  GetMinedAndActiveCommitmentsUntilBlock : Option CBlockIndex → List (Nat × List uint256)
  GetMinedCommitment : Nat → uint256 → Option CFinalCommitment
  SerializeHash : CFinalCommitment → uint256
  GetCommitmentPayload : CTransaction → Option CFinalCommitment
  llmqs : Nat → Option LLMQParams
  ComputeMerkleRoot : List uint256 → uint256 × Bool

/-- `CheckCbTx`. -/
def CheckCbTx (X : EvoExternals) (tx : CTransaction) (pindexPrev : Option CBlockIndex) :
    ValidationResult :=
  if tx.nType ≠ X.TRANSACTION_COINBASE then .DoS 100 "bad-cbtx-type"
  else if !X.IsCoinBase tx then .DoS 100 "bad-cbtx-invalid"
  else
    match X.GetCbTxPayload tx with
    | none => .DoS 100 "bad-cbtx-payload"
    | some cbTx =>
      if cbTx.nVersion = 0 ∨ cbTx.nVersion > X.CURRENT_VERSION then
        .DoS 100 "bad-cbtx-version"
      else
        match pindexPrev with
        | some prev =>
          if prev.nHeight + 1 ≠ cbTx.nHeight then .DoS 100 "bad-cbtx-height"
          else
            let fDIP0008Active := X.fDIP0008Active prev
            if fDIP0008Active = true ∧ cbTx.nVersion < 2 then .DoS 100 "bad-cbtx-version"
            else .accept
        | none => .accept

/-- The static cache of `CalcCbTxMerkleRootMNList`. -/
structure MNListCache where
  smlCached : List CSimplifiedMNListEntry := []
  merkleRootCached : uint256 := 0
  mutatedCached : Bool := false
deriving DecidableEq, Repr

/-- `CalcCbTxMerkleRootMNList`: the returned flag, `merkleRootRet` and the
cache afterwards. -/
def CalcCbTxMerkleRootMNList (X : EvoExternals) (block : CBlock)
    (pindexPrev : Option CBlockIndex) (merkleRootRet : uint256) (cache : MNListCache) :
    Bool × uint256 × MNListCache :=
  match X.BuildNewListFromBlock block pindexPrev with
  | none => (false, merkleRootRet, cache)
  | some tmpMNList =>
    let sml := X.CSimplifiedMNList tmpMNList
    if sml = cache.smlCached then
      (!cache.mutatedCached, cache.merkleRootCached, cache)
    else
      let r := X.CalcMerkleRoot sml
      (!r.2, r.1, { smlCached := sml, merkleRootCached := r.1, mutatedCached := r.2 })

/-- Access `m[k]` on a `std::map` followed by a change of the value: a missing
key is first created with the default value. -/
def mapAt {β : Type} (k : Nat) (dflt : β) (f : β → β) : List (Nat × β) → List (Nat × β)
  | [] => [(k, f dflt)]
  | (k', v') :: rest =>
    if k < k' then (k, f dflt) :: (k', v') :: rest
    else if k = k' then (k', f v') :: rest
    else (k', v') :: mapAt k dflt f rest

/-- The static caches of `CalcCbTxMerkleRootQuorums`. -/
structure QuorumCache where
  quorumsCached : List (Nat × List uint256) := []
  qcHashesCached : List (Nat × List uint256) := []
deriving DecidableEq, Repr

/-- The hashes of the mined commitments of one quorum type; `none` is the
failure of `assert(found)`. -/
def minedCommitmentHashes (X : EvoExternals) (llmqType : Nat) :
    List uint256 → Option (List uint256)
  | [] => some []
  | blockHash :: rest =>
    match X.GetMinedCommitment llmqType blockHash with
    | none => none
    | some qc =>
      match minedCommitmentHashes X llmqType rest with
      | none => none
      | some hs => some (X.SerializeHash qc :: hs)

/-- The loop of `CalcCbTxMerkleRootQuorums` over the quorum store's answer,
filling `qcHashes`. -/
def collectMinedHashes (X : EvoExternals) :
    List (Nat × List uint256) → List (Nat × List uint256) → Option (List (Nat × List uint256))
  | [], qcHashes => some qcHashes
  | p :: rest, qcHashes =>
    match minedCommitmentHashes X p.1 p.2 with
    | none => none
    | some hs => collectMinedHashes X rest (mapAt p.1 [] (fun v => v ++ hs) qcHashes)

/-- The vector found by `m[k]`: the value under `k`, or a fresh empty
default. -/
def mapGetD {β : Type} (k : Nat) (dflt : β) : List (Nat × β) → β
  | [] => dflt
  | (k', v') :: rest => if k = k' then v' else mapGetD k dflt rest

/-- The loop of `CalcCbTxMerkleRootQuorums` over the transactions of the block
after the coinbase, adding the commitments of the block itself. `v` is the
vector `qcHashes[params.type]` before, `v1` after the `pop_back` and the
`emplace_back`. `none` is a failed assertion or the exception of `llmqs.at`. -/
def addBlockCommitments (X : EvoExternals) :
    List CTransaction → List (Nat × List uint256) → Option (List (Nat × List uint256))
  | [], qcHashes => some qcHashes
  | tx :: rest, qcHashes =>
    if tx.nVersion = 3 ∧ tx.nType = X.TRANSACTION_QUORUM_COMMITMENT then
      match X.GetCommitmentPayload tx with
      | none => none
      | some commitment =>
        if commitment.isNull then addBlockCommitments X rest qcHashes
        else
          let qcHash := X.SerializeHash commitment
          match X.llmqs commitment.llmqType with
          | none => none
          | some params =>
            let v := mapGetD params.type [] qcHashes
            let v1 :=
              (if v.length = params.signingActiveQuorumCount then v.dropLast else v) ++ [qcHash]
            if v1.length ≤ params.signingActiveQuorumCount then
              addBlockCommitments X rest (mapAt params.type [] (fun _ => v1) qcHashes)
            else none
    else addBlockCommitments X rest qcHashes

/-- `CalcCbTxMerkleRootQuorums`: the returned flag, `merkleRootRet` (assigned
on every return) and the caches afterwards; `none` when the function does not
return (failed assertion, exception). -/
def CalcCbTxMerkleRootQuorums (X : EvoExternals) (block : CBlock)
    (pindexPrev : Option CBlockIndex) (cache : QuorumCache) :
    Option (Bool × uint256 × QuorumCache) :=
  let quorums := X.GetMinedAndActiveCommitmentsUntilBlock pindexPrev
  let filled : Option (List (Nat × List uint256) × QuorumCache) :=
    if quorums = cache.quorumsCached then some (cache.qcHashesCached, cache)
    else
      match collectMinedHashes X quorums [] with
      | none => none
      | some qcHashes => some (qcHashes, { quorumsCached := quorums, qcHashesCached := qcHashes })
  match filled with
  | none => none
  | some (qcHashes0, cache1) =>
    match addBlockCommitments X (block.vtx.drop 1) qcHashes0 with
    | none => none
    | some qcHashes =>
      let qcHashesVec := (qcHashes.map Prod.snd).flatten
      let sorted := qcHashesVec.insertionSort (· ≤ ·)
      let r := X.ComputeMerkleRoot sorted
      some (!r.2, r.1, cache1)

/-- The static caches read by `CheckCbTxMerkleRoots`. -/
structure MerkleRootCache where
  mnList : MNListCache := {}
  quorums : QuorumCache := {}
deriving DecidableEq, Repr

/-- `CheckCbTxMerkleRoots`: the outcome and the caches afterwards; `none` when
the function does not return. -/
def CheckCbTxMerkleRoots (P : ChainParams) (X : EvoExternals) (block : CBlock)
    (pindex : CBlockIndex) (cache : MerkleRootCache) :
    Option (ValidationResult × MerkleRootCache) :=
  match block.vtx with
  | [] => none
  | coinbase :: _ =>
    if coinbase.nType ≠ X.TRANSACTION_COINBASE then some (.accept, cache)
    else
      let fChainLocksActive := X.fChainLocksActive
      let fLLMQActive := decide (pindex.nHeight ≥ P.consensus.LLMQHeight)
      let fDMEnabled := decide (pindex.nHeight ≥ X.nSpork15Value)
      if !fLLMQActive || !fChainLocksActive || !fDMEnabled then some (.accept, cache)
      else
        match X.GetCbTxPayload coinbase with
        | none => some (.DoS 100 "bad-cbtx-payload", cache)
        | some cbTx =>
          let fActive := decide (pindex.nHeight ≥ P.consensus.DIP0003HeightPhase2)
          if fActive then
            let mn := CalcCbTxMerkleRootMNList X block pindex.pprev 0 cache.mnList
            let cache1 : MerkleRootCache := { cache with mnList := mn.2.2 }
            if !mn.1 then some (.DoS 100 "bad-cbtx-mnmerkleroot", cache1)
            else if mn.2.1 ≠ cbTx.merkleRootMNList then
              some (.DoS 100 "bad-cbtx-mnmerkleroot", cache1)
            else if cbTx.nVersion ≥ 2 then
              match CalcCbTxMerkleRootQuorums X block pindex.pprev cache1.quorums with
              | none => none
              | some q =>
                let cache2 : MerkleRootCache := { cache1 with quorums := q.2.2 }
                if !q.1 then some (.DoS 100 "bad-cbtx-quorummerkleroot", cache2)
                else if q.2.1 ≠ cbTx.merkleRootQuorums then
                  some (.DoS 100 "bad-cbtx-quorummerkleroot-2", cache2)
                else some (.accept, cache2)
            else some (.accept, cache1)
          else some (.accept, cache)

/-- The last part of `CalcCbTxMerkleRootQuorums`: the hash lists are
concatenated in map order, sorted, and hashed to a merkle root; the returned
flag and `merkleRootRet`. -/
def quorumsMerkleRoot (X : EvoExternals) (qcHashes : List (Nat × List uint256)) :
    Bool × uint256 :=
  let qcHashesVec := (qcHashes.map Prod.snd).flatten
  let sorted := qcHashesVec.insertionSort (· ≤ ·)
  let r := X.ComputeMerkleRoot sorted
  (!r.2, r.1)

/-- The conversion `%d` of `strprintf` on an integer: decimal digits, with a
minus sign for a negative number. -/
def formatD (n : Int) : List Char :=
  if n < 0 then '-' :: Nat.toDigits 10 n.natAbs else Nat.toDigits 10 n.toNat

/-- `CCbTx::ToString`. The arguments of `strprintf` are, in this order,
`nVersion`, `nHeight` and the strings of the two roots. `ToString256` is
`uint256::ToString`, which lies outside the translated files. -/
def CCbTx.ToString (ToString256 : uint256 → List Char) (cbTx : CCbTx) : List Char :=
  "CCbTx(nHeight=".toList ++ formatD cbTx.nVersion ++
    ", nVersion=".toList ++ formatD cbTx.nHeight ++
    ", merkleRootMNList=".toList ++ ToString256 cbTx.merkleRootMNList ++
    ", merkleRootQuorums=".toList ++ ToString256 cbTx.merkleRootQuorums ++ ")".toList

/-! ## Sequences of calls on the static caches -/

/-- The static cache of `CalcCbTxMerkleRootMNList` after a sequence of calls
(block, previous index, initial value of `merkleRootRet`), from the given
cache. -/
def mnListCacheAfter (X : EvoExternals) :
    List (CBlock × Option CBlockIndex × uint256) → MNListCache → MNListCache
  | [], cache => cache
  | call :: rest, cache =>
    mnListCacheAfter X rest
      (CalcCbTxMerkleRootMNList X call.1 call.2.1 call.2.2 cache).2.2

/-- The static caches of `CalcCbTxMerkleRootQuorums` after a sequence of calls
(block, previous index), from the given caches; `none` when a call does not
return. -/
def quorumCacheAfter (X : EvoExternals) :
    List (CBlock × Option CBlockIndex) → QuorumCache → Option QuorumCache
  | [], cache => some cache
  | call :: rest, cache =>
    match CalcCbTxMerkleRootQuorums X call.1 call.2 cache with
    | none => none
    | some r => quorumCacheAfter X rest r.2.2

/-- The commitments that the loop of `CalcCbTxMerkleRootQuorums` over the
block's transactions folds in, in block order: for each non-null commitment the
parameters of its quorum type and its hash. `none` when a payload cannot be
read (`assert(false)`) or the quorum type is unknown (`llmqs.at` throws). -/
def blockCommitments (X : EvoExternals) :
    List CTransaction → Option (List (LLMQParams × uint256))
  | [] => some []
  | tx :: rest =>
    if tx.nVersion = 3 ∧ tx.nType = X.TRANSACTION_QUORUM_COMMITMENT then
      match X.GetCommitmentPayload tx with
      | none => none
      | some commitment =>
        if commitment.isNull then blockCommitments X rest
        else
          match X.llmqs commitment.llmqType with
          | none => none
          | some params =>
            match blockCommitments X rest with
            | none => none
            | some cs => some ((params, X.SerializeHash commitment) :: cs)
    else blockCommitments X rest

/-- The vector `v` of a quorum type after one commitment hash is folded in:
`pop_back` when the vector holds `signingActiveQuorumCount` hashes, then
`emplace_back`. -/
def foldedIn (params : LLMQParams) (qcHash : uint256) (v : List uint256) : List uint256 :=
  (if v.length = params.signingActiveQuorumCount then v.dropLast else v) ++ [qcHash]

/-! ## Parts of the budget computation

The steps of `CSuperblock::GetPaymentsLimit` as separate definitions, used to
state its properties; `GetPaymentsLimit_eq_steps` shows that the function is
their composition. -/

/-- The C++ expression `n * f`, with `n` an integer and `f` a `double`,
assigned to a `CAmount`: conversion of `n`, one rounded multiplication,
truncation towards zero. -/
def mulByDouble (n : Int) (f : Dbl) : CAmount :=
  (Dbl.mul (Dbl.ofInt n) f).toCAmount

/-- The class selection of `GetPaymentsLimit` (the `if / else if` chain):
`(nSuperblockCycle, nBudgetFactor, nType)`, or `none` where the function
returns 0. -/
def budgetClass (P : ChainParams) (nBlockHeight : Int) : Option (Int × Dbl × Nat) :=
  if CSuperblock.IsValidBlockHeight P nBlockHeight then
    some (P.consensus.nSuperblockCycle, Dbl.lit 30 100, 0)
  else if CSuperblock.IsDCCSuperblock P nBlockHeight then
    some (P.consensus.nDCCSuperblockCycle,
      if P.fProd && decide (nBlockHeight > 33600) &&
          decide (nBlockHeight < P.consensus.PODC_LAST_BLOCK) then Dbl.lit 1 1
      else Dbl.lit 65 100, 1)
  else if CSuperblock.IsSmartContract P nBlockHeight then
    some (P.consensus.nDCCSuperblockCycle,
      if nBlockHeight > P.consensus.POOM_PHASEOUT_HEIGHT then Dbl.lit 42 100
      else Dbl.lit 65 100, 2)
  else none

/-- The assessment height `nAssessmentHeight` of `GetPaymentsLimit`. -/
def assessmentHeight (P : ChainParams) (nBlockHeight : Int) : Int :=
  if nBlockHeight > P.consensus.QTHeight then nBlockHeight - 1 - P.BLOCKS_PER_DAY * 32
  else nBlockHeight - 1

/-- The value of `nPaymentsLimit` in `GetPaymentsLimit` before any clamping:
`nSuperblockPartOfSubsidy * nSuperblockCycle * nBudgetFactor`. -/
def unclampedPaymentsLimit (P : ChainParams) (nBlockHeight : Int) : CAmount :=
  match budgetClass P nBlockHeight with
  | none => 0
  | some (nSuperblockCycle, nBudgetFactor, _) =>
    mulByDouble
      (P.GetBlockSubsidy 486585255 (assessmentHeight P nBlockHeight) * nSuperblockCycle)
      nBudgetFactor

/-- The absolute ceiling `nAbsoluteMaxMonthlyBudget` of `GetPaymentsLimit`:
`MAX_BLOCK_SUBSIDY * BLOCKS_PER_DAY * 30 * .20 * COIN`. -/
def absoluteMaxMonthlyBudget (P : ChainParams) : CAmount :=
  (Dbl.mul (Dbl.mul (Dbl.ofInt (P.MAX_BLOCK_SUBSIDY * P.BLOCKS_PER_DAY * 30))
    (Dbl.lit 20 100)) (Dbl.ofInt P.COIN)).toCAmount

/-- The tail of `GetPaymentsLimit` after the unclamped limit is computed: the
absolute ceiling, the fixed ceilings of the production network, and the whale
allocation of the active daily class. -/
def clampPaymentsLimit (P : ChainParams) (nBlockHeight : Int) (nType : Nat)
    (fIncludeWhaleStakes : Bool) (nPaymentsLimit : CAmount) : CAmount :=
  let nMaxMonthlyBudget : CAmount := 13500000 * P.COIN
  let nMaxDailyBudget : CAmount := 1000000 * P.COIN
  let nPaymentsLimit1 : CAmount :=
    if nPaymentsLimit > absoluteMaxMonthlyBudget P then absoluteMaxMonthlyBudget P
    else nPaymentsLimit
  let nPaymentsLimit2 : CAmount :=
    if P.NetworkIDString = "main" then
      if nType = 0 ∧ nBlockHeight > P.consensus.EVOLUTION_CUTOVER_HEIGHT - 6150 ∧
          nPaymentsLimit1 > nMaxMonthlyBudget then nMaxMonthlyBudget
      else if nType = 2 ∧ nBlockHeight > P.consensus.EVOLUTION_CUTOVER_HEIGHT ∧
          nPaymentsLimit1 > nMaxDailyBudget then nMaxDailyBudget
      else nPaymentsLimit1
    else nPaymentsLimit1
  if nType = 2 ∧ fIncludeWhaleStakes = true then
    nPaymentsLimit2 + P.MAX_DAILY_WHALE_COMMITMENTS * P.COIN
  else nPaymentsLimit2

/-- Sample constants of a chain with network id `main`: monthly cycle
205 * 30 from height 6150, daily cycle 205, `COIN` 10^8, at most 20000 coins
per block, 205 blocks per day, and a block subsidy of 10000 coins below
assessment height 125000 and 5000 coins from there on. -/
def mainParams : ChainParams :=
  { consensus :=
      { nSuperblockStartBlock := 6150, nSuperblockCycle := 6150,
        nDCCSuperblockStartBlock := 33451, nDCCSuperblockCycle := 205,
        FPOG_CUTOVER_HEIGHT := 100000, F13000_CUTOVER_HEIGHT := 57700,
        PODC_LAST_BLOCK := 107000, POOM_PHASEOUT_HEIGHT := 200000, QTHeight := 124000,
        EVOLUTION_CUTOVER_HEIGHT := 123200, LLMQHeight := 0, DIP0003HeightPhase2 := 0 },
    NetworkIDString := "main", fProd := true, COIN := 100000000,
    MAX_BLOCK_SUBSIDY := 20000, BLOCKS_PER_DAY := 205,
    MAX_DAILY_WHALE_COMMITMENTS := 5000000,
    GetBlockSubsidy := fun _ nHeight =>
      if nHeight < 125000 then 1000000000000 else 500000000000 }

/-! ## Predicates of the statements -/

/-- Output position `j` holds an output equal, in script and amount, to `p`. -/
def paidAt (vout : List CTxOut) (p : CGovernancePayment) (j : Nat) : Prop :=
  ∃ o, vout[j]? = some o ∧ paymentMatch p o = true

/-- Trigger `sb` is among the triggers `l`, has target height `h`, and its
governance object is `obj`. -/
def matchingTrigger (governance : GovStore) (h : Int) (l : List (Option CSuperblock))
    (sb : CSuperblock) (obj : CGovernanceObject) : Prop :=
  some sb ∈ l ∧ sb.nBlockHeight = h ∧ sb.GetGovernanceObject governance = some obj

/-- The trigger of a registry entry, if the pointer is not null, carries the
key of the entry as its governance-object hash. -/
def entryKeyed (p : uint256 × Option CSuperblock) : Bool :=
  match p.2 with
  | none => true
  | some sb => decide (sb.nGovObjHash = p.1)

/-- The registry invariant of `mapTrigger`: keys strictly ascending (it is a
map), and each trigger stored under its own governance-object hash (as
`AddNewTrigger` stores it). -/
def RegistryWF (mapTrigger : trigger_m_t) : Prop :=
  mapTrigger.Pairwise (fun a b => a.1 < b.1) ∧ ∀ p ∈ mapTrigger, entryKeyed p = true

/-- In a list of triggers, an earlier trigger has a smaller hash than a later
one. -/
def hashLt (a b : Option CSuperblock) : Prop :=
  ∀ x y, a = some x → b = some y → x.nGovObjHash < y.nGovObjHash

/-- The governance object under `nHash` exists, is a trigger, and its target
height and payment schedule parse to `nBlockHeight` and `vecPayments`. -/
def parsesTo (E : Externals) (governance : GovStore) (nHash : uint256)
    (nBlockHeight : Int) (vecPayments : List CGovernancePayment) : Prop :=
  ∃ obj strAddresses strAmounts,
    governance nHash = some obj ∧
    obj.nObjectType = GovernanceObjectType.GOVERNANCE_OBJECT_TRIGGER ∧
    (jsonGet obj.jsonObject "event_block_height").get_int = .ok nBlockHeight ∧
    (jsonGet obj.jsonObject "payment_addresses").get_str = .ok strAddresses ∧
    (jsonGet obj.jsonObject "payment_amounts").get_str = .ok strAmounts ∧
    CSuperblock.ParsePaymentSchedule E [] strAddresses strAmounts = (.ok (), vecPayments)

/-- The two stores hold objects under the same hashes, of the same kinds. -/
def sameKinds (g g' : GovStore) : Prop :=
  ∀ k, (g k).map (fun o => o.nObjectType) = (g' k).map (fun o => o.nObjectType)

/-- The governance object under `key` is missing or is not a trigger. -/
def objectUnusable (governance : GovStore) (key : uint256) : Prop :=
  governance key = none ∨
    ∃ obj, governance key = some obj ∧
      obj.nObjectType ≠ GovernanceObjectType.GOVERNANCE_OBJECT_TRIGGER

/-- Trigger `sb` has status valid or executed and `IsExpired` holds of it. -/
def statusExpired (P : ChainParams) (governance : GovStore)
    (nCachedBlockHeight nAdjustedTime : Int) (sb : CSuperblock) : Prop :=
  (sb.nStatus = SeenObjectStatus.SEEN_OBJECT_IS_VALID ∨
      sb.nStatus = SeenObjectStatus.SEEN_OBJECT_EXECUTED) ∧
    (sb.IsExpired P governance nCachedBlockHeight nAdjustedTime).1 = true

/-- The condition under which the sweep takes the trigger `sb` stored under
`key` out of the registry: its object is missing or not a trigger, or its
status is invalid or unknown, or its status is valid or executed and it is
expired. -/
def removalDue (P : ChainParams) (governance : GovStore)
    (nCachedBlockHeight nAdjustedTime : Int) (key : uint256) (sb : CSuperblock) : Prop :=
  objectUnusable governance key ∨
    sb.nStatus = SeenObjectStatus.SEEN_OBJECT_ERROR_INVALID ∨
    sb.nStatus = SeenObjectStatus.SEEN_OBJECT_UNKNOWN ∨
    statusExpired P governance nCachedBlockHeight nAdjustedTime sb

/-- Following the statement, not the code: the maximal non-empty runs of
characters other than `d` in a string, in order; `cur` is the run read so
far. -/
def maximalRunsFrom (d : Char) : List Char → List Char → List (List Char)
  | cur, [] => if cur = [] then [] else [cur]
  | cur, c :: cs =>
    if c = d then
      if cur = [] then maximalRunsFrom d [] cs else cur :: maximalRunsFrom d [] cs
    else maximalRunsFrom d (cur ++ [c]) cs

/-- Following the statement, not the code: the maximal non-empty runs of
characters other than `d` in `s`, in order. -/
def maximalRuns (d : Char) (s : List Char) : List (List Char) :=
  maximalRunsFrom d [] s

/-- The status of the trigger of a registry entry, if the pointer is not
null, is one of the four codes the translated code assigns:
`SEEN_OBJECT_UNKNOWN` (constructors), `SEEN_OBJECT_IS_VALID` (`AddNewTrigger`),
`SEEN_OBJECT_EXECUTED` (`SetExecuted`) and `SEEN_OBJECT_ERROR_INVALID`
(`CleanAndRemove`). -/
def namedStatus (p : uint256 × Option CSuperblock) : Bool :=
  match p.2 with
  | none => true
  | some sb =>
    decide (sb.nStatus = SeenObjectStatus.SEEN_OBJECT_IS_VALID) ||
    decide (sb.nStatus = SeenObjectStatus.SEEN_OBJECT_ERROR_INVALID) ||
    decide (sb.nStatus = SeenObjectStatus.SEEN_OBJECT_EXECUTED) ||
    decide (sb.nStatus = SeenObjectStatus.SEEN_OBJECT_UNKNOWN)

/-! ## Test fixtures -/

/-- Consensus constants of a small test chain: monthly cycle 20 from height
20, daily cycle 100 from height 20, all cut-over heights 0. -/
def testConsensus : ConsensusParams :=
  { nSuperblockStartBlock := 20, nSuperblockCycle := 20,
    nDCCSuperblockStartBlock := 20, nDCCSuperblockCycle := 100,
    FPOG_CUTOVER_HEIGHT := 0, F13000_CUTOVER_HEIGHT := 0, PODC_LAST_BLOCK := 0,
    POOM_PHASEOUT_HEIGHT := 0, QTHeight := 1000, EVOLUTION_CUTOVER_HEIGHT := 0,
    LLMQHeight := 0, DIP0003HeightPhase2 := 0 }

/-- A test chain with a constant block subsidy of 100 units. -/
def testParams : ChainParams :=
  { consensus := testConsensus, NetworkIDString := "test", fProd := false,
    COIN := 100, MAX_BLOCK_SUBSIDY := 20000, BLOCKS_PER_DAY := 205,
    MAX_DAILY_WHALE_COMMITMENTS := 0, GetBlockSubsidy := fun _ _ => 100 }

/-- The payments `(A, 10)` and `(B, 20)` and the outputs of the spec's
validation example. -/
def payA : CGovernancePayment := { script := [1], nAmount := 10 }
def payB : CGovernancePayment := { script := [2], nAmount := 20 }
def outMiner : CTxOut := { nValue := 1000, scriptPubKey := [0] }
def outA : CTxOut := { nValue := 10, scriptPubKey := [1] }
def outB : CTxOut := { nValue := 20, scriptPubKey := [2] }

/-- Test externals: every address is valid and not a script, its script is
its character codes, amounts are whole decimal numbers, the tally refresh
changes nothing and the required quorum level is 1. -/
def testExternals : Externals :=
  { UpdateSentinelVariables := fun o => o,
    GetRequiredQuorumLevel := fun _ => 1,
    AddressIsValid := fun _ => true,
    AddressIsScript := fun _ => false,
    PaymentScript := fun s => some (s.map Char.toNat),
    ParseFixedPoint := fun s _ =>
      some (s.foldl (fun acc c => acc * 10 + ((c.toNat : Int) - 48)) 0),
    MAX_MONEY := 1000000 }

/-- A trigger object for target height `h` paying 10 to address `A`, with the
given yes count and cached funding flag. -/
def testTriggerObject (h : Int) (yes : Int) (funded : Bool) : CGovernanceObject :=
  { nObjectType := GovernanceObjectType.GOVERNANCE_OBJECT_TRIGGER,
    jsonObject := [("event_block_height", UniValue.VNUM h),
      ("payment_addresses", UniValue.VSTR ['A']),
      ("payment_amounts", UniValue.VSTR ['1', '0'])],
    nAbsoluteYesCountFunding := yes,
    fCachedFunding := funded }

/-- A store with two trigger objects for height 40, under hashes 1 and 2, both
with yes count 5. -/
def testStoreTie : GovStore := fun k =>
  if k = 1 then some (testTriggerObject 40 5 true)
  else if k = 2 then some (testTriggerObject 40 5 true)
  else none

/-- A store with one trigger object for height 20 under hash 1, funding cached
as passing, yes count 0. -/
def testStoreQuorum : GovStore := fun k =>
  if k = 1 then some (testTriggerObject 20 0 true) else none

/-- The trigger built from `testTriggerObject h _ _` under `nHash`. -/
def testTrigger (nHash : uint256) (h : Int) : CSuperblock :=
  { nGovObjHash := nHash, nBlockHeight := h,
    nStatus := SeenObjectStatus.SEEN_OBJECT_IS_VALID,
    vecPayments := [⟨[65], 10⟩] }

/-- A store with two trigger objects for height 40: yes count 5 under hash 1,
yes count 7 under hash 2. -/
def testStoreVotes : GovStore := fun k =>
  if k = 1 then some (testTriggerObject 40 5 true)
  else if k = 2 then some (testTriggerObject 40 7 true)
  else none

/-- Test collaborators of `cbtx.cpp`: the payload is read off the four
numbers of `vExtraPayload`, the masternode list is `[1, 2, 3]`, no commitment
is mined, and the merkle root of a list is its sum. -/
def testEvo : EvoExternals :=
  { TRANSACTION_COINBASE := 5, TRANSACTION_QUORUM_COMMITMENT := 6, CURRENT_VERSION := 2,
    IsCoinBase := fun _ => true,
    GetCbTxPayload := fun tx =>
      match tx.vExtraPayload with
      | [v, h, r1, r2] => some ⟨v, h, r1, r2⟩
      | _ => none,
    fDIP0008Active := fun _ => false,
    fChainLocksActive := true,
    nSpork15Value := 0,
    BuildNewListFromBlock := fun _ _ => some [1, 2, 3],
    CSimplifiedMNList := fun l => l,
    CalcMerkleRoot := fun l => (l.sum, false),
    GetMinedAndActiveCommitmentsUntilBlock := fun _ => [],
    GetMinedCommitment := fun _ _ => none,
    SerializeHash := fun qc => qc.content,
    GetCommitmentPayload := fun _ => none,
    llmqs := fun _ => none,
    ComputeMerkleRoot := fun l => (l.sum, false) }

/-- A coinbase special transaction with the given payload numbers. -/
def testCoinbase (payload : List Nat) : CTransaction :=
  { nVersion := 3, nType := 5, vout := [], vExtraPayload := payload }

/-- The block index of height 8 on top of the block index of height 7. -/
def testIndex7 : CBlockIndex := CBlockIndex.mk 7 99 none
def testIndex8 : CBlockIndex := CBlockIndex.mk 8 100 (some testIndex7)

/-- The characters an amount string may contain: the argument
`"0123456789."` of `find_first_not_of` in `ParsePaymentAmount`. -/
def amountCharacters : List Char :=
  ['0', '1', '2', '3', '4', '5', '6', '7', '8', '9', '.']

/-- An address token decodes to a valid address that is not a script address
and whose payment script is `script`. -/
def decodesTo (E : Externals) (address : List Char) (script : CScript) : Prop :=
  E.AddressIsValid address = true ∧ E.AddressIsScript address = false ∧
    E.PaymentScript address = some script

/-- Test externals in which the address `B` yields no valid payment. -/
def testExternalsNoB : Externals :=
  { testExternals with
    PaymentScript := fun s => if s = ['B'] then none else some (s.map Char.toNat) }

/-- A store for the sweep: a trigger object for height 40 under hashes 1 and
3, an object of another kind under hash 2; none flagged expired, none
scheduled for deletion. -/
def testStoreSweep : GovStore := fun k =>
  if k = 1 then some (testTriggerObject 40 5 true)
  else if k = 2 then
    some { testTriggerObject 40 5 true with nObjectType := GovernanceObjectType.otherType 1 }
  else if k = 3 then some (testTriggerObject 40 5 true)
  else none

/-- A registry for the sweep: valid triggers for height 40 under hashes 1 and
2, a trigger of unknown status under hash 3. -/
def testRegistrySweep : trigger_m_t :=
  [(1, some (testTrigger 1 40)), (2, some (testTrigger 2 40)),
   (3, some { testTrigger 3 40 with nStatus := SeenObjectStatus.SEEN_OBJECT_UNKNOWN })]

/-- Test collaborators in which the masternode list of a block is the list of
the version numbers of its transactions. -/
def testEvoLists : EvoExternals :=
  { testEvo with
    BuildNewListFromBlock := fun block _ => some (block.vtx.map (fun tx => tx.nVersion.toNat)) }

/-- Test collaborators with a quorum store: below a previous index of height
`n` the quorums of type 1 are those of the blocks `n` and `n - 1`, the mined
commitment of a quorum block has the block hash as content, a commitment
transaction carries its quorum type and content in its payload (the type alone
for a null commitment), type 1 has two active signing quorums and type 2 has
one. -/
def testEvoQuorums : EvoExternals :=
  { testEvo with
    GetMinedAndActiveCommitmentsUntilBlock := fun pindexPrev =>
      match pindexPrev with
      | none => []
      | some idx => [(1, [idx.nHeight.toNat, idx.nHeight.toNat - 1])],
    GetMinedCommitment := fun t h => some ⟨t, false, h⟩,
    GetCommitmentPayload := fun tx =>
      match tx.vExtraPayload with
      | [t, c] => some ⟨t, false, c⟩
      | [t] => some ⟨t, true, 0⟩
      | _ => none,
    llmqs := fun t =>
      if t = 1 then some ⟨1, 2⟩ else if t = 2 then some ⟨2, 1⟩ else none }

/-- A quorum-commitment transaction with the given payload numbers. -/
def testCommitmentTx (payload : List Nat) : CTransaction :=
  { nVersion := 3, nType := 6, vout := [], vExtraPayload := payload }

/-! # Theorems -/

/-! ## Superblock validation -/

theorem findPaymentFrom_some (p : CGovernancePayment) (vout : List CTxOut) :
    ∀ (n j k : Nat), findPaymentFrom p vout n j = some k →
      j ≤ k ∧ k < j + n ∧ paidAt vout p k := by
  intro n
  induction n with
  | zero => intro j k h; simp [findPaymentFrom] at h
  | succ n ih =>
    intro j k h
    unfold findPaymentFrom at h
    cases hj : vout[j]? with
    | none => simp [hj] at h
    | some out =>
      simp only [hj] at h
      by_cases hm : paymentMatch p out = true
      · simp only [hm, if_true, Option.some.injEq] at h
        subst h
        exact ⟨le_refl _, by omega, out, hj, hm⟩
      · simp only [hm] at h
        obtain ⟨h1, h2, h3⟩ := ih (j + 1) k h
        exact ⟨by omega, by omega, h3⟩

theorem findPaymentFrom_of_paidAt (p : CGovernancePayment) (vout : List CTxOut) :
    ∀ (n j k : Nat), j ≤ k → k < j + n → paidAt vout p k →
      ∃ k', findPaymentFrom p vout n j = some k' ∧ k' ≤ k := by
  intro n
  induction n with
  | zero => intro j k h1 h2 _; omega
  | succ n ih =>
    intro j k h1 h2 hk
    obtain ⟨o, ho, hm⟩ := hk
    have hklen : k < vout.length := by
      rcases Nat.lt_or_ge k vout.length with h | h
      · exact h
      · rw [List.getElem?_eq_none h] at ho; cases ho
    have hjlen : j < vout.length := by omega
    unfold findPaymentFrom
    rw [List.getElem?_eq_getElem hjlen]
    by_cases hmj : paymentMatch p vout[j] = true
    · exact ⟨j, by simp [hmj], h1⟩
    · have hne : j ≠ k := by
        intro hjk
        subst hjk
        rw [List.getElem?_eq_getElem hjlen] at ho
        simp only [Option.some.injEq] at ho
        rw [ho] at hmj
        exact hmj hm
      obtain ⟨k', hk', hle⟩ := ih (j + 1) k (by omega) (by omega) ⟨o, ho, hm⟩
      exact ⟨k', by simp [hmj, hk'], hle⟩

theorem scanPayments_iff (vout : List CTxOut) :
    ∀ (ps : List CGovernancePayment) (k : Nat),
      scanPayments vout ps k = true ↔
        ∃ js : List Nat, List.Forall₂ (paidAt vout) ps js ∧
          js.Pairwise (· ≤ ·) ∧ ∀ j ∈ js, k ≤ j := by
  intro ps
  induction ps with
  | nil =>
    intro k
    simp only [scanPayments, true_iff]
    exact ⟨[], List.Forall₂.nil, List.Pairwise.nil, by simp⟩
  | cons p rest ih =>
    intro k
    constructor
    · intro h
      unfold scanPayments at h
      cases hf : findPaymentFrom p vout (vout.length - k) k with
      | none => simp [hf] at h
      | some j =>
        simp only [hf] at h
        obtain ⟨h1, _, h3⟩ := findPaymentFrom_some p vout _ _ _ hf
        obtain ⟨js, hjs, hpw, hge⟩ := (ih j).1 h
        refine ⟨j :: js, List.Forall₂.cons h3 hjs, List.Pairwise.cons hge hpw, ?_⟩
        intro x hx
        rcases List.mem_cons.1 hx with hx | hx
        · omega
        · have := hge x hx; omega
    · rintro ⟨js, hjs, hpw, hge⟩
      cases hjs with
      | cons hp hrest =>
        rename_i j0 js'
        have hk0 : k ≤ j0 := hge j0 (List.mem_cons_self _ _)
        have hlen : j0 < vout.length := by
          obtain ⟨o, ho, _⟩ := hp
          rcases Nat.lt_or_ge j0 vout.length with h | h
          · exact h
          · rw [List.getElem?_eq_none h] at ho; cases ho
        obtain ⟨k', hk', hle⟩ :=
          findPaymentFrom_of_paidAt p vout (vout.length - k) k j0 hk0 (by omega) hp
        unfold scanPayments
        simp only [hk']
        refine (ih k').2 ⟨js', hrest, (List.pairwise_cons.1 hpw).2, ?_⟩
        intro x hx
        have := (List.pairwise_cons.1 hpw).1 x hx
        omega

theorem IsValid_eq_scan (P : ChainParams) (vecPayments : List CGovernancePayment)
    (vout : List CTxOut) (h : Int) (blockReward : CAmount)
    (hHeight : CSuperblock.IsValidBlockHeight P h = true ∨
      CSuperblock.IsSmartContract P h = true)
    (hCount : vecPayments.length ≤ vout.length)
    (hLimit : GetPaymentsTotalAmount vecPayments ≤ CSuperblock.GetPaymentsLimit P h true)
    (hValue : GetValueOut vout ≤ blockReward + GetPaymentsTotalAmount vecPayments) :
    CSuperblock.IsValid P vecPayments vout h blockReward = scanPayments vout vecPayments 0 := by
  unfold CSuperblock.IsValid
  have h1 : (!CSuperblock.IsValidBlockHeight P h && !CSuperblock.IsSmartContract P h) = false := by
    rcases hHeight with hh | hh <;> simp [hh]
  have h2 : ¬ ((vout.length : Int) - (vecPayments.length : Int) < 0) := by omega
  simp only [h1, h2, not_lt.2 hLimit, not_lt.2 hValue, if_false, Bool.false_eq_true]


/-- C1 (code at the failing input): the schedule pays `payA` twice and the
transaction holds a single such output; `CSuperblock::IsValid` accepts,
although no two distinct output positions carry the two payments. -/
theorem C1_IsValid_accepts_one_output_for_two_payments :
    CSuperblock.IsValid testParams [payA, payA] [outA, outMiner] 40 1000 = true ∧
      ¬ ∃ js : List Nat, List.Forall₂ (paidAt [outA, outMiner]) [payA, payA] js ∧
          js.Pairwise (· < ·) := by
  refine ⟨by decide, ?_⟩
  rintro ⟨js, hjs, hpw⟩
  have key : ∀ j : Nat, paidAt [outA, outMiner] payA j → j = 0 := by
    rintro j ⟨o, ho, hm⟩
    match j, ho with
    | 0, _ => rfl
    | 1, ho =>
      simp only [List.getElem?_cons_succ, List.getElem?_cons_zero, Option.some.injEq] at ho
      subst ho
      revert hm
      decide
    | j + 2, ho => simp at ho
  cases hjs with
  | cons h1 hrest =>
    cases hrest with
    | cons h2 hnil =>
      cases hnil
      have e1 := key _ h1
      have e2 := key _ h2
      subst e1 e2
      simp at hpw

/-- C2: when the height, output-count, budget-limit and block-value checks
pass, `CSuperblock::IsValid` accepts exactly when positions
`j_1 ≤ j_2 ≤ ... ≤ j_P` exist with output `j_i` equal (script and amount) to
payment `i`. In particular, for distinct payments `A` and `B`, outputs
`[miner, A, B]` are accepted (when the checks pass for them) and outputs
`[miner, B, A]` are rejected, `miner` being an output that is not payment `A`. -/
theorem C2_IsValid_iff_in_order_matching (P : ChainParams)
    (vecPayments : List CGovernancePayment) (vout : List CTxOut) (h : Int)
    (blockReward : CAmount)
    (hHeight : CSuperblock.IsValidBlockHeight P h = true ∨
      CSuperblock.IsSmartContract P h = true)
    (hCount : vecPayments.length ≤ vout.length)
    (hLimit : GetPaymentsTotalAmount vecPayments ≤ CSuperblock.GetPaymentsLimit P h true)
    (hValue : GetValueOut vout ≤ blockReward + GetPaymentsTotalAmount vecPayments) :
    (CSuperblock.IsValid P vecPayments vout h blockReward = true ↔
      ∃ js : List Nat, List.Forall₂ (paidAt vout) vecPayments js ∧ js.Pairwise (· ≤ ·)) ∧
    (∀ (A B : CGovernancePayment) (miner : CTxOut), A ≠ B →
      (vecPayments = [A, B] →
        vout = [miner, ⟨A.nAmount, A.script, []⟩, ⟨B.nAmount, B.script, []⟩] →
        CSuperblock.IsValid P vecPayments vout h blockReward = true) ∧
      (paymentMatch A miner = false → vecPayments = [A, B] →
        vout = [miner, ⟨B.nAmount, B.script, []⟩, ⟨A.nAmount, A.script, []⟩] →
        CSuperblock.IsValid P vecPayments vout h blockReward = false)) := by
  have hscan := IsValid_eq_scan P vecPayments vout h blockReward hHeight hCount hLimit hValue
  have hiff : CSuperblock.IsValid P vecPayments vout h blockReward = true ↔
      ∃ js : List Nat, List.Forall₂ (paidAt vout) vecPayments js ∧ js.Pairwise (· ≤ ·) := by
    rw [hscan, scanPayments_iff]
    constructor
    · rintro ⟨js, h1, h2, _⟩
      exact ⟨js, h1, h2⟩
    · rintro ⟨js, h1, h2⟩
      exact ⟨js, h1, h2, fun j _ => Nat.zero_le j⟩
  refine ⟨hiff, ?_⟩
  intro A B miner hAB
  have hBA : paymentMatch A ⟨B.nAmount, B.script, []⟩ = false := by
    cases A; cases B
    simp only [paymentMatch, Bool.and_eq_false_imp, decide_eq_true_eq, decide_eq_false_iff_not]
    intro h1 h2
    exact hAB (by rw [h1, h2])
  have hAB2 : paymentMatch B ⟨A.nAmount, A.script, []⟩ = false := by
    cases A; cases B
    simp only [paymentMatch, Bool.and_eq_false_imp, decide_eq_true_eq, decide_eq_false_iff_not]
    intro h1 h2
    exact hAB (by rw [h1, h2])
  have hAA : ∀ X : CGovernancePayment, paymentMatch X ⟨X.nAmount, X.script, []⟩ = true := by
    intro X; simp [paymentMatch]
  constructor
  · intro hp hv
    rw [hiff, hp, hv]
    refine ⟨[1, 2], ?_, by simp⟩
    refine List.Forall₂.cons ⟨_, rfl, hAA A⟩ (List.Forall₂.cons ⟨_, rfl, hAA B⟩ List.Forall₂.nil)
  · intro hminer hp hv
    rw [hscan, hp, hv]
    simp [scanPayments, findPaymentFrom, hminer, hBA, hAB2, hAA]

/-- C2 at a concrete input: the accepted and the rejected order of the spec's
example, and the matching positions of the accepted one. -/
theorem C2_IsValid_iff_in_order_matching_witness :
    (CSuperblock.IsValid testParams [payA, payB] [outMiner, outA, outB] 40 1000 = true ↔
      ∃ js : List Nat, List.Forall₂ (paidAt [outMiner, outA, outB]) [payA, payB] js ∧
        js.Pairwise (· ≤ ·)) ∧
    CSuperblock.IsValid testParams [payA, payB] [outMiner, outA, outB] 40 1000 = true ∧
    CSuperblock.IsValid testParams [payA, payB] [outMiner, outB, outA] 40 1000 = false :=
  ⟨(C2_IsValid_iff_in_order_matching testParams [payA, payB] [outMiner, outA, outB] 40 1000
      (by decide) (by decide) (by decide) (by decide)).1,
   ((C2_IsValid_iff_in_order_matching testParams [payA, payB] [outMiner, outA, outB] 40 1000
      (by decide) (by decide) (by decide) (by decide)).2 payA payB outMiner (by decide)).1
      rfl rfl,
   ((C2_IsValid_iff_in_order_matching testParams [payA, payB] [outMiner, outB, outA] 40 1000
      (by decide) (by decide) (by decide) (by decide)).2 payA payB outMiner (by decide)).2
      (by decide) rfl rfl⟩

/-- C3: `CSuperblock::IsValid` returns false whenever the total of the
trigger's payments exceeds `GetPaymentsLimit(height, true)`; so an accepted
superblock pays at most that limit. -/
theorem C3_IsValid_rejects_over_budget (P : ChainParams)
    (vecPayments : List CGovernancePayment) (vout : List CTxOut) (h : Int)
    (blockReward : CAmount) :
    (GetPaymentsTotalAmount vecPayments > CSuperblock.GetPaymentsLimit P h true →
      CSuperblock.IsValid P vecPayments vout h blockReward = false) ∧
    (CSuperblock.IsValid P vecPayments vout h blockReward = true →
      GetPaymentsTotalAmount vecPayments ≤ CSuperblock.GetPaymentsLimit P h true) := by
  have key : GetPaymentsTotalAmount vecPayments > CSuperblock.GetPaymentsLimit P h true →
      CSuperblock.IsValid P vecPayments vout h blockReward = false := by
    intro hgt
    unfold CSuperblock.IsValid
    simp only [hgt, if_true]
    split
    · rfl
    · split <;> rfl
  refine ⟨key, fun hv => ?_⟩
  by_contra hc
  rw [key (not_le.1 hc)] at hv
  cases hv

/-- C3 at concrete inputs: a schedule of 601 against a limit of 600 is
rejected, and the accepted schedule of 30 is within the limit. -/
theorem C3_IsValid_rejects_over_budget_witness :
    (GetPaymentsTotalAmount [⟨[1], 601⟩] > CSuperblock.GetPaymentsLimit testParams 40 true ∧
      CSuperblock.IsValid testParams [⟨[1], 601⟩] [⟨601, [1], []⟩] 40 1000 = false) ∧
    (CSuperblock.IsValid testParams [payA, payB] [outMiner, outA, outB] 40 1000 = true ∧
      GetPaymentsTotalAmount [payA, payB] ≤ CSuperblock.GetPaymentsLimit testParams 40 true) :=
  ⟨⟨by decide, (C3_IsValid_rejects_over_budget testParams [⟨[1], 601⟩] [⟨601, [1], []⟩]
      40 1000).1 (by decide)⟩,
   ⟨by decide, (C3_IsValid_rejects_over_budget testParams [payA, payB]
      [outMiner, outA, outB] 40 1000).2 (by decide)⟩⟩

/-- C4: `CSuperblock::IsValid` returns false whenever the transaction's total
output value exceeds `blockReward` plus the total of the trigger's payments. -/
theorem C4_IsValid_rejects_over_block_value (P : ChainParams)
    (vecPayments : List CGovernancePayment) (vout : List CTxOut) (h : Int)
    (blockReward : CAmount)
    (hOver : GetValueOut vout > blockReward + GetPaymentsTotalAmount vecPayments) :
    CSuperblock.IsValid P vecPayments vout h blockReward = false := by
  unfold CSuperblock.IsValid
  simp only [hOver, if_true]
  split
  · rfl
  · split
    · rfl
    · split <;> rfl

/-- C4 at a concrete input: outputs worth 1030 against a block reward of 999
plus payments of 30. -/
theorem C4_IsValid_rejects_over_block_value_witness :
    GetValueOut [outMiner, outA, outB] > 999 + GetPaymentsTotalAmount [payA, payB] ∧
      CSuperblock.IsValid testParams [payA, payB] [outMiner, outA, outB] 40 999 = false :=
  ⟨by decide, C4_IsValid_rejects_over_block_value testParams [payA, payB]
      [outMiner, outA, outB] 40 999 (by decide)⟩


/-! ## Selection of the best trigger -/

theorem matchingTrigger_cons (governance : GovStore) (h : Int) (a : Option CSuperblock)
    (l : List (Option CSuperblock)) (sb : CSuperblock) (obj : CGovernanceObject) :
    matchingTrigger governance h (a :: l) sb obj ↔
      (a = some sb ∧ sb.nBlockHeight = h ∧ sb.GetGovernanceObject governance = some obj) ∨
        matchingTrigger governance h l sb obj := by
  unfold matchingTrigger
  constructor
  · rintro ⟨hm, hh, hg⟩
    rcases List.mem_cons.1 hm with e | e
    · exact Or.inl ⟨e.symm, hh, hg⟩
    · exact Or.inr ⟨e, hh, hg⟩
  · rintro (⟨e, hh, hg⟩ | ⟨e, hh, hg⟩)
    · exact ⟨List.mem_cons.2 (Or.inl e.symm), hh, hg⟩
    · exact ⟨List.mem_cons.2 (Or.inr e), hh, hg⟩

theorem getActiveTriggers_sublist (governance : GovStore) :
    ∀ m : trigger_m_t,
      List.Sublist (CGovernanceTriggerManager.GetActiveTriggers governance m)
        (m.map Prod.snd) := by
  intro m
  induction m with
  | nil => exact List.Sublist.slnil
  | cons p rest ih =>
    unfold CGovernanceTriggerManager.GetActiveTriggers
    cases governance p.1 with
    | none => exact List.Sublist.cons _ ih
    | some o => exact List.Sublist.cons₂ _ ih

theorem getActiveTriggers_pairwise (governance : GovStore) (m : trigger_m_t)
    (hwf : RegistryWF m) :
    (CGovernanceTriggerManager.GetActiveTriggers governance m).Pairwise hashLt := by
  refine List.Pairwise.sublist (getActiveTriggers_sublist governance m) ?_
  rw [List.pairwise_map]
  refine List.Pairwise.imp_of_mem ?_ hwf.1
  intro p q hp hq hlt x y hx hy
  have h1 := hwf.2 p hp
  have h2 := hwf.2 q hq
  unfold entryKeyed at h1 h2
  rw [hx] at h1
  rw [hy] at h2
  simp only [decide_eq_true_eq] at h1 h2
  rw [h1, h2]
  exact hlt

/-- The loop of `GetBestSuperblock` either leaves `(nYesCount, pSuperblockRet)`
as it was, no matching trigger having a higher count, or ends on the first
matching trigger that reaches the highest count. -/
theorem getBestSuperblockLoop_spec (governance : GovStore) (h : Int) :
    ∀ (l : List (Option CSuperblock)) (n : Int) (ret : Option CSuperblock),
      (getBestSuperblockLoop governance h l n ret = (n, ret) ∧
          ∀ sb obj, matchingTrigger governance h l sb obj →
            obj.nAbsoluteYesCountFunding ≤ n) ∨
      (n < (getBestSuperblockLoop governance h l n ret).1 ∧
        ∃ l1 sb obj l2, l = l1 ++ some sb :: l2 ∧
          (getBestSuperblockLoop governance h l n ret).2 = some sb ∧
          sb.nBlockHeight = h ∧ sb.GetGovernanceObject governance = some obj ∧
          obj.nAbsoluteYesCountFunding = (getBestSuperblockLoop governance h l n ret).1 ∧
          (∀ sb' obj', matchingTrigger governance h l1 sb' obj' →
            obj'.nAbsoluteYesCountFunding < (getBestSuperblockLoop governance h l n ret).1) ∧
          (∀ sb' obj', matchingTrigger governance h l2 sb' obj' →
            obj'.nAbsoluteYesCountFunding ≤
              (getBestSuperblockLoop governance h l n ret).1)) := by
  intro l
  induction l with
  | nil =>
    intro n ret
    left
    refine ⟨rfl, ?_⟩
    rintro sb obj ⟨hm, _⟩
    cases hm
  | cons a rest ih =>
    intro n ret
    -- a head that is no matching trigger is skipped
    have skip : getBestSuperblockLoop governance h (a :: rest) n ret =
          getBestSuperblockLoop governance h rest n ret →
        (∀ sb obj, ¬ (a = some sb ∧ sb.nBlockHeight = h ∧
          sb.GetGovernanceObject governance = some obj)) →
        (getBestSuperblockLoop governance h (a :: rest) n ret = (n, ret) ∧
          ∀ sb obj, matchingTrigger governance h (a :: rest) sb obj →
            obj.nAbsoluteYesCountFunding ≤ n) ∨
        (n < (getBestSuperblockLoop governance h (a :: rest) n ret).1 ∧
          ∃ l1 sb obj l2, a :: rest = l1 ++ some sb :: l2 ∧
            (getBestSuperblockLoop governance h (a :: rest) n ret).2 = some sb ∧
            sb.nBlockHeight = h ∧ sb.GetGovernanceObject governance = some obj ∧
            obj.nAbsoluteYesCountFunding =
              (getBestSuperblockLoop governance h (a :: rest) n ret).1 ∧
            (∀ sb' obj', matchingTrigger governance h l1 sb' obj' →
              obj'.nAbsoluteYesCountFunding <
                (getBestSuperblockLoop governance h (a :: rest) n ret).1) ∧
            (∀ sb' obj', matchingTrigger governance h l2 sb' obj' →
              obj'.nAbsoluteYesCountFunding ≤
                (getBestSuperblockLoop governance h (a :: rest) n ret).1)) := by
      intro hstep hno
      rw [hstep]
      rcases ih n ret with ⟨heq, hall⟩ | ⟨hlt, l1, sb, obj, l2, hl, hret, hh, hg, hy, h1, h2⟩
      · left
        refine ⟨heq, ?_⟩
        intro sb obj hm
        rcases (matchingTrigger_cons _ _ _ _ _ _).1 hm with hd | tl
        · exact absurd hd (hno sb obj)
        · exact hall sb obj tl
      · right
        refine ⟨hlt, a :: l1, sb, obj, l2, by rw [hl]; rfl, hret, hh, hg, hy, ?_, h2⟩
        intro sb' obj' hm
        rcases (matchingTrigger_cons _ _ _ _ _ _).1 hm with hd | tl
        · exact absurd hd (hno sb' obj')
        · exact h1 sb' obj' tl
    cases a with
    | none =>
      exact skip rfl (by rintro sb obj ⟨e, _⟩; cases e)
    | some s =>
      cases hg : s.GetGovernanceObject governance with
      | none =>
        refine skip (by simp [getBestSuperblockLoop, hg]) ?_
        rintro sb obj ⟨e, _, hg'⟩
        cases e
        rw [hg] at hg'
        cases hg'
      | some pObj =>
        by_cases hh : h = s.nBlockHeight
        · by_cases hgt : pObj.nAbsoluteYesCountFunding > n
          · have hstep : getBestSuperblockLoop governance h (some s :: rest) n ret =
                getBestSuperblockLoop governance h rest pObj.nAbsoluteYesCountFunding
                  (some s) := by
              simp [getBestSuperblockLoop, hg, hh, hgt]
            rw [hstep]
            right
            rcases ih pObj.nAbsoluteYesCountFunding (some s) with
              ⟨heq, hall⟩ | ⟨hlt, l1, sb, obj, l2, hl, hret, hh', hg', hy, h1, h2⟩
            · rw [heq]
              refine ⟨hgt, [], s, pObj, rest, rfl, rfl, hh.symm, hg, rfl, ?_, hall⟩
              rintro sb' obj' ⟨hm, _⟩
              cases hm
            · refine ⟨lt_trans hgt hlt, some s :: l1, sb, obj, l2, by rw [hl]; rfl, hret,
                hh', hg', hy, ?_, h2⟩
              intro sb' obj' hm
              rcases (matchingTrigger_cons _ _ _ _ _ _).1 hm with ⟨e, _, hg''⟩ | tl
              · cases e
                rw [hg] at hg''
                cases hg''
                exact hlt
              · exact h1 sb' obj' tl
          · have hstep : getBestSuperblockLoop governance h (some s :: rest) n ret =
                getBestSuperblockLoop governance h rest n ret := by
              simp [getBestSuperblockLoop, hg, hh, hgt]
            rw [hstep]
            rcases ih n ret with
              ⟨heq, hall⟩ | ⟨hlt, l1, sb, obj, l2, hl, hret, hh', hg', hy, h1, h2⟩
            · left
              refine ⟨heq, ?_⟩
              intro sb' obj' hm
              rcases (matchingTrigger_cons _ _ _ _ _ _).1 hm with ⟨e, _, hg''⟩ | tl
              · cases e
                rw [hg] at hg''
                cases hg''
                exact not_lt.1 hgt
              · exact hall sb' obj' tl
            · right
              refine ⟨hlt, some s :: l1, sb, obj, l2, by rw [hl]; rfl, hret, hh', hg', hy,
                ?_, h2⟩
              intro sb' obj' hm
              rcases (matchingTrigger_cons _ _ _ _ _ _).1 hm with ⟨e, _, hg''⟩ | tl
              · cases e
                rw [hg] at hg''
                cases hg''
                exact lt_of_le_of_lt (not_lt.1 hgt) hlt
              · exact h1 sb' obj' tl
        · refine skip (by simp [getBestSuperblockLoop, hg, hh]) ?_
          rintro sb obj ⟨e, hh', _⟩
          cases e
          exact hh hh'.symm

/-- C5: `GetBestSuperblock` returns true exactly when the height is
primary-class or smart-contract-class and some active trigger with that target
height has a positive absolute-yes funding count; and then the returned
trigger is an active trigger with that target height whose yes count is the
maximum over the active triggers with that target height. -/
theorem C5_GetBestSuperblock_returns_a_maximal_trigger (P : ChainParams)
    (governance : GovStore) (mapTrigger : trigger_m_t) (pSuperblockRet : Option CSuperblock)
    (h : Int) :
    ((CSuperblockManager.GetBestSuperblock P governance mapTrigger pSuperblockRet h).1 = true ↔
      (CSuperblock.IsValidBlockHeight P h = true ∨ CSuperblock.IsSmartContract P h = true) ∧
        ∃ sb obj,
          matchingTrigger governance h
            (CGovernanceTriggerManager.GetActiveTriggers governance mapTrigger) sb obj ∧
          0 < obj.nAbsoluteYesCountFunding) ∧
    ((CSuperblockManager.GetBestSuperblock P governance mapTrigger pSuperblockRet h).1 = true →
      ∃ sb obj,
        (CSuperblockManager.GetBestSuperblock P governance mapTrigger pSuperblockRet h).2 =
          some sb ∧
        matchingTrigger governance h
          (CGovernanceTriggerManager.GetActiveTriggers governance mapTrigger) sb obj ∧
        ∀ sb' obj',
          matchingTrigger governance h
            (CGovernanceTriggerManager.GetActiveTriggers governance mapTrigger) sb' obj' →
          obj'.nAbsoluteYesCountFunding ≤ obj.nAbsoluteYesCountFunding) := by
  unfold CSuperblockManager.GetBestSuperblock
  by_cases hcls : (!CSuperblock.IsValidBlockHeight P h &&
      !CSuperblock.IsSmartContract P h) = true
  · have hno : ¬ (CSuperblock.IsValidBlockHeight P h = true ∨
        CSuperblock.IsSmartContract P h = true) := by
      simp only [Bool.and_eq_true, Bool.not_eq_true'] at hcls
      rintro (h1 | h1)
      · rw [hcls.1] at h1; cases h1
      · rw [hcls.2] at h1; cases h1
    simp only [hcls, if_true]
    exact ⟨⟨fun hf => Bool.noConfusion hf, fun hr => absurd hr.1 hno⟩,
      fun hf => Bool.noConfusion hf⟩
  · have hyes : CSuperblock.IsValidBlockHeight P h = true ∨
        CSuperblock.IsSmartContract P h = true := by
      by_contra hc
      apply hcls
      simp only [not_or, Bool.not_eq_true] at hc
      simp [hc.1, hc.2]
    simp only [hcls, if_false, Bool.false_eq_true, decide_eq_true_eq]
    rcases getBestSuperblockLoop_spec governance h
        (CGovernanceTriggerManager.GetActiveTriggers governance mapTrigger) 0 pSuperblockRet with
      ⟨heq, hall⟩ | ⟨hlt, l1, sb, obj, l2, hl, hret, hh, hg, hy, h1, h2⟩
    · rw [heq]
      refine ⟨⟨fun hf => absurd hf (lt_irrefl _), ?_⟩, fun hf => absurd hf (lt_irrefl _)⟩
      rintro ⟨_, sb, obj, hm, hpos⟩
      have := hall sb obj hm
      omega
    · have hmem : matchingTrigger governance h
          (CGovernanceTriggerManager.GetActiveTriggers governance mapTrigger) sb obj := by
        refine ⟨?_, hh, hg⟩
        rw [hl]
        exact List.mem_append_right _ (List.mem_cons_self _ _)
      refine ⟨⟨fun _ => ⟨hyes, sb, obj, hmem, by rw [hy]; exact hlt⟩, fun _ => hlt⟩, ?_⟩
      intro _
      refine ⟨sb, obj, hret, hmem, ?_⟩
      rintro sb' obj' ⟨hm, hh', hg'⟩
      rw [hy]
      rw [hl] at hm
      rcases List.mem_append.1 hm with hm1 | hm2
      · exact le_of_lt (h1 sb' obj' ⟨hm1, hh', hg'⟩)
      · rcases List.mem_cons.1 hm2 with e | e
        · cases e
          rw [hg] at hg'
          cases hg'
          rw [hy]
        · exact h2 sb' obj' ⟨e, hh', hg'⟩

/-- C5 at a concrete input: two active triggers for height 40 with yes counts 5
and 7; the returned trigger exists, is the one with count 7, and no matching
trigger has a higher count. -/
theorem C5_GetBestSuperblock_returns_a_maximal_trigger_witness :
    CSuperblockManager.GetBestSuperblock testParams testStoreVotes
      [(1, some (testTrigger 1 40)), (2, some (testTrigger 2 40))] none 40 =
        (true, some (testTrigger 2 40)) ∧
    ∃ sb obj,
      (CSuperblockManager.GetBestSuperblock testParams testStoreVotes
        [(1, some (testTrigger 1 40)), (2, some (testTrigger 2 40))] none 40).2 = some sb ∧
      matchingTrigger testStoreVotes 40
        (CGovernanceTriggerManager.GetActiveTriggers testStoreVotes
          [(1, some (testTrigger 1 40)), (2, some (testTrigger 2 40))]) sb obj ∧
      ∀ sb' obj',
        matchingTrigger testStoreVotes 40
          (CGovernanceTriggerManager.GetActiveTriggers testStoreVotes
            [(1, some (testTrigger 1 40)), (2, some (testTrigger 2 40))]) sb' obj' →
        obj'.nAbsoluteYesCountFunding ≤ obj.nAbsoluteYesCountFunding :=
  ⟨by decide,
   (C5_GetBestSuperblock_returns_a_maximal_trigger testParams testStoreVotes
      [(1, some (testTrigger 1 40)), (2, some (testTrigger 2 40))] none 40).2 (by decide)⟩

theorem mem_mapInsert {β : Type} (k : uint256) (v : β) :
    ∀ (m : List (uint256 × β)) (p : uint256 × β), p ∈ mapInsert k v m → p = (k, v) ∨ p ∈ m := by
  intro m
  induction m with
  | nil =>
    intro p hp
    simp only [mapInsert, List.mem_singleton] at hp
    exact Or.inl hp
  | cons q rest ih =>
    intro p hp
    obtain ⟨k', v'⟩ := q
    unfold mapInsert at hp
    by_cases h1 : k < k'
    · simp only [h1, if_true] at hp
      rcases List.mem_cons.1 hp with e | e
      · exact Or.inl e
      · exact Or.inr e
    · by_cases h2 : k = k'
      · simp only [h1, h2, if_false, if_true] at hp
        simp only [lt_irrefl, if_false] at hp
        exact Or.inr hp
      · simp only [h1, h2, if_false] at hp
        rcases List.mem_cons.1 hp with e | e
        · exact Or.inr (List.mem_cons.2 (Or.inl e))
        · rcases ih p e with e' | e'
          · exact Or.inl e'
          · exact Or.inr (List.mem_cons.2 (Or.inr e'))

theorem mapInsert_sorted {β : Type} (k : uint256) (v : β) :
    ∀ (m : List (uint256 × β)), m.Pairwise (fun a b => a.1 < b.1) →
      (mapInsert k v m).Pairwise (fun a b => a.1 < b.1) := by
  intro m
  induction m with
  | nil =>
    intro _
    simp [mapInsert]
  | cons q rest ih =>
    intro hs
    obtain ⟨k', v'⟩ := q
    have hs' := List.pairwise_cons.1 hs
    unfold mapInsert
    by_cases h1 : k < k'
    · simp only [h1, if_true]
      refine List.Pairwise.cons ?_ hs
      intro p hp
      rcases List.mem_cons.1 hp with e | e
      · rw [e]; exact h1
      · exact lt_trans h1 (hs'.1 p e)
    · by_cases h2 : k = k'
      · simp only [h1, h2, if_false, if_true]
        simp only [lt_irrefl, if_false]
        exact hs
      · simp only [h1, h2, if_false]
        refine List.Pairwise.cons ?_ (ih hs'.2)
        intro p hp
        rcases mem_mapInsert k v rest p hp with e | e
        · rw [e]
          exact lt_of_le_of_ne (not_lt.1 h1) (fun he => h2 he.symm)
        · exact hs'.1 p e

theorem construct_hash (E : Externals) (governance : GovStore) (nHash : uint256)
    (sb : CSuperblock) (hc : CSuperblock.construct E governance nHash = .ok sb) :
    sb.nGovObjHash = nHash := by
  unfold CSuperblock.construct at hc
  split at hc
  · cases hc
  · split at hc
    · cases hc
    · dsimp only at hc
      split at hc
      · cases hc
      · split at hc
        · cases hc
        · split at hc
          · cases hc
          · split at hc
            · cases hc
            · cases hc
              rfl

/-- `AddNewTrigger` keeps the registry invariant. -/
theorem AddNewTrigger_keeps_RegistryWF (E : Externals) (governance : GovStore)
    (mapTrigger : trigger_m_t) (nHash : uint256) (hwf : RegistryWF mapTrigger) :
    RegistryWF (CGovernanceTriggerManager.AddNewTrigger E governance mapTrigger nHash).2 := by
  unfold CGovernanceTriggerManager.AddNewTrigger
  split
  · exact hwf
  · split
    · exact hwf
    · rename_i pSuperblock hc
      refine ⟨mapInsert_sorted _ _ _ hwf.1, ?_⟩
      intro p hp
      rcases mem_mapInsert _ _ _ p hp with e | e
      · rw [e]
        simp only [entryKeyed, decide_eq_true_eq]
        exact construct_hash E governance nHash pSuperblock hc
      · exact hwf.2 p e

/-- C6 (as stated, refuted): the trigger under hash 2 is registered first, the
trigger under hash 1 second; both are for height 40 and have yes count 5; the
best superblock is the trigger under hash 1, the one registered second. -/
theorem C6_second_registered_trigger_wins_tie :
    (CGovernanceTriggerManager.AddNewTrigger testExternals testStoreTie [] 2).1 = true ∧
    (CGovernanceTriggerManager.AddNewTrigger testExternals testStoreTie
      (CGovernanceTriggerManager.AddNewTrigger testExternals testStoreTie [] 2).2 1).1 = true ∧
    (testStoreTie 1).map (fun o => o.nAbsoluteYesCountFunding) = some 5 ∧
    (testStoreTie 2).map (fun o => o.nAbsoluteYesCountFunding) = some 5 ∧
    CSuperblockManager.GetBestSuperblock testParams testStoreTie
      (CGovernanceTriggerManager.AddNewTrigger testExternals testStoreTie
        (CGovernanceTriggerManager.AddNewTrigger testExternals testStoreTie [] 2).2 1).2
      none 40 = (true, some (testTrigger 1 40)) := by
  decide

/-- C6 (amended): when several active triggers at the target height share the
highest yes count, `GetBestSuperblock` returns the one first in the registry's
iteration order, which is the one with the least governance-object hash,
whatever the order of the `AddNewTrigger` calls. -/
theorem C6_GetBestSuperblock_tie_goes_to_least_hash (P : ChainParams)
    (governance : GovStore) (mapTrigger : trigger_m_t) (pSuperblockRet : Option CSuperblock)
    (h : Int) (sb sb' : CSuperblock) (obj obj' : CGovernanceObject)
    (hwf : RegistryWF mapTrigger)
    (hbest : CSuperblockManager.GetBestSuperblock P governance mapTrigger pSuperblockRet h =
      (true, some sb))
    (hsb : matchingTrigger governance h
      (CGovernanceTriggerManager.GetActiveTriggers governance mapTrigger) sb obj)
    (hsb' : matchingTrigger governance h
      (CGovernanceTriggerManager.GetActiveTriggers governance mapTrigger) sb' obj')
    (htie : obj'.nAbsoluteYesCountFunding = obj.nAbsoluteYesCountFunding) :
    sb.nGovObjHash ≤ sb'.nGovObjHash := by
  have hpw := getActiveTriggers_pairwise governance mapTrigger hwf
  unfold CSuperblockManager.GetBestSuperblock at hbest
  split at hbest
  · cases hbest
  · simp only [Prod.mk.injEq, decide_eq_true_eq] at hbest
    rcases getBestSuperblockLoop_spec governance h
        (CGovernanceTriggerManager.GetActiveTriggers governance mapTrigger) 0 pSuperblockRet with
      ⟨heq, _⟩ | ⟨_, l1, sb0, obj0, l2, hl, hret, _, hg0, hy, h1, _⟩
    · rw [heq] at hbest
      exact absurd hbest.1 (lt_irrefl _)
    · rw [hret] at hbest
      have e0 : sb0 = sb := Option.some.inj hbest.2
      subst e0
      have eobj : obj0 = obj := by
        have := hsb.2.2
        rw [hg0] at this
        exact Option.some.inj this
      subst eobj
      obtain ⟨hm, hh', hg'⟩ := hsb'
      rw [hl] at hm hpw
      rcases List.mem_append.1 hm with hm1 | hm2
      · have := h1 sb' obj' ⟨hm1, hh', hg'⟩
        rw [← hy, htie] at this
        exact absurd this (lt_irrefl _)
      · rcases List.mem_cons.1 hm2 with e | e
        · cases e
          exact le_refl _
        · have hp2 := (List.pairwise_append.1 hpw).2.1
          exact le_of_lt ((List.pairwise_cons.1 hp2).1 _ e sb0 sb' rfl rfl)

/-- C6 (amended) at a concrete input: hash 2 registered first, hash 1 second,
equal yes counts; the returned trigger is the one under hash 1. -/
theorem C6_GetBestSuperblock_tie_goes_to_least_hash_witness :
    CSuperblockManager.GetBestSuperblock testParams testStoreTie
      (CGovernanceTriggerManager.AddNewTrigger testExternals testStoreTie
        (CGovernanceTriggerManager.AddNewTrigger testExternals testStoreTie [] 2).2 1).2
      none 40 = (true, some (testTrigger 1 40)) ∧
    (testTrigger 1 40).nGovObjHash ≤ (testTrigger 2 40).nGovObjHash :=
  ⟨by decide,
   C6_GetBestSuperblock_tie_goes_to_least_hash testParams testStoreTie
    (CGovernanceTriggerManager.AddNewTrigger testExternals testStoreTie
      (CGovernanceTriggerManager.AddNewTrigger testExternals testStoreTie [] 2).2 1).2
    none 40 (testTrigger 1 40) (testTrigger 2 40)
    (testTriggerObject 40 5 true) (testTriggerObject 40 5 true)
    ⟨by decide, by decide⟩ (by decide) ⟨by decide, rfl, rfl⟩ ⟨by decide, rfl, rfl⟩ rfl⟩

/-! ## Triggering -/

theorem isSuperblockTriggeredLoop_iff (P : ChainParams) (E : Externals) (h : Int) :
    ∀ (l : List (Option CSuperblock)) (governance : GovStore), l.Pairwise hashLt →
      ((isSuperblockTriggeredLoop P E h l governance).1 = true ↔
        ∃ sb obj, matchingTrigger governance h l sb obj ∧
          (E.UpdateSentinelVariables obj).fCachedFunding = true) := by
  intro l
  induction l with
  | nil =>
    intro governance _
    simp only [isSuperblockTriggeredLoop, Bool.false_eq_true, false_iff]
    rintro ⟨sb, obj, ⟨hm, _⟩, _⟩
    cases hm
  | cons a rest ih =>
    intro governance hpw
    have hpw' := List.pairwise_cons.1 hpw
    -- a head that is no matching trigger is skipped, the store unchanged
    have skip : isSuperblockTriggeredLoop P E h (a :: rest) governance =
          isSuperblockTriggeredLoop P E h rest governance →
        (∀ sb obj, ¬ (a = some sb ∧ sb.nBlockHeight = h ∧
          sb.GetGovernanceObject governance = some obj)) →
        ((isSuperblockTriggeredLoop P E h (a :: rest) governance).1 = true ↔
          ∃ sb obj, matchingTrigger governance h (a :: rest) sb obj ∧
            (E.UpdateSentinelVariables obj).fCachedFunding = true) := by
      intro hstep hno
      rw [hstep, ih governance hpw'.2]
      constructor
      · rintro ⟨sb, obj, hm, hc⟩
        exact ⟨sb, obj, (matchingTrigger_cons _ _ _ _ _ _).2 (Or.inr hm), hc⟩
      · rintro ⟨sb, obj, hm, hc⟩
        rcases (matchingTrigger_cons _ _ _ _ _ _).1 hm with hd | tl
        · exact absurd hd (hno sb obj)
        · exact ⟨sb, obj, tl, hc⟩
    cases a with
    | none => exact skip rfl (by rintro sb obj ⟨e, _⟩; cases e)
    | some s =>
      cases hg : s.GetGovernanceObject governance with
      | none =>
        refine skip (by simp [isSuperblockTriggeredLoop, hg]) ?_
        rintro sb obj ⟨e, _, hg'⟩
        cases e
        rw [hg] at hg'
        cases hg'
      | some pObj =>
        by_cases hh : h = s.nBlockHeight
        · by_cases hc : (E.UpdateSentinelVariables pObj).fCachedFunding = true
          · have hstep : (isSuperblockTriggeredLoop P E h (some s :: rest) governance).1 =
                true := by
              simp only [isSuperblockTriggeredLoop, hg, hh, hc]
              simp
            rw [hstep]
            simp only [true_iff]
            exact ⟨s, pObj, ⟨List.mem_cons_self _ _, hh.symm, hg⟩, hc⟩
          · have hstep : isSuperblockTriggeredLoop P E h (some s :: rest) governance =
                isSuperblockTriggeredLoop P E h rest
                  (governance.set s.nGovObjHash (E.UpdateSentinelVariables pObj)) := by
              simp [isSuperblockTriggeredLoop, hg, hh, hc]
            rw [hstep, ih _ hpw'.2]
            -- the write under the hash of `s` is not seen by the later triggers
            have hsame : ∀ sb obj,
                matchingTrigger (governance.set s.nGovObjHash (E.UpdateSentinelVariables pObj))
                  h rest sb obj ↔ matchingTrigger governance h rest sb obj := by
              intro sb obj
              unfold matchingTrigger CSuperblock.GetGovernanceObject GovStore.set
              constructor
              · rintro ⟨hm, hh', hg'⟩
                have hne : sb.nGovObjHash ≠ s.nGovObjHash :=
                  ne_of_gt (hpw'.1 _ hm s sb rfl rfl)
                rw [if_neg hne] at hg'
                exact ⟨hm, hh', hg'⟩
              · rintro ⟨hm, hh', hg'⟩
                have hne : sb.nGovObjHash ≠ s.nGovObjHash :=
                  ne_of_gt (hpw'.1 _ hm s sb rfl rfl)
                rw [if_neg hne]
                exact ⟨hm, hh', hg'⟩
            constructor
            · rintro ⟨sb, obj, hm, hc'⟩
              exact ⟨sb, obj,
                (matchingTrigger_cons _ _ _ _ _ _).2 (Or.inr ((hsame sb obj).1 hm)), hc'⟩
            · rintro ⟨sb, obj, hm, hc'⟩
              rcases (matchingTrigger_cons _ _ _ _ _ _).1 hm with ⟨e, _, hg'⟩ | tl
              · cases e
                rw [hg] at hg'
                cases hg'
                exact absurd hc' hc
              · exact ⟨sb, obj, (hsame sb obj).2 tl, hc'⟩
        · refine skip (by simp [isSuperblockTriggeredLoop, hg, hh]) ?_
          rintro sb obj ⟨e, hh', _⟩
          cases e
          exact hh hh'.symm

/-- `IsSuperblockTriggered` returns true exactly at a primary-class height
with an active trigger for that height whose funding is cached as passing. -/
theorem IsSuperblockTriggered_iff (P : ChainParams) (E : Externals) (governance : GovStore)
    (mapTrigger : trigger_m_t) (h : Int) (hwf : RegistryWF mapTrigger) :
    (CSuperblockManager.IsSuperblockTriggered P E governance mapTrigger h).1 = true ↔
      CSuperblock.IsValidBlockHeight P h = true ∧
        ∃ sb obj,
          matchingTrigger governance h
            (CGovernanceTriggerManager.GetActiveTriggers governance mapTrigger) sb obj ∧
          (E.UpdateSentinelVariables obj).fCachedFunding = true := by
  unfold CSuperblockManager.IsSuperblockTriggered
  by_cases hv : CSuperblock.IsValidBlockHeight P h = true
  · simp only [hv, Bool.not_true, Bool.false_eq_true, if_false, true_and]
    exact isSuperblockTriggeredLoop_iff P E h _ governance
      (getActiveTriggers_pairwise governance mapTrigger hwf)
  · simp only [Bool.not_eq_true] at hv
    simp [hv]

/-- C7 (as stated, refuted): height 20 is in the smart-contract class; the only
matching trigger has funding cached as passing and a yes count of 0, below the
required quorum level 1; `IsSuperblockTriggered` returns true. -/
theorem C7_triggered_below_required_quorum :
    CSuperblock.IsSmartContract testParams 20 = true ∧
    (∀ sb obj,
      matchingTrigger testStoreQuorum 20
        (CGovernanceTriggerManager.GetActiveTriggers testStoreQuorum
          [(1, some (testTrigger 1 20))]) sb obj →
      (testExternals.UpdateSentinelVariables obj).fCachedFunding = true →
      (testExternals.UpdateSentinelVariables obj).nAbsoluteYesCountFunding <
        testExternals.GetRequiredQuorumLevel 20) ∧
    (CSuperblockManager.IsSuperblockTriggered testParams testExternals testStoreQuorum
      [(1, some (testTrigger 1 20))] 20).1 = true := by
  refine ⟨by decide, ?_, by decide⟩
  rintro sb obj ⟨hm, _, hg⟩ _
  have hsb : sb = testTrigger 1 20 := by
    have : CGovernanceTriggerManager.GetActiveTriggers testStoreQuorum
        [(1, some (testTrigger 1 20))] = [some (testTrigger 1 20)] := by decide
    rw [this] at hm
    simpa using hm
  subst hsb
  have hobj : obj = testTriggerObject 20 0 true := by
    have : (testTrigger 1 20).GetGovernanceObject testStoreQuorum =
        some (testTriggerObject 20 0 true) := by decide
    rw [this] at hg
    exact (Option.some.inj hg).symm
  subst hobj
  decide

/-- C7 (amended): at a smart-contract-class height `IsSuperblockTriggered`
returns true exactly when the height is also primary-class and some active
trigger with that target height has its funding tally cached as passing; the
yes count does not enter the result, and the result is the same whatever
`GetRequiredQuorumLevel` returns. -/
theorem C7_IsSuperblockTriggered_smart_contract_ignores_quorum (P : ChainParams)
    (E : Externals) (governance : GovStore) (mapTrigger : trigger_m_t) (h : Int)
    (hwf : RegistryWF mapTrigger) (_hsc : CSuperblock.IsSmartContract P h = true) :
    ((CSuperblockManager.IsSuperblockTriggered P E governance mapTrigger h).1 = true ↔
      CSuperblock.IsValidBlockHeight P h = true ∧
        ∃ sb obj,
          matchingTrigger governance h
            (CGovernanceTriggerManager.GetActiveTriggers governance mapTrigger) sb obj ∧
          (E.UpdateSentinelVariables obj).fCachedFunding = true) ∧
    ∀ quorumLevel : Int → Int,
      (CSuperblockManager.IsSuperblockTriggered P
        { E with GetRequiredQuorumLevel := quorumLevel } governance mapTrigger h).1 =
      (CSuperblockManager.IsSuperblockTriggered P E governance mapTrigger h).1 := by
  refine ⟨IsSuperblockTriggered_iff P E governance mapTrigger h hwf, ?_⟩
  intro quorumLevel
  rw [Bool.eq_iff_iff, IsSuperblockTriggered_iff P E governance mapTrigger h hwf,
    IsSuperblockTriggered_iff P _ governance mapTrigger h hwf]

/-- C7 (amended) at a concrete input: the smart-contract height 20 with one
funded trigger of yes count 0. -/
theorem C7_IsSuperblockTriggered_smart_contract_ignores_quorum_witness :
    CSuperblock.IsSmartContract testParams 20 = true ∧
    ((CSuperblockManager.IsSuperblockTriggered testParams testExternals testStoreQuorum
        [(1, some (testTrigger 1 20))] 20).1 = true ↔
      CSuperblock.IsValidBlockHeight testParams 20 = true ∧
        ∃ sb obj,
          matchingTrigger testStoreQuorum 20
            (CGovernanceTriggerManager.GetActiveTriggers testStoreQuorum
              [(1, some (testTrigger 1 20))]) sb obj ∧
          (testExternals.UpdateSentinelVariables obj).fCachedFunding = true) :=
  ⟨by decide,
   (C7_IsSuperblockTriggered_smart_contract_ignores_quorum testParams testExternals
    testStoreQuorum [(1, some (testTrigger 1 20))] 20 ⟨by decide, by decide⟩ (by decide)).1⟩

/-- C8: `IsSuperblockTriggered` returns false at every height that is not
primary-class; at a primary-class height that is not smart-contract-class it
returns true exactly when some active trigger has that target height and its
funding tally is cached as passing. -/
theorem C8_IsSuperblockTriggered_by_height_class (P : ChainParams) (E : Externals)
    (governance : GovStore) (mapTrigger : trigger_m_t) (h : Int)
    (hwf : RegistryWF mapTrigger) :
    (CSuperblock.IsValidBlockHeight P h = false →
      (CSuperblockManager.IsSuperblockTriggered P E governance mapTrigger h).1 = false) ∧
    (CSuperblock.IsValidBlockHeight P h = true → CSuperblock.IsSmartContract P h = false →
      ((CSuperblockManager.IsSuperblockTriggered P E governance mapTrigger h).1 = true ↔
        ∃ sb obj,
          matchingTrigger governance h
            (CGovernanceTriggerManager.GetActiveTriggers governance mapTrigger) sb obj ∧
          (E.UpdateSentinelVariables obj).fCachedFunding = true)) := by
  have key := IsSuperblockTriggered_iff P E governance mapTrigger h hwf
  constructor
  · intro hv
    cases hr : (CSuperblockManager.IsSuperblockTriggered P E governance mapTrigger h).1 with
    | false => rfl
    | true =>
      have := (key.1 hr).1
      rw [hv] at this
      cases this
  · intro hv _
    rw [key]
    exact ⟨fun hx => hx.2, fun hx => ⟨hv, hx⟩⟩

/-- C8 at concrete inputs: height 41 is not primary-class, height 40 is
primary-class and not smart-contract-class, with two funded triggers. -/
theorem C8_IsSuperblockTriggered_by_height_class_witness :
    (CSuperblockManager.IsSuperblockTriggered testParams testExternals testStoreTie
      [(1, some (testTrigger 1 40)), (2, some (testTrigger 2 40))] 41).1 = false ∧
    ((CSuperblockManager.IsSuperblockTriggered testParams testExternals testStoreTie
        [(1, some (testTrigger 1 40)), (2, some (testTrigger 2 40))] 40).1 = true ↔
      ∃ sb obj,
        matchingTrigger testStoreTie 40
          (CGovernanceTriggerManager.GetActiveTriggers testStoreTie
            [(1, some (testTrigger 1 40)), (2, some (testTrigger 2 40))]) sb obj ∧
        (testExternals.UpdateSentinelVariables obj).fCachedFunding = true) :=
  ⟨(C8_IsSuperblockTriggered_by_height_class testParams testExternals testStoreTie
      [(1, some (testTrigger 1 40)), (2, some (testTrigger 2 40))] 41
      ⟨by decide, by decide⟩).1 (by decide),
   (C8_IsSuperblockTriggered_by_height_class testParams testExternals testStoreTie
      [(1, some (testTrigger 1 40)), (2, some (testTrigger 2 40))] 40
      ⟨by decide, by decide⟩).2 (by decide) (by decide)⟩


/-! ## Coinbase payload checks -/

/-- C9: for a block whose coinbase is of the special-transaction type, with
ChainLocks signalling, the LLMQ height, deterministic masternodes and the
DIP0003 phase-2 height all satisfied, `CheckCbTxMerkleRoots` accepts exactly
when the payload deserialises, `CalcCbTxMerkleRootMNList` succeeds (no
mutation) with a root equal to the embedded `merkleRootMNList`, and, for a
payload version of at least 2, `CalcCbTxMerkleRootQuorums` succeeds (no
mutation) with a root equal to the embedded `merkleRootQuorums`. For a version
below 2 the outcome is the same whatever the embedded quorum root is. -/
theorem C9_CheckCbTxMerkleRoots_accepts_iff_roots_match (P : ChainParams)
    (X : EvoExternals) (block : CBlock) (pindex : CBlockIndex) (cache : MerkleRootCache)
    (coinbase : CTransaction) (rest : List CTransaction)
    (hvtx : block.vtx = coinbase :: rest)
    (htype : coinbase.nType = X.TRANSACTION_COINBASE)
    (hChainLocks : X.fChainLocksActive = true)
    (hLLMQ : pindex.nHeight ≥ P.consensus.LLMQHeight)
    (hDM : pindex.nHeight ≥ X.nSpork15Value)
    (hPhase2 : pindex.nHeight ≥ P.consensus.DIP0003HeightPhase2) :
    ((∃ c, CheckCbTxMerkleRoots P X block pindex cache = some (ValidationResult.accept, c)) ↔
      ∃ cbTx, X.GetCbTxPayload coinbase = some cbTx ∧
        (CalcCbTxMerkleRootMNList X block pindex.pprev 0 cache.mnList).1 = true ∧
        (CalcCbTxMerkleRootMNList X block pindex.pprev 0 cache.mnList).2.1 =
          cbTx.merkleRootMNList ∧
        (cbTx.nVersion ≥ 2 →
          ∃ q, CalcCbTxMerkleRootQuorums X block pindex.pprev cache.quorums = some q ∧
            q.1 = true ∧ q.2.1 = cbTx.merkleRootQuorums)) ∧
    (∀ cbTx r, X.GetCbTxPayload coinbase = some cbTx → cbTx.nVersion < 2 →
      CheckCbTxMerkleRoots P
          { X with GetCbTxPayload := fun t =>
              if t = coinbase then some { cbTx with merkleRootQuorums := r }
              else X.GetCbTxPayload t }
          block pindex cache =
        CheckCbTxMerkleRoots P X block pindex cache) := by
  have hgate : (!decide (pindex.nHeight ≥ P.consensus.LLMQHeight) || !X.fChainLocksActive ||
      !decide (pindex.nHeight ≥ X.nSpork15Value)) = false := by
    simp [hChainLocks, hLLMQ, hDM]
  have hact : decide (pindex.nHeight ≥ P.consensus.DIP0003HeightPhase2) = true := by
    simp [hPhase2]
  constructor
  · unfold CheckCbTxMerkleRoots
    rw [hvtx]
    simp only [htype, ne_eq, not_true_eq_false, if_false, hgate, Bool.false_eq_true, hact,
      if_true]
    cases hp : X.GetCbTxPayload coinbase with
    | none => simp
    | some cbTx =>
      simp only [Option.some.injEq, exists_eq_left']
      cases hmn : (CalcCbTxMerkleRootMNList X block pindex.pprev 0 cache.mnList).1 with
      | false => simp
      | true =>
        simp only [Bool.not_true, Bool.false_eq_true, if_false, true_and]
        by_cases hroot : (CalcCbTxMerkleRootMNList X block pindex.pprev 0 cache.mnList).2.1 =
            cbTx.merkleRootMNList
        · simp only [hroot, not_true_eq_false, if_false, true_and]
          by_cases hver : cbTx.nVersion ≥ 2
          · simp only [hver, if_true, true_implies]
            cases hq : CalcCbTxMerkleRootQuorums X block pindex.pprev cache.quorums with
            | none => simp
            | some q =>
              cases hq1 : q.1 with
              | false => simp [hq1]
              | true =>
                by_cases hq2 : q.2.1 = cbTx.merkleRootQuorums
                · simp [hq1, hq2]
                · simp [hq1, hq2]
          · simp [hver]
        · simp [hroot]
  · intro cbTx r hp hver
    have hver' : ¬ cbTx.nVersion ≥ 2 := not_le.2 hver
    unfold CheckCbTxMerkleRoots
    rw [hvtx]
    simp only [htype, ne_eq, not_true_eq_false, if_false, hgate, Bool.false_eq_true, hact,
      if_true, hp, hver']
    rfl

/-- C9 at a concrete input: a version-2 payload whose two roots equal the
computed ones is accepted. -/
theorem C9_CheckCbTxMerkleRoots_accepts_iff_roots_match_witness :
    (∃ c, CheckCbTxMerkleRoots testParams testEvo ⟨[testCoinbase [2, 8, 6, 0]]⟩ testIndex8 {} =
      some (ValidationResult.accept, c)) ↔
      ∃ cbTx, testEvo.GetCbTxPayload (testCoinbase [2, 8, 6, 0]) = some cbTx ∧
        (CalcCbTxMerkleRootMNList testEvo ⟨[testCoinbase [2, 8, 6, 0]]⟩ testIndex8.pprev 0
          ({} : MerkleRootCache).mnList).1 = true ∧
        (CalcCbTxMerkleRootMNList testEvo ⟨[testCoinbase [2, 8, 6, 0]]⟩ testIndex8.pprev 0
          ({} : MerkleRootCache).mnList).2.1 = cbTx.merkleRootMNList ∧
        (cbTx.nVersion ≥ 2 →
          ∃ q, CalcCbTxMerkleRootQuorums testEvo ⟨[testCoinbase [2, 8, 6, 0]]⟩ testIndex8.pprev
              ({} : MerkleRootCache).quorums = some q ∧
            q.1 = true ∧ q.2.1 = cbTx.merkleRootQuorums) :=
  (C9_CheckCbTxMerkleRoots_accepts_iff_roots_match testParams testEvo
    ⟨[testCoinbase [2, 8, 6, 0]]⟩ testIndex8 {} (testCoinbase [2, 8, 6, 0]) [] rfl
    (by decide) (by decide) (by decide) (by decide) (by decide)).1

/-- C10 (as stated, refuted): without a previous block index `CheckCbTx`
accepts a payload of height 9, which is the height of no parent plus one. -/
theorem C10_CheckCbTx_accepts_without_previous_index :
    CheckCbTx testEvo (testCoinbase [2, 9, 6, 0]) none = ValidationResult.accept ∧
    testEvo.GetCbTxPayload (testCoinbase [2, 9, 6, 0]) = some ⟨2, 9, 6, 0⟩ ∧
    ¬ ∃ prev : CBlockIndex, (none : Option CBlockIndex) = some prev ∧
        (9 : Int) = prev.nHeight + 1 := by
  refine ⟨by decide, by decide, ?_⟩
  rintro ⟨prev, hprev, _⟩
  cases hprev

/-- C10 (amended): `CheckCbTx` accepts exactly when the transaction is tagged
as a coinbase special transaction, is structurally a coinbase, its payload
deserialises, the payload version is in `[1, CURRENT_VERSION]`, and, when a
previous block index is given, the payload height is that index's height plus
one and it is not the case that DIP0008 is active while the version is below
2. With a null previous block index the height and DIP0008 checks are
skipped. -/
theorem C10_CheckCbTx_accepts_iff (X : EvoExternals) (tx : CTransaction)
    (pindexPrev : Option CBlockIndex) :
    CheckCbTx X tx pindexPrev = ValidationResult.accept ↔
      tx.nType = X.TRANSACTION_COINBASE ∧ X.IsCoinBase tx = true ∧
        ∃ cbTx, X.GetCbTxPayload tx = some cbTx ∧
          1 ≤ cbTx.nVersion ∧ cbTx.nVersion ≤ X.CURRENT_VERSION ∧
          ∀ prev, pindexPrev = some prev →
            cbTx.nHeight = prev.nHeight + 1 ∧
              ¬ (X.fDIP0008Active prev = true ∧ cbTx.nVersion < 2) := by
  unfold CheckCbTx
  by_cases htype : tx.nType = X.TRANSACTION_COINBASE
  · simp only [htype, ne_eq, not_true_eq_false, if_false, true_and]
    cases hcb : X.IsCoinBase tx with
    | false => simp
    | true =>
      simp only [Bool.not_true, Bool.false_eq_true, if_false, true_and]
      cases hp : X.GetCbTxPayload tx with
      | none => simp
      | some cbTx =>
        simp only [Option.some.injEq, exists_eq_left']
        by_cases hver : cbTx.nVersion = 0 ∨ cbTx.nVersion > X.CURRENT_VERSION
        · simp only [hver, if_true]
          constructor
          · intro hf
            cases hf
          · rintro ⟨h1, h2, _⟩
            rcases hver with h0 | hgt
            · omega
            · omega
        · simp only [hver, if_false]
          have hv1 : 1 ≤ cbTx.nVersion ∧ cbTx.nVersion ≤ X.CURRENT_VERSION := by
            constructor
            · by_contra hc
              exact hver (Or.inl (by omega))
            · by_contra hc
              exact hver (Or.inr (by omega))
          cases pindexPrev with
          | none =>
            simp only [true_iff]
            exact ⟨hv1.1, hv1.2, fun prev hprev => by cases hprev⟩
          | some prev =>
            dsimp only
            constructor
            · intro hacc
              split at hacc
              · cases hacc
              · rename_i hh
                split at hacc
                · cases hacc
                · rename_i hd
                  refine ⟨hv1.1, hv1.2, ?_⟩
                  intro p hp
                  cases hp
                  exact ⟨(not_not.1 hh).symm, hd⟩
            · rintro ⟨_, _, hall⟩
              obtain ⟨he, hn⟩ := hall prev rfl
              rw [if_neg (not_not.2 he.symm), if_neg hn]
  · simp [htype]

/-- C10 (amended) at concrete inputs: on top of the index of height 7 a
payload of height 8 is accepted and one of height 9 is rejected; without a
previous index the payload of height 9 is accepted. -/
theorem C10_CheckCbTx_accepts_iff_witness :
    (CheckCbTx testEvo (testCoinbase [2, 8, 6, 0]) (some testIndex7) =
        ValidationResult.accept ∧
      ∃ cbTx, testEvo.GetCbTxPayload (testCoinbase [2, 8, 6, 0]) = some cbTx ∧
        1 ≤ cbTx.nVersion ∧ cbTx.nVersion ≤ testEvo.CURRENT_VERSION ∧
        ∀ prev, some testIndex7 = some prev →
          cbTx.nHeight = prev.nHeight + 1 ∧
            ¬ (testEvo.fDIP0008Active prev = true ∧ cbTx.nVersion < 2)) ∧
    CheckCbTx testEvo (testCoinbase [2, 9, 6, 0]) (some testIndex7) ≠
      ValidationResult.accept ∧
    CheckCbTx testEvo (testCoinbase [2, 9, 6, 0]) none = ValidationResult.accept :=
  ⟨⟨by decide,
    ((C10_CheckCbTx_accepts_iff testEvo (testCoinbase [2, 8, 6, 0]) (some testIndex7)).1
      (by decide)).2.2⟩,
   by decide, by decide⟩


/-! ## Height classes and the budget limit -/

theorem tmod_pos_dividend (a b : Int) (h : 0 < Int.tmod a b) : 0 < a := by
  cases a with
  | ofNat m =>
    cases m with
    | zero => simp at h
    | succ m => exact Int.ofNat_succ_pos m
  | negSucc m =>
    exfalso
    cases b with
    | ofNat n =>
      simp only [Int.tmod] at h
      exact absurd h (not_lt.2 (neg_nonpos.2 (Int.ofNat_nonneg (m.succ % n))))
    | negSucc n =>
      simp only [Int.tmod] at h
      exact absurd h (not_lt.2 (neg_nonpos.2 (Int.ofNat_nonneg (m.succ % n.succ))))

/-- A smart-contract-class height is at least 1. -/
theorem IsSmartContract_pos (P : ChainParams) (h : Int)
    (hsc : CSuperblock.IsSmartContract P h = true) : 1 ≤ h := by
  unfold CSuperblock.IsSmartContract at hsc
  split at hsc
  · simp only [Bool.and_eq_true, decide_eq_true_eq] at hsc
    have := tmod_pos_dividend h P.consensus.nDCCSuperblockCycle (by rw [hsc.2]; decide)
    omega
  · cases hsc

/-- `GetPaymentsLimit` is the composition of its steps. -/
theorem GetPaymentsLimit_eq_steps (P : ChainParams) (h : Int) (flag : Bool) :
    CSuperblock.GetPaymentsLimit P h flag =
      if h < 1 then 0
      else
        match budgetClass P h with
        | none => 0
        | some (_, _, nType) => clampPaymentsLimit P h nType flag (unclampedPaymentsLimit P h) := by
  unfold CSuperblock.GetPaymentsLimit unclampedPaymentsLimit budgetClass
  by_cases h1 : h < 1
  · simp only [h1, if_true]
  · simp only [h1, if_false]
    cases hv : CSuperblock.IsValidBlockHeight P h <;>
    cases hd : CSuperblock.IsDCCSuperblock P h <;>
    cases hs : CSuperblock.IsSmartContract P h <;>
    simp [clampPaymentsLimit, absoluteMaxMonthlyBudget, mulByDouble, assessmentHeight]


/-- The `double` constants of `GetPaymentsLimit` in the model have the
significands of their binary64 bit patterns `0x3FD3333333333333`,
`0x3FE4CCCCCCCCCCCD`, `0x3FDAE147AE147AE1` and `0x3FC999999999999A`. -/
theorem Dbl_lit_bit_patterns :
    Dbl.lit 30 100 = ⟨false, 0x13333333333333, -54⟩ ∧
    Dbl.lit 65 100 = ⟨false, 0x14CCCCCCCCCCCD, -53⟩ ∧
    Dbl.lit 42 100 = ⟨false, 0x1AE147AE147AE1, -54⟩ ∧
    Dbl.lit 20 100 = ⟨false, 0x1999999999999A, -55⟩ := by
  decide

/-- C11 (as stated, refuted): with a monthly cycle of 20 and a daily cycle of
100, height 20 is in the primary class and in the smart-contract class; with
cycles 6150 and 205, height 36900, below `F13000_CUTOVER_HEIGHT`, is in the
primary class and in the legacy daily class. -/
theorem C11_height_20_is_in_two_classes :
    (CSuperblock.IsValidBlockHeight testParams 20 = true ∧
      CSuperblock.IsSmartContract testParams 20 = true) ∧
    (CSuperblock.IsValidBlockHeight mainParams 36900 = true ∧
      CSuperblock.IsDCCSuperblock mainParams 36900 = true) := by
  decide

/-- C11 (amended): for every height and every setting of the constants the
legacy daily class and the smart-contract class exclude each other (same
cycle, remainder 0 or 10 against 20). When `nSuperblockCycle` is a multiple of
`nDCCSuperblockCycle`, the primary class excludes the smart-contract class,
and above `F13000_CUTOVER_HEIGHT` it excludes the legacy daily class as well:
there at most one of the three predicates holds. -/
theorem C11_height_classes_exclusive (P : ChainParams) (h : Int) :
    ¬ (CSuperblock.IsDCCSuperblock P h = true ∧ CSuperblock.IsSmartContract P h = true) ∧
    (P.consensus.nDCCSuperblockCycle ∣ P.consensus.nSuperblockCycle →
      ¬ (CSuperblock.IsValidBlockHeight P h = true ∧
          CSuperblock.IsSmartContract P h = true) ∧
      (h > P.consensus.F13000_CUTOVER_HEIGHT →
        ¬ (CSuperblock.IsValidBlockHeight P h = true ∧
            CSuperblock.IsDCCSuperblock P h = true))) := by
  constructor
  · rintro ⟨hd, hs⟩
    unfold CSuperblock.IsDCCSuperblock at hd
    unfold CSuperblock.IsSmartContract at hs
    split at hs
    · simp only [Bool.and_eq_true, decide_eq_true_eq] at hs
      split at hd
      · cases hd
      · split at hd
        · simp only [Bool.and_eq_true, decide_eq_true_eq] at hd
          omega
        · simp only [Bool.and_eq_true, decide_eq_true_eq] at hd
          omega
    · cases hs
  · intro hdvd
    have key : CSuperblock.IsValidBlockHeight P h = true →
        Int.tmod h P.consensus.nDCCSuperblockCycle = 0 := by
      intro hv
      unfold CSuperblock.IsValidBlockHeight at hv
      simp only [Bool.and_eq_true, decide_eq_true_eq] at hv
      exact Int.tmod_eq_zero_of_dvd (dvd_trans hdvd (Int.dvd_of_tmod_eq_zero hv.2))
    constructor
    · rintro ⟨hv, hs⟩
      have h0 := key hv
      unfold CSuperblock.IsSmartContract at hs
      split at hs
      · simp only [Bool.and_eq_true, decide_eq_true_eq] at hs
        omega
      · cases hs
    · rintro hcut ⟨hv, hd⟩
      have h0 := key hv
      unfold CSuperblock.IsDCCSuperblock at hd
      split at hd
      · cases hd
      · simp only [hcut, if_true, Bool.and_eq_true, decide_eq_true_eq] at hd
        omega

/-- C11 (amended) at a concrete input: with cycles 6150 and 205, height 123000
is in the primary class and in neither daily class. -/
theorem C11_height_classes_exclusive_witness :
    CSuperblock.IsValidBlockHeight mainParams 123000 = true ∧
    ¬ (CSuperblock.IsValidBlockHeight mainParams 123000 = true ∧
        CSuperblock.IsSmartContract mainParams 123000 = true) ∧
    ¬ (CSuperblock.IsValidBlockHeight mainParams 123000 = true ∧
        CSuperblock.IsDCCSuperblock mainParams 123000 = true) :=
  ⟨by decide,
   ((C11_height_classes_exclusive mainParams 123000).2 (by decide)).1,
   ((C11_height_classes_exclusive mainParams 123000).2 (by decide)).2 (by decide)⟩

/-- C12: `GetPaymentsLimit` returns 0, for either value of the flag, at every
height below 1 and at every height at which none of `IsValidBlockHeight`,
`IsDCCSuperblock` and `IsSmartContract` holds. -/
theorem C12_GetPaymentsLimit_zero_when_not_eligible (P : ChainParams) (h : Int)
    (flag : Bool) :
    (h < 1 → CSuperblock.GetPaymentsLimit P h flag = 0) ∧
    (CSuperblock.IsValidBlockHeight P h = false → CSuperblock.IsDCCSuperblock P h = false →
      CSuperblock.IsSmartContract P h = false → CSuperblock.GetPaymentsLimit P h flag = 0) := by
  constructor
  · intro h1
    unfold CSuperblock.GetPaymentsLimit
    simp only [h1, if_true]
  · intro hv hd hs
    unfold CSuperblock.GetPaymentsLimit
    simp only [hv, hd, hs, Bool.not_false, Bool.and_self, if_true, ite_self]

/-- C12 at concrete inputs: height 0, and height 41, which is in no class. -/
theorem C12_GetPaymentsLimit_zero_when_not_eligible_witness :
    CSuperblock.GetPaymentsLimit testParams 0 true = 0 ∧
    CSuperblock.GetPaymentsLimit testParams 41 true = 0 ∧
    CSuperblock.GetPaymentsLimit testParams 41 false = 0 :=
  ⟨(C12_GetPaymentsLimit_zero_when_not_eligible testParams 0 true).1 (by decide),
   (C12_GetPaymentsLimit_zero_when_not_eligible testParams 41 true).2
     (by decide) (by decide) (by decide),
   (C12_GetPaymentsLimit_zero_when_not_eligible testParams 41 false).2
     (by decide) (by decide) (by decide)⟩

theorem budgetClass_primary (P : ChainParams) (h : Int)
    (hv : CSuperblock.IsValidBlockHeight P h = true) :
    budgetClass P h = some (P.consensus.nSuperblockCycle, Dbl.lit 30 100, 0) := by
  simp [budgetClass, hv]

theorem budgetClass_smart (P : ChainParams) (h : Int)
    (hv : CSuperblock.IsValidBlockHeight P h = false)
    (hd : CSuperblock.IsDCCSuperblock P h = false)
    (hs : CSuperblock.IsSmartContract P h = true) :
    budgetClass P h = some (P.consensus.nDCCSuperblockCycle,
      if h > P.consensus.POOM_PHASEOUT_HEIGHT then Dbl.lit 42 100 else Dbl.lit 65 100, 2) := by
  simp [budgetClass, hv, hd, hs]

/-- Outside the smart-contract class the class selection gives no class, or
type 0 or 1. -/
theorem budgetClass_other (P : ChainParams) (h : Int)
    (hn : ¬ (CSuperblock.IsSmartContract P h = true ∧
      CSuperblock.IsValidBlockHeight P h = false ∧ CSuperblock.IsDCCSuperblock P h = false)) :
    budgetClass P h = none ∨
      ∃ cycle f nType, budgetClass P h = some (cycle, f, nType) ∧ nType ≠ 2 := by
  unfold budgetClass
  cases hv : CSuperblock.IsValidBlockHeight P h
  · cases hd : CSuperblock.IsDCCSuperblock P h
    · cases hs : CSuperblock.IsSmartContract P h
      · left
        simp
      · exact absurd ⟨hs, hv, hd⟩ hn
    · right
      simp only [Bool.false_eq_true, if_false, if_true]
      exact ⟨_, _, 1, rfl, by decide⟩
  · right
    simp only [if_true]
    exact ⟨_, _, 0, rfl, by decide⟩

/-- C13: on the production network (network id `main`), at a primary-class
height above `EVOLUTION_CUTOVER_HEIGHT - 6150`, `GetPaymentsLimit` returns the
monthly ceiling of 13,500,000 `COIN` when the unclamped limit is above it, and
the unclamped limit itself when it is at or below it. The height is positive
and the absolute ceiling is not below the monthly ceiling, as the constants of
the production network have it. -/
theorem C13_GetPaymentsLimit_monthly_ceiling (P : ChainParams) (h : Int) (flag : Bool)
    (hmain : P.NetworkIDString = "main")
    (hprim : CSuperblock.IsValidBlockHeight P h = true)
    (hpos : 1 ≤ h)
    (hcut : h > P.consensus.EVOLUTION_CUTOVER_HEIGHT - 6150)
    (habs : 13500000 * P.COIN ≤ absoluteMaxMonthlyBudget P) :
    unclampedPaymentsLimit P h =
      mulByDouble (P.GetBlockSubsidy 486585255 (assessmentHeight P h) *
        P.consensus.nSuperblockCycle) (Dbl.lit 30 100) ∧
    (unclampedPaymentsLimit P h > 13500000 * P.COIN →
      CSuperblock.GetPaymentsLimit P h flag = 13500000 * P.COIN) ∧
    (unclampedPaymentsLimit P h ≤ 13500000 * P.COIN →
      CSuperblock.GetPaymentsLimit P h flag = unclampedPaymentsLimit P h) := by
  have hcls := budgetClass_primary P h hprim
  have hstep : CSuperblock.GetPaymentsLimit P h flag =
      clampPaymentsLimit P h 0 flag (unclampedPaymentsLimit P h) := by
    rw [GetPaymentsLimit_eq_steps, hcls]
    simp only [not_lt.2 hpos, if_false]
  refine ⟨by simp only [unclampedPaymentsLimit, hcls], ?_, ?_⟩
  · intro hgt
    rw [hstep]
    unfold clampPaymentsLimit
    simp only [hmain, if_true, hcut, true_and, OfNat.zero_ne_ofNat, false_and, if_false]
    by_cases h1 : unclampedPaymentsLimit P h > absoluteMaxMonthlyBudget P
    · simp only [h1, if_true]
      by_cases h2 : absoluteMaxMonthlyBudget P > 13500000 * P.COIN
      · simp only [h2, if_true]
      · simp only [h2, if_false]
        exact le_antisymm (not_lt.1 h2) habs
    · simp only [h1, if_false, hgt, if_true]
  · intro hle
    rw [hstep]
    unfold clampPaymentsLimit
    have h1 : ¬ unclampedPaymentsLimit P h > absoluteMaxMonthlyBudget P :=
      not_lt.2 (le_trans hle habs)
    have h2 : ¬ unclampedPaymentsLimit P h > 13500000 * P.COIN := not_lt.2 hle
    simp only [hmain, if_true, h1, if_false, h2, and_false, OfNat.zero_ne_ofNat, false_and]

/-- C13 at concrete inputs on a chain with network id `main`: at height
123000 the unclamped limit of 18,450,000 coins is cut to 13,500,000 coins, at
height 135300 the unclamped limit of 9,225,000 coins is returned. -/
theorem C13_GetPaymentsLimit_monthly_ceiling_witness :
    (unclampedPaymentsLimit mainParams 123000 = 1845000000000000 ∧
      CSuperblock.GetPaymentsLimit mainParams 123000 false = 13500000 * mainParams.COIN) ∧
    (unclampedPaymentsLimit mainParams 135300 = 922500000000000 ∧
      CSuperblock.GetPaymentsLimit mainParams 135300 false =
        unclampedPaymentsLimit mainParams 135300) :=
  ⟨⟨by decide,
    (C13_GetPaymentsLimit_monthly_ceiling mainParams 123000 false rfl (by decide) (by decide)
      (by decide) (by decide)).2.1 (by decide)⟩,
   ⟨by decide,
    (C13_GetPaymentsLimit_monthly_ceiling mainParams 135300 false rfl (by decide) (by decide)
      (by decide) (by decide)).2.2 (by decide)⟩⟩

/-- C14: at a height that `GetPaymentsLimit` classifies as smart-contract class
the limit with the flag exceeds the limit without the flag by
`MAX_DAILY_WHALE_COMMITMENTS * COIN`; at every other height the two limits are
equal. -/
theorem C14_GetPaymentsLimit_whale_allocation (P : ChainParams) (h : Int) :
    (CSuperblock.IsSmartContract P h = true → CSuperblock.IsValidBlockHeight P h = false →
      CSuperblock.IsDCCSuperblock P h = false →
      CSuperblock.GetPaymentsLimit P h true =
        CSuperblock.GetPaymentsLimit P h false + P.MAX_DAILY_WHALE_COMMITMENTS * P.COIN) ∧
    (¬ (CSuperblock.IsSmartContract P h = true ∧ CSuperblock.IsValidBlockHeight P h = false ∧
        CSuperblock.IsDCCSuperblock P h = false) →
      CSuperblock.GetPaymentsLimit P h true = CSuperblock.GetPaymentsLimit P h false) := by
  constructor
  · intro hs hv hd
    have hpos := IsSmartContract_pos P h hs
    rw [GetPaymentsLimit_eq_steps, GetPaymentsLimit_eq_steps, budgetClass_smart P h hv hd hs]
    simp only [not_lt.2 hpos, if_false]
    simp [clampPaymentsLimit]
  · intro hn
    rw [GetPaymentsLimit_eq_steps, GetPaymentsLimit_eq_steps]
    by_cases h1 : h < 1
    · simp only [h1, if_true]
    · simp only [h1, if_false]
      rcases budgetClass_other P h hn with hnone | ⟨cycle, f, nType, hcls, hne⟩
      · rw [hnone]
      · rw [hcls]
        simp [clampPaymentsLimit, hne]

/-- C14 at concrete inputs: the smart-contract height 123020 and the primary
height 123000 of the sample chain. -/
theorem C14_GetPaymentsLimit_whale_allocation_witness :
    CSuperblock.GetPaymentsLimit mainParams 123020 true =
      CSuperblock.GetPaymentsLimit mainParams 123020 false +
        mainParams.MAX_DAILY_WHALE_COMMITMENTS * mainParams.COIN ∧
    CSuperblock.GetPaymentsLimit mainParams 123000 true =
      CSuperblock.GetPaymentsLimit mainParams 123000 false :=
  ⟨(C14_GetPaymentsLimit_whale_allocation mainParams 123020).1
      (by decide) (by decide) (by decide),
   (C14_GetPaymentsLimit_whale_allocation mainParams 123000).2 (by decide)⟩

theorem Dbl_toCAmount_nonneg (x : Dbl) (hx : x.neg = false) : 0 ≤ x.toCAmount := by
  unfold Dbl.toCAmount
  simp only [hx, Bool.false_eq_true, if_false]
  exact Int.ofNat_nonneg _

/-- With non-negative constants the absolute ceiling is not negative. -/
theorem absoluteMaxMonthlyBudget_nonneg (P : ChainParams)
    (h1 : 0 ≤ P.MAX_BLOCK_SUBSIDY) (h2 : 0 ≤ P.BLOCKS_PER_DAY) (h3 : 0 ≤ P.COIN) :
    0 ≤ absoluteMaxMonthlyBudget P := by
  apply Dbl_toCAmount_nonneg
  have hprod : ¬ (P.MAX_BLOCK_SUBSIDY * P.BLOCKS_PER_DAY * 30 < 0) := by
    have := mul_nonneg h1 h2
    omega
  simp [Dbl.mul, Dbl.ofInt, Dbl.lit, hprod, not_lt.2 h3]

/-- Without the whale allocation the tail of `GetPaymentsLimit` stays at or
below the absolute ceiling. -/
theorem clampPaymentsLimit_le_absolute (P : ChainParams) (h : Int) (nType : Nat)
    (u : CAmount) :
    clampPaymentsLimit P h nType false u ≤ absoluteMaxMonthlyBudget P := by
  have hl1 : (if u > absoluteMaxMonthlyBudget P then absoluteMaxMonthlyBudget P else u) ≤
      absoluteMaxMonthlyBudget P := by
    by_cases hu : u > absoluteMaxMonthlyBudget P
    · rw [if_pos hu]
    · rw [if_neg hu]
      exact not_lt.1 hu
  unfold clampPaymentsLimit
  simp only [Bool.false_eq_true, and_false, if_false]
  generalize (if u > absoluteMaxMonthlyBudget P then absoluteMaxMonthlyBudget P else u) = l1
    at hl1 ⊢
  by_cases hm : P.NetworkIDString = "main"
  · rw [if_pos hm]
    by_cases c1 : nType = 0 ∧ h > P.consensus.EVOLUTION_CUTOVER_HEIGHT - 6150 ∧
        l1 > 13500000 * P.COIN
    · rw [if_pos c1]
      exact le_trans (le_of_lt c1.2.2) hl1
    · rw [if_neg c1]
      by_cases c2 : nType = 2 ∧ h > P.consensus.EVOLUTION_CUTOVER_HEIGHT ∧
          l1 > 1000000 * P.COIN
      · rw [if_pos c2]
        exact le_trans (le_of_lt c2.2.2) hl1
      · rw [if_neg c2]
        exact hl1
  · rw [if_neg hm]
    exact hl1

/-- C15: for every height, every block-subsidy oracle and every network,
`GetPaymentsLimit(height, false)` does not exceed the absolute ceiling
`MAX_BLOCK_SUBSIDY * BLOCKS_PER_DAY * 30 * .20 * COIN`, the constants being
non-negative. -/
theorem C15_GetPaymentsLimit_below_absolute_ceiling (P : ChainParams) (h : Int)
    (h1 : 0 ≤ P.MAX_BLOCK_SUBSIDY) (h2 : 0 ≤ P.BLOCKS_PER_DAY) (h3 : 0 ≤ P.COIN) :
    CSuperblock.GetPaymentsLimit P h false ≤ absoluteMaxMonthlyBudget P := by
  have habs := absoluteMaxMonthlyBudget_nonneg P h1 h2 h3
  rw [GetPaymentsLimit_eq_steps]
  by_cases hlt : h < 1
  · simp only [hlt, if_true]
    exact habs
  · simp only [hlt, if_false]
    cases hcls : budgetClass P h with
    | none => exact habs
    | some cls =>
      obtain ⟨cycle, f, nType⟩ := cls
      exact clampPaymentsLimit_le_absolute P h nType _

/-- C15 at a concrete input: with 20000 coins per block, 205 blocks per day
and `COIN` 10^8 the absolute ceiling is 24,600,000 coins, a fifth of
20000 * 205 * 30 coins, and the limit at height 123000 is below it. -/
theorem C15_GetPaymentsLimit_below_absolute_ceiling_witness :
    absoluteMaxMonthlyBudget mainParams = 20000 * 205 * 30 * 100000000 / 5 ∧
    CSuperblock.GetPaymentsLimit mainParams 123000 false ≤
      absoluteMaxMonthlyBudget mainParams :=
  ⟨by decide,
   C15_GetPaymentsLimit_below_absolute_ceiling mainParams 123000 (by decide) (by decide)
     (by decide)⟩

/-- C16: at a height that `GetPaymentsLimit` classifies as smart-contract class
the limit before any clamping is
`GetBlockSubsidy(486585255, a) * nDCCSuperblockCycle * f` truncated to an
integer, with `f` the `double` 0.42 above `POOM_PHASEOUT_HEIGHT` and 0.65
otherwise, and `a = h - 1` up to `QTHeight` and `h - 1 - 32 * BLOCKS_PER_DAY`
above it; `GetPaymentsLimit` returns this value passed through the ceilings
and the whale allocation of type 2. -/
theorem C16_smart_contract_unclamped_limit (P : ChainParams) (h : Int) (flag : Bool)
    (hs : CSuperblock.IsSmartContract P h = true)
    (hv : CSuperblock.IsValidBlockHeight P h = false)
    (hd : CSuperblock.IsDCCSuperblock P h = false) :
    unclampedPaymentsLimit P h =
      mulByDouble
        (P.GetBlockSubsidy 486585255
            (if h ≤ P.consensus.QTHeight then h - 1 else h - 1 - 32 * P.BLOCKS_PER_DAY) *
          P.consensus.nDCCSuperblockCycle)
        (if h > P.consensus.POOM_PHASEOUT_HEIGHT then Dbl.lit 42 100 else Dbl.lit 65 100) ∧
    CSuperblock.GetPaymentsLimit P h flag =
      clampPaymentsLimit P h 2 flag (unclampedPaymentsLimit P h) := by
  have hcls := budgetClass_smart P h hv hd hs
  have hpos := IsSmartContract_pos P h hs
  constructor
  · simp only [unclampedPaymentsLimit, hcls, assessmentHeight]
    by_cases hq : h ≤ P.consensus.QTHeight
    · simp only [hq, not_lt.2 hq, if_true, if_false]
    · simp only [hq, not_le.1 hq, if_true, if_false]
      rw [mul_comm (32 : Int) P.BLOCKS_PER_DAY]
  · rw [GetPaymentsLimit_eq_steps, hcls]
    simp only [not_lt.2 hpos, if_false]

/-- C16 at a concrete input: at the smart-contract height 123020 of the sample
chain the unclamped limit is 10000 coins * 205 * 0.65 = 1,332,500 coins. -/
theorem C16_smart_contract_unclamped_limit_witness :
    unclampedPaymentsLimit mainParams 123020 =
      mulByDouble (mainParams.GetBlockSubsidy 486585255 123019 * 205) (Dbl.lit 65 100) ∧
    unclampedPaymentsLimit mainParams 123020 = 133250000000000 ∧
    CSuperblock.GetPaymentsLimit mainParams 123020 false =
      clampPaymentsLimit mainParams 123020 2 false (unclampedPaymentsLimit mainParams 123020) :=
  ⟨(C16_smart_contract_unclamped_limit mainParams 123020 false (by decide) (by decide)
      (by decide)).1,
   by decide,
   (C16_smart_contract_unclamped_limit mainParams 123020 false (by decide) (by decide)
      (by decide)).2⟩


/-! ## Payment schedule parsing -/

theorem parsePaymentLoop_ok (E : Externals) :
    ∀ (toksA : List (List Char)) (scripts : List CScript),
      List.Forall₂ (decodesTo E) toksA scripts →
      ∀ (toksM : List (List Char)) (amts : List CAmount),
        List.Forall₂ (fun tok a => ParsePaymentAmount E tok = Except.ok a) toksM amts →
        ∀ vec : List CGovernancePayment,
          parsePaymentLoop E toksA toksM vec =
            (Except.ok (), vec ++ List.zipWith CGovernancePayment.mk scripts amts) := by
  intro toksA scripts hA
  induction hA with
  | nil =>
    intro toksM amts _ vec
    simp [parsePaymentLoop]
  | cons hd _ ih =>
    rename_i tokA s restA restS
    intro toksM amts hM vec
    cases hM with
    | nil => simp [parsePaymentLoop]
    | cons hm hrest =>
      rename_i tokM a restM restAm
      obtain ⟨hv, hs, hp⟩ := hd
      unfold parsePaymentLoop
      simp only [hv, hs, hm, hp, Bool.not_true, Bool.false_eq_true, if_false]
      rw [ih restM restAm hrest]
      simp

/-- C17: when the address string and the amount string split on `|` into the
same number `N ≥ 1` of tokens, every address token decodes to a valid
non-script address and every amount token parses, `ParsePaymentSchedule` on an
empty schedule succeeds with exactly `N` payments, the i-th being the script
of address token i with the amount of amount token i. -/
theorem C17_ParsePaymentSchedule_succeeds_in_order (E : Externals)
    (strPaymentAddresses strPaymentAmounts : List Char)
    (scripts : List CScript) (amts : List CAmount)
    (hA : List.Forall₂ (decodesTo E) (SplitBy strPaymentAddresses ['|']) scripts)
    (hM : List.Forall₂ (fun tok a => ParsePaymentAmount E tok = Except.ok a)
      (SplitBy strPaymentAmounts ['|']) amts)
    (hlen : (SplitBy strPaymentAddresses ['|']).length =
      (SplitBy strPaymentAmounts ['|']).length)
    (hpos : 1 ≤ (SplitBy strPaymentAddresses ['|']).length) :
    CSuperblock.ParsePaymentSchedule E [] strPaymentAddresses strPaymentAmounts =
      (Except.ok (), List.zipWith CGovernancePayment.mk scripts amts) ∧
    (List.zipWith CGovernancePayment.mk scripts amts).length =
      (SplitBy strPaymentAddresses ['|']).length := by
  constructor
  · unfold CSuperblock.ParsePaymentSchedule
    have h0 : ¬ (SplitBy strPaymentAddresses ['|']).length = 0 := by omega
    simp only [ne_eq, hlen, not_true_eq_false, if_false]
    rw [← hlen]
    simp only [h0, if_false]
    rw [parsePaymentLoop_ok E _ _ hA _ _ hM]
    simp
  · rw [List.length_zipWith, ← hA.length_eq, ← hM.length_eq, ← hlen]
    simp

/-- C17 at a concrete input: addresses `A|B` and amounts `10|20`. -/
theorem C17_ParsePaymentSchedule_succeeds_in_order_witness :
    CSuperblock.ParsePaymentSchedule testExternals [] ['A', '|', 'B']
        ['1', '0', '|', '2', '0'] =
      (Except.ok (), [⟨[65], 10⟩, ⟨[66], 20⟩]) ∧
    ([⟨[65], 10⟩, ⟨[66], 20⟩] : List CGovernancePayment).length =
      (SplitBy ['A', '|', 'B'] ['|']).length :=
  C17_ParsePaymentSchedule_succeeds_in_order testExternals ['A', '|', 'B']
    ['1', '0', '|', '2', '0'] [[65], [66]] [10, 20]
    (List.Forall₂.cons ⟨rfl, rfl, rfl⟩ (List.Forall₂.cons ⟨rfl, rfl, rfl⟩ List.Forall₂.nil))
    (List.Forall₂.cons (by rfl) (List.Forall₂.cons (by rfl) List.Forall₂.nil))
    (by decide) (by decide)

/-- The failure paths of the loop at a sample input: the amount token `x` after
the valid entry `(A, 10)` makes `ParsePaymentSchedule` throw with the payment
to `A` still in the vector of the object under construction; an invalid
payment for the address `B` clears the vector before the throw. -/
theorem ParsePaymentSchedule_test_failure_paths :
    CSuperblock.ParsePaymentSchedule testExternals [] ['A', '|', 'B'] ['1', '0', '|', 'x'] =
      (Except.error "ParsePaymentAmount: Amount string contains invalid character",
        [⟨[65], 10⟩]) ∧
    CSuperblock.ParsePaymentSchedule testExternalsNoB [] ['A', '|', 'B']
        ['1', '0', '|', '2', '0'] =
      (Except.error "CSuperblock::ParsePaymentSchedule -- Invalid payment found", []) :=
  ⟨by rfl, by rfl⟩

theorem amountCharacters_eq : "0123456789.".toList = amountCharacters := by decide

theorem contains_iff_mem_char (l : List Char) (c : Char) : l.contains c = true ↔ c ∈ l := by
  simp

theorem any_bad_char_iff (s : List Char) :
    (s.any fun c => !("0123456789.".toList.contains c)) = true ↔
      ∃ c ∈ s, c ∉ amountCharacters := by
  rw [List.any_eq_true, amountCharacters_eq]
  constructor
  · rintro ⟨c, hc, hb⟩
    refine ⟨c, hc, ?_⟩
    intro hm
    rw [(contains_iff_mem_char _ _).2 hm] at hb
    cases hb
  · rintro ⟨c, hc, hn⟩
    refine ⟨c, hc, ?_⟩
    cases hx : amountCharacters.contains c with
    | false => rfl
    | true => exact absurd ((contains_iff_mem_char _ _).1 hx) hn

theorem indexOf_dot_zero_iff (s : List Char) (hs : s ≠ []) :
    s.indexOf '.' = 0 ↔ s.head? = some '.' := by
  cases s with
  | nil => exact absurd rfl hs
  | cons c cs =>
    rw [List.indexOf_cons]
    by_cases hc : c = '.'
    · simp [hc]
    · have hb : (c == '.') = false := by simpa using hc
      rw [hb]
      simp [hc]

theorem second_dot_iff (s : List Char) :
    (s.indexOf '.' < s.length ∧ (s.drop (s.indexOf '.' + 1)).contains '.' = true) ↔
      2 ≤ s.count '.' := by
  induction s with
  | nil => simp
  | cons c cs ih =>
    rw [List.indexOf_cons, List.count_cons]
    by_cases hc : c = '.'
    · subst hc
      simp only [beq_self_eq_true, cond_true, List.length_cons, Nat.zero_lt_succ, true_and,
        Nat.zero_add, List.drop_succ_cons, List.drop_zero, if_true]
      rw [contains_iff_mem_char, ← List.one_le_count_iff]
      omega
    · have hb : (c == '.') = false := by simpa using hc
      simp only [hb, cond_false, List.length_cons, Nat.add_lt_add_iff_right,
        List.drop_succ_cons, Bool.false_eq_true, if_false, Nat.add_zero]
      exact ih

/-- `ParsePaymentAmount` returns `a` exactly when every check of the source
passes and `ParseFixedPoint` yields `a`. -/
theorem ParsePaymentAmount_ok_iff (E : Externals) (s : List Char) (a : CAmount) :
    ParsePaymentAmount E s = Except.ok a ↔
      s ≠ [] ∧ s.length ≤ 20 ∧ (∀ c ∈ s, c ∈ amountCharacters) ∧ s.head? ≠ some '.' ∧
        s.count '.' ≤ 1 ∧ E.ParseFixedPoint s 8 = some a ∧ MoneyRange E a = true := by
  constructor
  · intro h
    unfold ParsePaymentAmount at h
    split at h
    · cases h
    · rename_i he
      have hne : s ≠ [] := fun hs => he (List.isEmpty_iff.2 hs)
      split at h
      · cases h
      · rename_i hl
        split at h
        · cases h
        · rename_i hany
          dsimp only at h
          split at h
          · cases h
          · rename_i hp0
            split at h
            · cases h
            · rename_i h2
              split at h
              · cases h
              · rename_i n hpf
                split at h
                · cases h
                · rename_i hm
                  cases h
                  refine ⟨hne, by omega, ?_, ?_, ?_, hpf, by simpa using hm⟩
                  · intro c hc
                    by_contra hn
                    exact hany ((any_bad_char_iff s).2 ⟨c, hc, hn⟩)
                  · intro hd
                    exact hp0 ((indexOf_dot_zero_iff s hne).2 hd)
                  · by_contra hc2
                    exact h2 ((second_dot_iff s).2 (by omega))
  · rintro ⟨hne, hl, hall, hd, hc, hpf, hm⟩
    unfold ParsePaymentAmount
    have he : ¬ s.isEmpty = true := fun h => hne (List.isEmpty_iff.1 h)
    have hl' : ¬ s.length > 20 := by omega
    have hany : ¬ (s.any fun c => !("0123456789.".toList.contains c)) = true := by
      intro h
      obtain ⟨c, hc1, hc2⟩ := (any_bad_char_iff s).1 h
      exact hc2 (hall c hc1)
    have hp0 : ¬ s.indexOf '.' = 0 := fun h => hd ((indexOf_dot_zero_iff s hne).1 h)
    have h2 : ¬ (s.indexOf '.' < s.length ∧
        (s.drop (s.indexOf '.' + 1)).contains '.' = true) := by
      intro h
      have := (second_dot_iff s).1 h
      omega
    rw [if_neg he, if_neg hl', if_neg hany]
    dsimp only
    rw [if_neg hp0, if_neg h2]
    simp only [hpf, hm, Bool.not_true, Bool.false_eq_true, if_false]

/-- C19: `ParsePaymentAmount` fails exactly when the string is empty, or longer
than 20 characters, or has a character outside `0`-`9` and `.`, or starts with
`.`, or has more than one `.`, or fails `ParseFixedPoint` at 8 decimals, or
parses to a value outside the money range; otherwise it returns the value of
`ParseFixedPoint`, which lies in the money range. -/
theorem C19_ParsePaymentAmount_fails_iff (E : Externals) (s : List Char) :
    ((∃ e, ParsePaymentAmount E s = Except.error e) ↔
      s = [] ∨ 20 < s.length ∨ (∃ c ∈ s, c ∉ amountCharacters) ∨ s.head? = some '.' ∨
        2 ≤ s.count '.' ∨ E.ParseFixedPoint s 8 = none ∨
        ∃ a, E.ParseFixedPoint s 8 = some a ∧ MoneyRange E a = false) ∧
    ((¬ ∃ e, ParsePaymentAmount E s = Except.error e) →
      ∃ a, ParsePaymentAmount E s = Except.ok a ∧ E.ParseFixedPoint s 8 = some a ∧
        0 ≤ a ∧ a ≤ E.MAX_MONEY) := by
  have hok := ParsePaymentAmount_ok_iff E s
  have hrange : ∀ a, MoneyRange E a = true → 0 ≤ a ∧ a ≤ E.MAX_MONEY := by
    intro a ha
    simpa [MoneyRange] using ha
  constructor
  · constructor
    · rintro ⟨e, he⟩
      by_contra hnot
      simp only [not_or, not_exists, not_and, not_not] at hnot
      obtain ⟨h1, h2, h3, h4, h5, h6, h7⟩ := hnot
      cases hp : E.ParseFixedPoint s 8 with
      | none => exact h6 hp
      | some a =>
        have hm : MoneyRange E a = true := by
          cases hm : MoneyRange E a with
          | true => rfl
          | false => exact absurd hm (h7 a hp)
        have := (hok a).2 ⟨h1, by omega, h3, h4, by omega, hp, hm⟩
        rw [he] at this
        cases this
    · intro hdisj
      cases hr : ParsePaymentAmount E s with
      | error e => exact ⟨e, rfl⟩
      | ok a =>
        exfalso
        obtain ⟨h1, h2, h3, h4, h5, h6, h7⟩ := (hok a).1 hr
        rcases hdisj with d | d | ⟨c, hc, hbad⟩ | d | d | d | ⟨b, hb, hbm⟩
        · exact h1 d
        · omega
        · exact hbad (h3 c hc)
        · exact h4 d
        · omega
        · rw [d] at h6; cases h6
        · rw [hb] at h6
          cases h6
          rw [h7] at hbm
          cases hbm
  · intro hno
    cases hr : ParsePaymentAmount E s with
    | error e => exact absurd ⟨e, hr⟩ hno
    | ok a =>
      obtain ⟨_, _, _, _, _, h6, h7⟩ := (hok a).1 hr
      exact ⟨a, rfl, h6, hrange a h7⟩

/-- C19 at concrete inputs: `1.2.3` has two dots and fails; `10` parses to the
value of `ParseFixedPoint`. -/
theorem C19_ParsePaymentAmount_fails_iff_witness :
    (∃ e, ParsePaymentAmount testExternals ['1', '.', '2', '.', '3'] = Except.error e) ∧
    ∃ a, ParsePaymentAmount testExternals ['1', '0'] = Except.ok a ∧
      testExternals.ParseFixedPoint ['1', '0'] 8 = some a ∧ 0 ≤ a ∧
      a ≤ testExternals.MAX_MONEY :=
  ⟨(C19_ParsePaymentAmount_fails_iff testExternals ['1', '.', '2', '.', '3']).1.2
      (Or.inr (Or.inr (Or.inr (Or.inr (Or.inl (by decide)))))),
   (C19_ParsePaymentAmount_fails_iff testExternals ['1', '0']).2
      (by rintro ⟨e, he⟩; exact absurd he (by rw [show ParsePaymentAmount testExternals
        ['1', '0'] = Except.ok 10 from by rfl]; exact fun h => by cases h))⟩

theorem parsePaymentLoop_length (E : Externals) :
    ∀ (toksA toksM : List (List Char)) (vec out : List CGovernancePayment),
      parsePaymentLoop E toksA toksM vec = (Except.ok (), out) →
        out.length = vec.length + min toksA.length toksM.length := by
  intro toksA
  induction toksA with
  | nil =>
    intro toksM vec out h
    simp only [parsePaymentLoop, Prod.mk.injEq, true_and] at h
    subst h
    simp
  | cons tokA restA ih =>
    intro toksM vec out h
    cases toksM with
    | nil =>
      simp only [parsePaymentLoop, Prod.mk.injEq, true_and] at h
      subst h
      simp
    | cons tokM restM =>
      unfold parsePaymentLoop at h
      split at h
      · cases h
      · split at h
        · cases h
        · split at h
          · cases h
          · split at h
            · have := ih restM _ out h
              simp only [List.length_append, List.length_singleton] at this
              simp only [List.length_cons]
              omega
            · cases h

/-- C20: `ParsePaymentSchedule` fails when the address string and the amount
string split on `|` into different numbers of tokens, and when they split into
zero tokens; so a schedule parsed with success from an empty one is not
empty. -/
theorem C20_ParsePaymentSchedule_rejects_mismatch_and_empty (E : Externals)
    (vecPayments : List CGovernancePayment) (strPaymentAddresses strPaymentAmounts : List Char) :
    ((SplitBy strPaymentAddresses ['|']).length ≠ (SplitBy strPaymentAmounts ['|']).length →
      CSuperblock.ParsePaymentSchedule E vecPayments strPaymentAddresses strPaymentAmounts =
        (Except.error "CSuperblock::ParsePaymentSchedule -- Mismatched payments and amounts",
          vecPayments)) ∧
    ((SplitBy strPaymentAddresses ['|']).length = 0 →
      (SplitBy strPaymentAmounts ['|']).length = 0 →
      CSuperblock.ParsePaymentSchedule E vecPayments strPaymentAddresses strPaymentAmounts =
        (Except.error "CSuperblock::ParsePaymentSchedule -- Error no payments",
          vecPayments)) ∧
    (∀ out, CSuperblock.ParsePaymentSchedule E [] strPaymentAddresses strPaymentAmounts =
        (Except.ok (), out) → out ≠ []) := by
  refine ⟨?_, ?_, ?_⟩
  · intro hne
    unfold CSuperblock.ParsePaymentSchedule
    simp only [ne_eq, hne, not_false_eq_true, if_true]
  · intro h1 h2
    unfold CSuperblock.ParsePaymentSchedule
    simp only [h1, h2, ne_eq, not_true_eq_false, if_false, if_true]
  · intro out h
    unfold CSuperblock.ParsePaymentSchedule at h
    dsimp only at h
    split at h
    · cases h
    · rename_i hlen
      split at h
      · cases h
      · rename_i hpos
        have := parsePaymentLoop_length E _ _ _ _ h
        simp only [ne_eq, not_not] at hlen
        intro hout
        rw [hout, ← hlen] at this
        simp only [List.length_nil, Nat.zero_add, Nat.min_self] at this
        exact hpos this.symm

/-- C20 at concrete inputs: `A|B` against `10` is a mismatch, two empty strings
give no token, and the parsed schedule of `A|B`, `10|20` is not empty. -/
theorem C20_ParsePaymentSchedule_rejects_mismatch_and_empty_witness :
    CSuperblock.ParsePaymentSchedule testExternals [] ['A', '|', 'B'] ['1', '0'] =
      (Except.error "CSuperblock::ParsePaymentSchedule -- Mismatched payments and amounts",
        []) ∧
    CSuperblock.ParsePaymentSchedule testExternals [] [] [] =
      (Except.error "CSuperblock::ParsePaymentSchedule -- Error no payments", []) ∧
    ([⟨[65], 10⟩, ⟨[66], 20⟩] : List CGovernancePayment) ≠ [] :=
  ⟨(C20_ParsePaymentSchedule_rejects_mismatch_and_empty testExternals [] ['A', '|', 'B']
      ['1', '0']).1 (by decide),
   (C20_ParsePaymentSchedule_rejects_mismatch_and_empty testExternals [] [] []).2.1
      (by decide) (by decide),
   (C20_ParsePaymentSchedule_rejects_mismatch_and_empty testExternals [] ['A', '|', 'B']
      ['1', '0', '|', '2', '0']).2.2 _ (by rfl)⟩

/-! ## Registering a trigger -/

theorem mapCount_ne_zero_iff {β : Type} (k : uint256) (m : List (uint256 × β)) :
    mapCount k m ≠ 0 ↔ k ∈ m.map Prod.fst := by
  unfold mapCount
  constructor
  · intro h
    by_cases ha : m.any (fun p => decide (p.1 = k)) = true
    · obtain ⟨p, hp, hk⟩ := List.any_eq_true.1 ha
      have hk' : p.1 = k := of_decide_eq_true hk
      exact List.mem_map.2 ⟨p, hp, hk'⟩
    · rw [if_neg ha] at h
      exact absurd rfl h
  · intro h
    obtain ⟨p, hp, hk⟩ := List.mem_map.1 h
    have ha : m.any (fun p => decide (p.1 = k)) = true :=
      List.any_eq_true.2 ⟨p, hp, decide_eq_true hk⟩
    rw [if_pos ha]
    exact Nat.one_ne_zero

theorem mapInsert_of_not_mem {β : Type} (k : uint256) (v : β) :
    ∀ (m : List (uint256 × β)), k ∉ m.map Prod.fst →
      ∃ l1 l2, m = l1 ++ l2 ∧ mapInsert k v m = l1 ++ (k, v) :: l2 := by
  intro m
  induction m with
  | nil => intro _; exact ⟨[], [], rfl, rfl⟩
  | cons q rest ih =>
    intro hk
    obtain ⟨k', v'⟩ := q
    have hne : k ≠ k' := fun e => hk (by simp [e])
    have hrest : k ∉ rest.map Prod.fst := fun e => hk (by simp [e])
    unfold mapInsert
    by_cases h1 : k < k'
    · rw [if_pos h1]
      exact ⟨[], (k', v') :: rest, rfl, rfl⟩
    · rw [if_neg h1, if_neg hne]
      obtain ⟨l1, l2, e1, e2⟩ := ih hrest
      refine ⟨(k', v') :: l1, l2, ?_, ?_⟩
      · rw [e1]; rfl
      · rw [e2]; rfl

theorem construct_ok_iff (E : Externals) (governance : GovStore) (nHash : uint256)
    (sb : CSuperblock) :
    CSuperblock.construct E governance nHash = .ok sb ↔
      ∃ h v, parsesTo E governance nHash h v ∧
        sb = { nGovObjHash := nHash, nBlockHeight := h,
               nStatus := SeenObjectStatus.SEEN_OBJECT_UNKNOWN, vecPayments := v } := by
  constructor
  · intro hc
    unfold CSuperblock.construct at hc
    split at hc
    · cases hc
    · rename_i obj hobj
      split at hc
      · cases hc
      · rename_i htype
        dsimp only at hc
        split at hc
        · cases hc
        · rename_i nBlockHeight hh
          split at hc
          · cases hc
          · rename_i strAddresses ha
            split at hc
            · cases hc
            · rename_i strAmounts hm
              split at hc
              · cases hc
              · rename_i u vecPayments hp
                cases u
                injection hc with hc
                exact ⟨nBlockHeight, vecPayments,
                  ⟨obj, strAddresses, strAmounts, hobj, not_not.1 htype, hh, ha, hm, hp⟩,
                  hc.symm⟩
  · rintro ⟨h, v, ⟨obj, strAddresses, strAmounts, hobj, htype, hh, ha, hm, hp⟩, rfl⟩
    unfold CSuperblock.construct
    rw [hobj]
    dsimp only
    rw [if_neg (not_not.2 htype), hh]
    dsimp only
    rw [ha]
    dsimp only
    rw [hm]
    dsimp only
    rw [hp]

/-- C21: when the hash is already a key of the registry, `AddNewTrigger`
returns false and the registry afterwards is the registry before. -/
theorem C21_AddNewTrigger_known_hash_is_no_op (E : Externals) (governance : GovStore)
    (mapTrigger : trigger_m_t) (nHash : uint256)
    (hkey : nHash ∈ mapTrigger.map Prod.fst) :
    CGovernanceTriggerManager.AddNewTrigger E governance mapTrigger nHash =
      (false, mapTrigger) := by
  unfold CGovernanceTriggerManager.AddNewTrigger
  rw [if_pos ((mapCount_ne_zero_iff nHash mapTrigger).2 hkey)]

theorem C21_AddNewTrigger_known_hash_is_no_op_witness :
    (1 : uint256) ∈ [((1 : uint256), some (testTrigger 1 40))].map Prod.fst ∧
    CGovernanceTriggerManager.AddNewTrigger testExternals testStoreTie
        [(1, some (testTrigger 1 40))] 1 =
      (false, [(1, some (testTrigger 1 40))]) :=
  ⟨by decide,
   C21_AddNewTrigger_known_hash_is_no_op testExternals testStoreTie
     [(1, some (testTrigger 1 40))] 1 (by decide)⟩

/-- C22: for a hash that is not a key of the registry, `AddNewTrigger` returns
true exactly when the governance object under the hash exists, is a trigger,
and its target height and payment schedule parse; the registry afterwards is
then the registry before with one entry put in, which maps the hash to the
trigger with that height, that schedule and status valid; when it returns
false the registry is unchanged. -/
theorem C22_AddNewTrigger_new_hash (E : Externals) (governance : GovStore)
    (mapTrigger : trigger_m_t) (nHash : uint256)
    (hnew : nHash ∉ mapTrigger.map Prod.fst) :
    ((CGovernanceTriggerManager.AddNewTrigger E governance mapTrigger nHash).1 = true ↔
      ∃ h v, parsesTo E governance nHash h v) ∧
    (∀ h v, parsesTo E governance nHash h v →
      ∃ l1 l2, mapTrigger = l1 ++ l2 ∧
        (CGovernanceTriggerManager.AddNewTrigger E governance mapTrigger nHash).2 =
          l1 ++ (nHash, some { nGovObjHash := nHash, nBlockHeight := h,
                               nStatus := SeenObjectStatus.SEEN_OBJECT_IS_VALID,
                               vecPayments := v }) :: l2) ∧
    ((CGovernanceTriggerManager.AddNewTrigger E governance mapTrigger nHash).1 = false →
      (CGovernanceTriggerManager.AddNewTrigger E governance mapTrigger nHash).2 =
        mapTrigger) := by
  have hcount : ¬ mapCount nHash mapTrigger ≠ 0 :=
    fun h => hnew ((mapCount_ne_zero_iff nHash mapTrigger).1 h)
  unfold CGovernanceTriggerManager.AddNewTrigger
  rw [if_neg hcount]
  refine ⟨?_, ?_, ?_⟩
  · constructor
    · intro ht
      split at ht
      · exact Bool.noConfusion ht
      · rename_i sb hc
        obtain ⟨h, v, hp, _⟩ := (construct_ok_iff E governance nHash sb).1 hc
        exact ⟨h, v, hp⟩
    · rintro ⟨h, v, hp⟩
      rw [(construct_ok_iff E governance nHash _).2 ⟨h, v, hp, rfl⟩]
  · intro h v hp
    rw [(construct_ok_iff E governance nHash _).2 ⟨h, v, hp, rfl⟩]
    exact mapInsert_of_not_mem nHash _ mapTrigger hnew
  · intro hf
    split
    · rfl
    · rename_i sb hc
      rw [hc] at hf
      exact Bool.noConfusion hf

theorem C22_AddNewTrigger_new_hash_witness :
    (2 : uint256) ∉ [((1 : uint256), some (testTrigger 1 40))].map Prod.fst ∧
    (((CGovernanceTriggerManager.AddNewTrigger testExternals testStoreTie
          [(1, some (testTrigger 1 40))] 2).1 = true ↔
      ∃ h v, parsesTo testExternals testStoreTie 2 h v) ∧
    (∀ h v, parsesTo testExternals testStoreTie 2 h v →
      ∃ l1 l2, [((1 : uint256), some (testTrigger 1 40))] = l1 ++ l2 ∧
        (CGovernanceTriggerManager.AddNewTrigger testExternals testStoreTie
            [(1, some (testTrigger 1 40))] 2).2 =
          l1 ++ (2, some { nGovObjHash := 2, nBlockHeight := h,
                           nStatus := SeenObjectStatus.SEEN_OBJECT_IS_VALID,
                           vecPayments := v }) :: l2) ∧
    ((CGovernanceTriggerManager.AddNewTrigger testExternals testStoreTie
          [(1, some (testTrigger 1 40))] 2).1 = false →
      (CGovernanceTriggerManager.AddNewTrigger testExternals testStoreTie
          [(1, some (testTrigger 1 40))] 2).2 = [(1, some (testTrigger 1 40))])) :=
  ⟨by decide,
   C22_AddNewTrigger_new_hash testExternals testStoreTie
     [(1, some (testTrigger 1 40))] 2 (by decide)⟩

/-- The registration of hash 2 on the test store: the trigger for height 40
paying 10 to `A` is put in after the entry of hash 1. -/
theorem AddNewTrigger_test_registration :
    CGovernanceTriggerManager.AddNewTrigger testExternals testStoreTie
        [(1, some (testTrigger 1 40))] 2 =
      (true, [(1, some (testTrigger 1 40)), (2, some (testTrigger 2 40))]) := by
  decide

/-! ## Expiry and removal of triggers -/

theorem wrapInt32_of_range (n : Int) (h1 : -2147483648 ≤ n) (h2 : n ≤ 2147483647) :
    wrapInt32 n = n := by
  unfold wrapInt32
  omega

theorem IsExpired_fst (P : ChainParams) (g : GovStore) (h t : Int) (sb : CSuperblock) :
    (sb.IsExpired P g h t).1 =
      decide (h > wrapInt32 (sb.nBlockHeight + expirationBlocks P sb.nStatus)) := by
  unfold CSuperblock.IsExpired
  dsimp only
  by_cases hc : h > wrapInt32 (sb.nBlockHeight + expirationBlocks P sb.nStatus)
  · rw [if_pos hc, decide_eq_true hc]
  · rw [if_neg hc, decide_eq_false hc]

theorem sameKinds_refl (g : GovStore) : sameKinds g g := fun _ => rfl

theorem sameKinds_update (g g' : GovStore) (k : uint256)
    (f : CGovernanceObject → CGovernanceObject)
    (hk : sameKinds g g') (hf : ∀ o, (f o).nObjectType = o.nObjectType) :
    sameKinds g (g'.update k f) := by
  intro k'
  unfold GovStore.update
  cases hg : g' k with
  | none => exact hk k'
  | some o =>
    dsimp only
    unfold GovStore.set
    by_cases hkk : k' = k
    · rw [if_pos hkk, hkk, hk k, hg]
      simp [hf]
    · rw [if_neg hkk]
      exact hk k'

theorem sameKinds_IsExpired (P : ChainParams) (g g' : GovStore) (h t : Int)
    (sb : CSuperblock) (hk : sameKinds g g') :
    sameKinds g (sb.IsExpired P g' h t).2 := by
  unfold CSuperblock.IsExpired
  dsimp only
  split
  · exact sameKinds_update g g' _ _ hk (fun _ => rfl)
  · exact hk

theorem sameKinds_removeSwitch (P : ChainParams) (g g' : GovStore) (h t : Int)
    (key : uint256) (sb : CSuperblock) (hk : sameKinds g g') :
    sameKinds g (removeSwitch P h t g' key sb).2 := by
  have hexp : sameKinds g
      (if (sb.IsExpired P g' h t).1 = true
        then (true, (sb.IsExpired P g' h t).2.update key CGovernanceObject.SetExpired)
        else (false, (sb.IsExpired P g' h t).2)).2 := by
    split
    · exact sameKinds_update g _ _ _ (sameKinds_IsExpired P g g' h t sb hk) (fun _ => rfl)
    · exact sameKinds_IsExpired P g g' h t sb hk
  unfold removeSwitch
  split
  · exact hk
  · exact hk
  · exact hexp
  · exact hexp
  · exact hk

theorem objectUnusable_congr (g g' : GovStore) (key : uint256) (hk : sameKinds g g') :
    objectUnusable g key ↔ objectUnusable g' key := by
  have h := hk key
  unfold objectUnusable
  cases hg : g key with
  | none =>
    rw [hg] at h
    cases hg' : g' key with
    | none => simp
    | some o' => rw [hg'] at h; simp at h
  | some o =>
    rw [hg] at h
    cases hg' : g' key with
    | none => rw [hg'] at h; simp at h
    | some o' =>
      rw [hg'] at h
      simp only [Option.map_some', Option.some.injEq] at h
      simp [h]

theorem statusExpired_congr (P : ChainParams) (g g' : GovStore) (h t : Int)
    (sb : CSuperblock) :
    statusExpired P g h t sb ↔ statusExpired P g' h t sb := by
  unfold statusExpired
  rw [IsExpired_fst, IsExpired_fst]

theorem removalDue_congr (P : ChainParams) (g g' : GovStore) (h t : Int) (key : uint256)
    (sb : CSuperblock) (hk : sameKinds g g') :
    removalDue P g h t key sb ↔ removalDue P g' h t key sb := by
  unfold removalDue
  rw [objectUnusable_congr g g' key hk, statusExpired_congr P g g' h t sb]

/-- The decision of the loop body: the entry is marked for removal exactly
under the removal condition. -/
theorem removeSwitch_iff (P : ChainParams) (g : GovStore) (h t : Int) (key : uint256)
    (sb : CSuperblock) :
    (removeSwitch P h t g key (statusAfterLookup g key sb)).1 = true ↔
      removalDue P g h t key sb := by
  unfold removalDue objectUnusable statusExpired statusAfterLookup
  cases hg : g key with
  | none => simp [removeSwitch]
  | some obj =>
    dsimp only
    by_cases ht : obj.nObjectType = GovernanceObjectType.GOVERNANCE_OBJECT_TRIGGER
    · rw [if_neg (not_not.2 ht)]
      unfold removeSwitch
      cases hs : sb.nStatus <;> simp [ht]
      · split <;> simp [*]
      · split <;> simp [*]
    · rw [if_pos ht]
      simp [removeSwitch, ht]

/-- An entry that is not marked for removal keeps its status. -/
theorem statusAfterLookup_of_kept (P : ChainParams) (g : GovStore) (h t : Int)
    (key : uint256) (sb : CSuperblock)
    (hkeep : (removeSwitch P h t g key (statusAfterLookup g key sb)).1 = false) :
    statusAfterLookup g key sb = sb := by
  unfold statusAfterLookup at hkeep ⊢
  cases hg : g key with
  | none => rw [hg] at hkeep; simp [removeSwitch] at hkeep
  | some obj =>
    rw [hg] at hkeep
    dsimp only at hkeep ⊢
    by_cases ht : obj.nObjectType = GovernanceObjectType.GOVERNANCE_OBJECT_TRIGGER
    · rw [if_neg (not_not.2 ht)]
    · rw [if_pos ht] at hkeep
      simp [removeSwitch] at hkeep

/-- The registry after the sweep: the entries of the registry before that hold
a trigger for which the removal condition fails. -/
theorem cleanAndRemoveLoop_mem (P : ChainParams) (g : GovStore) (h t : Int) :
    ∀ (m : trigger_m_t) (g' : GovStore), sameKinds g g' →
      ∀ p, p ∈ (cleanAndRemoveLoop P h t m g').1 ↔
        p ∈ m ∧ ∃ sb, p.2 = some sb ∧ ¬ removalDue P g h t p.1 sb := by
  intro m
  induction m with
  | nil => intro g' _ p; simp [cleanAndRemoveLoop]
  | cons q rest ih =>
    intro g' hk p
    obtain ⟨key, osb⟩ := q
    cases osb with
    | none =>
      unfold cleanAndRemoveLoop
      rw [ih g' hk p]
      constructor
      · rintro ⟨hp, hx⟩
        exact ⟨List.mem_cons_of_mem _ hp, hx⟩
      · rintro ⟨hp, sb, hsb, hx⟩
        rcases List.mem_cons.1 hp with e | hp
        · rw [e] at hsb; cases hsb
        · exact ⟨hp, sb, hsb, hx⟩
    | some sb0 =>
      unfold cleanAndRemoveLoop
      dsimp only
      have hdec := removeSwitch_iff P g' h t key sb0
      rw [← removalDue_congr P g g' h t key sb0 hk] at hdec
      have hk1 := sameKinds_removeSwitch P g g' h t key (statusAfterLookup g' key sb0) hk
      by_cases hr : (removeSwitch P h t g' key (statusAfterLookup g' key sb0)).1 = true
      · rw [if_pos hr]
        have hk2 := sameKinds_update g _ key
          (fun pObj => pObj.PrepareDeletion t) hk1 (fun _ => rfl)
        rw [ih _ hk2 p]
        constructor
        · rintro ⟨hp, hx⟩
          exact ⟨List.mem_cons_of_mem _ hp, hx⟩
        · rintro ⟨hp, sb, hsb, hx⟩
          rcases List.mem_cons.1 hp with e | hp
          · rw [e] at hsb hx
            cases hsb
            exact absurd (hdec.1 hr) hx
          · exact ⟨hp, sb, hsb, hx⟩
      · rw [if_neg hr]
        have hr' : (removeSwitch P h t g' key (statusAfterLookup g' key sb0)).1 = false := by
          simpa using hr
        rw [statusAfterLookup_of_kept P g' h t key sb0 hr'] at hk1 ⊢
        rw [List.mem_cons, ih _ hk1 p, List.mem_cons]
        rw [statusAfterLookup_of_kept P g' h t key sb0 hr'] at hr
        constructor
        · rintro (e | ⟨hp, hx⟩)
          · refine ⟨Or.inl e, sb0, by rw [e], ?_⟩
            rw [e]
            intro hd
            rw [← statusAfterLookup_of_kept P g' h t key sb0 hr'] at hr
            exact hr (hdec.2 hd)
          · exact ⟨Or.inr hp, hx⟩
        · rintro ⟨e | hp, hx⟩
          · exact Or.inl e
          · exact Or.inr ⟨hp, hx⟩

/-- C24 (code at the failing input): for the valid trigger of target height
2147483647 and chain height 100, `IsExpired` returns true although 100 is not
above the target height plus the window 576: the `int` sum wraps to
-2147483073. In general `IsExpired` returns true exactly when the chain height
is above the wrapped sum of target height and window; when the sum lies in the
range of `int` this is the target height plus the window. The window is
`nSuperblockCycle` for status executed, 576 for status valid and 24 for every
other status. -/
theorem C24_IsExpired_wraps_past_int_range :
    ((testTrigger 1 2147483647).IsExpired testParams testStoreSweep 100 777).1 = true ∧
    ¬ ((100 : Int) > (testTrigger 1 2147483647).nBlockHeight +
        expirationBlocks testParams (testTrigger 1 2147483647).nStatus) ∧
    wrapInt32 ((testTrigger 1 2147483647).nBlockHeight +
        expirationBlocks testParams (testTrigger 1 2147483647).nStatus) = -2147483073 ∧
    (∀ (P : ChainParams) (governance : GovStore) (nCachedBlockHeight nAdjustedTime : Int)
        (sb : CSuperblock),
      ((sb.IsExpired P governance nCachedBlockHeight nAdjustedTime).1 = true ↔
        nCachedBlockHeight > wrapInt32 (sb.nBlockHeight + expirationBlocks P sb.nStatus))) ∧
    (∀ (P : ChainParams) (governance : GovStore) (nCachedBlockHeight nAdjustedTime : Int)
        (sb : CSuperblock),
      -2147483648 ≤ sb.nBlockHeight + expirationBlocks P sb.nStatus →
      sb.nBlockHeight + expirationBlocks P sb.nStatus ≤ 2147483647 →
      ((sb.IsExpired P governance nCachedBlockHeight nAdjustedTime).1 = true ↔
        nCachedBlockHeight > sb.nBlockHeight + expirationBlocks P sb.nStatus)) ∧
    (∀ P : ChainParams,
      expirationBlocks P SeenObjectStatus.SEEN_OBJECT_EXECUTED = P.consensus.nSuperblockCycle ∧
      expirationBlocks P SeenObjectStatus.SEEN_OBJECT_IS_VALID = 576 ∧
      expirationBlocks P SeenObjectStatus.SEEN_OBJECT_ERROR_INVALID = 24 ∧
      expirationBlocks P SeenObjectStatus.SEEN_OBJECT_UNKNOWN = 24 ∧
      ∀ code, expirationBlocks P (SeenObjectStatus.otherStatus code) = 24) := by
  refine ⟨by decide, by decide, by decide, ?_, ?_, fun _ => ⟨rfl, rfl, rfl, rfl, fun _ => rfl⟩⟩
  · intro P governance nCachedBlockHeight nAdjustedTime sb
    rw [IsExpired_fst]
    exact decide_eq_true_iff
  · intro P governance nCachedBlockHeight nAdjustedTime sb h1 h2
    rw [IsExpired_fst, wrapInt32_of_range _ h1 h2]
    exact decide_eq_true_iff

/-- C23: after `CleanAndRemove` a trigger of the registry is gone exactly when
its object is missing or not a trigger, or its status was invalid or unknown,
or its status was valid or executed and it is expired; a trigger for which
none of these holds is still stored under its key, unchanged, and every entry
of the registry afterwards was an entry before. -/
theorem C23_CleanAndRemove_removes_iff (P : ChainParams) (governance : GovStore)
    (nCachedBlockHeight nAdjustedTime : Int) (mapTrigger : trigger_m_t) :
    (∀ key sb, (key, some sb) ∈ mapTrigger →
      ((key, some sb) ∉ (CGovernanceTriggerManager.CleanAndRemove P nCachedBlockHeight
          nAdjustedTime mapTrigger governance).1 ↔
        removalDue P governance nCachedBlockHeight nAdjustedTime key sb)) ∧
    (∀ p, p ∈ (CGovernanceTriggerManager.CleanAndRemove P nCachedBlockHeight
          nAdjustedTime mapTrigger governance).1 → p ∈ mapTrigger) := by
  unfold CGovernanceTriggerManager.CleanAndRemove
  have hmem := cleanAndRemoveLoop_mem P governance nCachedBlockHeight nAdjustedTime
    mapTrigger governance (sameKinds_refl governance)
  constructor
  · intro key sb hin
    rw [hmem (key, some sb)]
    constructor
    · intro hn
      by_contra hd
      exact hn ⟨hin, sb, rfl, hd⟩
    · rintro hd ⟨_, sb', hsb, hx⟩
      cases hsb
      exact hx hd
  · intro p hp
    exact ((hmem p).1 hp).1

theorem update_other (g : GovStore) (key k : uint256)
    (f : CGovernanceObject → CGovernanceObject) (hk : k ≠ key) :
    (g.update key f) k = g k := by
  unfold GovStore.update
  cases hg : g key with
  | none => rfl
  | some o =>
    dsimp only
    unfold GovStore.set
    rw [if_neg hk]

theorem update_same (g : GovStore) (key : uint256)
    (f : CGovernanceObject → CGovernanceObject) (obj : CGovernanceObject)
    (hg : g key = some obj) :
    (g.update key f) key = some (f obj) := by
  unfold GovStore.update
  rw [hg]
  dsimp only
  unfold GovStore.set
  rw [if_pos rfl]

theorem statusAfterLookup_hash (g : GovStore) (key : uint256) (sb : CSuperblock) :
    (statusAfterLookup g key sb).nGovObjHash = sb.nGovObjHash := by
  unfold statusAfterLookup
  cases g key with
  | none => rfl
  | some o =>
    dsimp only
    split <;> rfl

theorem IsExpired_frame (P : ChainParams) (g : GovStore) (h t : Int) (sb : CSuperblock)
    (k : uint256) (hk : k ≠ sb.nGovObjHash) :
    (sb.IsExpired P g h t).2 k = g k := by
  unfold CSuperblock.IsExpired
  dsimp only
  split
  · exact update_other g _ k _ hk
  · rfl

theorem removeSwitch_frame (P : ChainParams) (g : GovStore) (h t : Int) (key : uint256)
    (sb : CSuperblock) (k : uint256) (hk : k ≠ key) (hk' : k ≠ sb.nGovObjHash) :
    (removeSwitch P h t g key sb).2 k = g k := by
  have hexp : (if (sb.IsExpired P g h t).1 = true
        then (true, (sb.IsExpired P g h t).2.update key CGovernanceObject.SetExpired)
        else (false, (sb.IsExpired P g h t).2)).2 k = g k := by
    split
    · dsimp only
      rw [update_other _ _ k _ hk]
      exact IsExpired_frame P g h t sb k hk'
    · exact IsExpired_frame P g h t sb k hk'
  unfold removeSwitch
  split
  · rfl
  · rfl
  · exact hexp
  · exact hexp
  · rfl

/-- The sweep writes only to the objects stored under the keys of the
registry. -/
theorem cleanAndRemoveLoop_frame (P : ChainParams) (h t : Int) (k : uint256) :
    ∀ (m : trigger_m_t) (g : GovStore), (∀ p ∈ m, entryKeyed p = true) →
      k ∉ m.map Prod.fst → (cleanAndRemoveLoop P h t m g).2 k = g k := by
  intro m
  induction m with
  | nil => intro g _ _; rfl
  | cons q rest ih =>
    intro g hkeyed hk
    obtain ⟨key, osb⟩ := q
    have hne : k ≠ key := fun e => hk (by simp [e])
    have hrest : k ∉ rest.map Prod.fst := fun e => hk (by simp [e])
    have hkeyed' : ∀ p ∈ rest, entryKeyed p = true :=
      fun p hp => hkeyed p (List.mem_cons_of_mem _ hp)
    cases osb with
    | none =>
      unfold cleanAndRemoveLoop
      exact ih g hkeyed' hrest
    | some sb =>
      have hsb : sb.nGovObjHash = key := by
        have := hkeyed (key, some sb) (List.mem_cons_self _ _)
        simpa [entryKeyed] using this
      have hne' : k ≠ (statusAfterLookup g key sb).nGovObjHash := by
        rw [statusAfterLookup_hash, hsb]; exact hne
      unfold cleanAndRemoveLoop
      dsimp only
      split
      · rw [ih _ hkeyed' hrest, update_other _ _ k _ hne]
        exact removeSwitch_frame P g h t key _ k hne hne'
      · dsimp only
        rw [ih _ hkeyed' hrest]
        exact removeSwitch_frame P g h t key _ k hne hne'

/-- The object of a removed trigger after the loop body: scheduled for
deletion at the adjusted time, and flagged expired exactly when it was flagged
before or the removal went through the expiry branch. -/
theorem removeStep_value (P : ChainParams) (g : GovStore) (h t : Int) (key : uint256)
    (sb : CSuperblock) (obj : CGovernanceObject)
    (hsb : sb.nGovObjHash = key) (hobj : g key = some obj)
    (hr : (removeSwitch P h t g key (statusAfterLookup g key sb)).1 = true) :
    ∃ obj', ((removeSwitch P h t g key (statusAfterLookup g key sb)).2.update key
        (fun pObj => pObj.PrepareDeletion t)) key = some obj' ∧
      obj'.nDeletionTime = t ∧
      (obj'.fExpired = true ↔ obj.fExpired = true ∨
        (obj.nObjectType = GovernanceObjectType.GOVERNANCE_OBJECT_TRIGGER ∧
          statusExpired P g h t sb)) := by
  have hplain : ∃ obj', (g.update key (fun pObj => pObj.PrepareDeletion t)) key = some obj' ∧
      obj'.nDeletionTime = t ∧ obj'.fExpired = obj.fExpired :=
    ⟨_, update_same g key _ obj hobj, rfl, rfl⟩
  have hexpired : ∀ sb1 : CSuperblock, sb1.nGovObjHash = key →
      (sb1.IsExpired P g h t).1 = true →
      ∃ obj', (((sb1.IsExpired P g h t).2.update key CGovernanceObject.SetExpired).update key
        (fun pObj => pObj.PrepareDeletion t)) key = some obj' ∧
      obj'.nDeletionTime = t ∧ obj'.fExpired = true := by
    intro sb1 h1 he
    have h2 : (sb1.IsExpired P g h t).2 key =
        some { obj with fExpired := true, nDeletionTime := t } := by
      unfold CSuperblock.IsExpired at he ⊢
      dsimp only at he ⊢
      split
      · rw [h1]
        exact update_same g key _ obj hobj
      · rename_i hc
        rw [if_neg hc] at he
        exact Bool.noConfusion he
    exact ⟨_, update_same _ key _ _ (update_same _ key _ _ h2), rfl, rfl⟩
  unfold statusAfterLookup at hr ⊢
  rw [hobj] at hr ⊢
  dsimp only at hr ⊢
  by_cases ht : obj.nObjectType = GovernanceObjectType.GOVERNANCE_OBJECT_TRIGGER
  · rw [if_neg (not_not.2 ht)] at hr ⊢
    unfold removeSwitch at hr ⊢
    unfold statusExpired
    cases hs : sb.nStatus with
    | SEEN_OBJECT_IS_VALID =>
      rw [hs] at hr
      dsimp only at hr ⊢
      by_cases he : (sb.IsExpired P g h t).1 = true
      · rw [if_pos he]
        obtain ⟨obj', h1, h2, h3⟩ := hexpired sb hsb he
        exact ⟨obj', h1, h2, by simp [h3, ht, he]⟩
      · rw [if_neg he] at hr
        exact Bool.noConfusion hr
    | SEEN_OBJECT_EXECUTED =>
      rw [hs] at hr
      dsimp only at hr ⊢
      by_cases he : (sb.IsExpired P g h t).1 = true
      · rw [if_pos he]
        obtain ⟨obj', h1, h2, h3⟩ := hexpired sb hsb he
        exact ⟨obj', h1, h2, by simp [h3, ht, he]⟩
      · rw [if_neg he] at hr
        exact Bool.noConfusion hr
    | SEEN_OBJECT_ERROR_INVALID =>
      obtain ⟨obj', h1, h2, h3⟩ := hplain
      exact ⟨obj', h1, h2, by simp [h3]⟩
    | SEEN_OBJECT_UNKNOWN =>
      obtain ⟨obj', h1, h2, h3⟩ := hplain
      exact ⟨obj', h1, h2, by simp [h3]⟩
    | otherStatus code =>
      rw [hs] at hr
      exact Bool.noConfusion hr
  · rw [if_pos ht]
    obtain ⟨obj', h1, h2, h3⟩ := hplain
    exact ⟨obj', h1, h2, by simp [h3, ht]⟩

theorem cleanAndRemoveLoop_store (P : ChainParams) (h t : Int) :
    ∀ (m : trigger_m_t) (g : GovStore), RegistryWF m →
      ∀ key sb obj, (key, some sb) ∈ m → g key = some obj →
        removalDue P g h t key sb →
        ∃ obj', (cleanAndRemoveLoop P h t m g).2 key = some obj' ∧
          obj'.nDeletionTime = t ∧
          (obj'.fExpired = true ↔ obj.fExpired = true ∨
            (obj.nObjectType = GovernanceObjectType.GOVERNANCE_OBJECT_TRIGGER ∧
              statusExpired P g h t sb)) := by
  intro m
  induction m with
  | nil => intro g _ key sb obj hin; cases hin
  | cons q rest ih =>
    intro g hwf key sb obj hin hobj hdue
    obtain ⟨k0, osb0⟩ := q
    have hsorted := List.pairwise_cons.1 hwf.1
    have hkeyed' : ∀ p ∈ rest, entryKeyed p = true :=
      fun p hp => hwf.2 p (List.mem_cons_of_mem _ hp)
    have hwf' : RegistryWF rest := ⟨hsorted.2, hkeyed'⟩
    have hnotin : k0 ∉ rest.map Prod.fst := by
      intro hk
      obtain ⟨p, hp, e⟩ := List.mem_map.1 hk
      have := hsorted.1 p hp
      rw [e] at this
      exact lt_irrefl _ this
    rcases List.mem_cons.1 hin with e | hrest
    · injection e with e1 e2
      subst e1
      subst e2
      have hsb : sb.nGovObjHash = key := by
        have := hwf.2 (key, some sb) (List.mem_cons_self _ _)
        simpa [entryKeyed] using this
      have hr := (removeSwitch_iff P g h t key sb).2 hdue
      unfold cleanAndRemoveLoop
      dsimp only
      rw [if_pos hr, cleanAndRemoveLoop_frame P h t key rest _ hkeyed' hnotin]
      exact removeStep_value P g h t key sb obj hsb hobj hr
    · have hlt : k0 < key := hsorted.1 (key, some sb) hrest
      have hne : key ≠ k0 := fun e => by rw [e] at hlt; exact lt_irrefl _ hlt
      cases osb0 with
      | none =>
        unfold cleanAndRemoveLoop
        exact ih g hwf' key sb obj hrest hobj hdue
      | some sb0 =>
        have hsb0 : sb0.nGovObjHash = k0 := by
          have := hwf.2 (k0, some sb0) (List.mem_cons_self _ _)
          simpa [entryKeyed] using this
        have hne' : key ≠ (statusAfterLookup g k0 sb0).nGovObjHash := by
          rw [statusAfterLookup_hash, hsb0]; exact hne
        have hk1 := sameKinds_removeSwitch P g g h t k0 (statusAfterLookup g k0 sb0)
          (sameKinds_refl g)
        have hv1 : (removeSwitch P h t g k0 (statusAfterLookup g k0 sb0)).2 key = some obj := by
          rw [removeSwitch_frame P g h t k0 _ key hne hne']; exact hobj
        unfold cleanAndRemoveLoop
        dsimp only
        split
        · have hk2 := sameKinds_update g _ k0
            (fun pObj => pObj.PrepareDeletion t) hk1 (fun _ => rfl)
          have hv2 : ((removeSwitch P h t g k0 (statusAfterLookup g k0 sb0)).2.update k0
              (fun pObj => pObj.PrepareDeletion t)) key = some obj := by
            rw [update_other _ _ key _ hne]; exact hv1
          obtain ⟨obj', h1, h2, h3⟩ := ih _ hwf' key sb obj hrest hv2
            ((removalDue_congr P g _ h t key sb hk2).1 hdue)
          exact ⟨obj', h1, h2, by rw [h3, statusExpired_congr P _ g h t sb]⟩
        · dsimp only
          obtain ⟨obj', h1, h2, h3⟩ := ih _ hwf' key sb obj hrest hv1
            ((removalDue_congr P g _ h t key sb hk1).1 hdue)
          exact ⟨obj', h1, h2, by rw [h3, statusExpired_congr P _ g h t sb]⟩

/-- The sweep on the test registry at chain height 100 and adjusted time 777:
the valid trigger of hash 1 stays; the trigger of hash 2, whose object is not
a trigger, and the trigger of unknown status of hash 3 are removed. -/
theorem CleanAndRemove_test_sweep :
    (CGovernanceTriggerManager.CleanAndRemove testParams 100 777 testRegistrySweep
      testStoreSweep).1 = [(1, some (testTrigger 1 40))] := by
  decide

/-- C25, counterexample: the sweep at chain height 100 and adjusted time 777
removes the trigger of unknown status of hash 3 and the trigger of hash 2 whose
object is not a trigger; both objects are present and are scheduled for
deletion at 777, but neither is flagged expired afterwards. -/
theorem C25_removed_object_not_flagged_expired :
    (3, some { testTrigger 3 40 with nStatus := SeenObjectStatus.SEEN_OBJECT_UNKNOWN }) ∈
      testRegistrySweep ∧
    (3, some { testTrigger 3 40 with nStatus := SeenObjectStatus.SEEN_OBJECT_UNKNOWN }) ∉
      (CGovernanceTriggerManager.CleanAndRemove testParams 100 777 testRegistrySweep
        testStoreSweep).1 ∧
    (testStoreSweep 3).map (fun o => o.fExpired) = some false ∧
    ((CGovernanceTriggerManager.CleanAndRemove testParams 100 777 testRegistrySweep
        testStoreSweep).2 3).map (fun o => (o.fExpired, o.nDeletionTime)) =
      some (false, 777) ∧
    (2, some (testTrigger 2 40)) ∈ testRegistrySweep ∧
    (2, some (testTrigger 2 40)) ∉
      (CGovernanceTriggerManager.CleanAndRemove testParams 100 777 testRegistrySweep
        testStoreSweep).1 ∧
    ((CGovernanceTriggerManager.CleanAndRemove testParams 100 777 testRegistrySweep
        testStoreSweep).2 2).map (fun o => (o.fExpired, o.nDeletionTime)) =
      some (false, 777) := by
  decide

/-- C25 (amended): in a well-formed registry, the governance object of a
removed trigger, when present, is afterwards scheduled for deletion at the
adjusted time; it is flagged expired exactly when it was flagged before the
sweep or the trigger was removed for expiry (object a trigger, status valid or
executed, expired). -/
theorem C25_removed_object_scheduled_and_expired_on_expiry (P : ChainParams)
    (governance : GovStore) (nCachedBlockHeight nAdjustedTime : Int)
    (mapTrigger : trigger_m_t) (hwf : RegistryWF mapTrigger)
    (key : uint256) (sb : CSuperblock) (obj : CGovernanceObject)
    (hin : (key, some sb) ∈ mapTrigger) (hobj : governance key = some obj)
    (hgone : (key, some sb) ∉ (CGovernanceTriggerManager.CleanAndRemove P
      nCachedBlockHeight nAdjustedTime mapTrigger governance).1) :
    ∃ obj', (CGovernanceTriggerManager.CleanAndRemove P nCachedBlockHeight nAdjustedTime
        mapTrigger governance).2 key = some obj' ∧
      obj'.nDeletionTime = nAdjustedTime ∧
      (obj'.fExpired = true ↔ obj.fExpired = true ∨
        (obj.nObjectType = GovernanceObjectType.GOVERNANCE_OBJECT_TRIGGER ∧
          statusExpired P governance nCachedBlockHeight nAdjustedTime sb)) := by
  unfold CGovernanceTriggerManager.CleanAndRemove at hgone ⊢
  have hdue : removalDue P governance nCachedBlockHeight nAdjustedTime key sb := by
    by_contra hd
    exact hgone ((cleanAndRemoveLoop_mem P governance nCachedBlockHeight nAdjustedTime
      mapTrigger governance (sameKinds_refl governance) (key, some sb)).2
      ⟨hin, sb, rfl, hd⟩)
  exact cleanAndRemoveLoop_store P nCachedBlockHeight nAdjustedTime mapTrigger governance
    hwf key sb obj hin hobj hdue

theorem C25_removed_object_scheduled_and_expired_on_expiry_witness :
    ∃ obj', (CGovernanceTriggerManager.CleanAndRemove testParams 700 777
        testRegistrySweep testStoreSweep).2 1 = some obj' ∧
      obj'.nDeletionTime = 777 ∧
      (obj'.fExpired = true ↔ (testTriggerObject 40 5 true).fExpired = true ∨
        ((testTriggerObject 40 5 true).nObjectType =
            GovernanceObjectType.GOVERNANCE_OBJECT_TRIGGER ∧
          statusExpired testParams testStoreSweep 700 777 (testTrigger 1 40))) :=
  C25_removed_object_scheduled_and_expired_on_expiry testParams testStoreSweep 700 777
    testRegistrySweep ⟨by decide, by decide⟩ 1 (testTrigger 1 40)
    (testTriggerObject 40 5 true) (by decide) (by decide) (by decide)

/-- The sweep at chain height 700: the valid trigger of hash 1 (target height
40, window 576) is expired and removed, and its object is flagged expired and
scheduled for deletion at the adjusted time. -/
theorem CleanAndRemove_test_expiry :
    (CGovernanceTriggerManager.CleanAndRemove testParams 700 777 testRegistrySweep
      testStoreSweep).1 = [] ∧
    ((CGovernanceTriggerManager.CleanAndRemove testParams 700 777 testRegistrySweep
        testStoreSweep).2 1).map (fun o => (o.fExpired, o.nDeletionTime)) =
      some (true, 777) := by
  decide

/-! ## Superblock payments -/

theorem superblockPaymentsLoop_emitted (getValStr : UniValue → List Char)
    (governance : GovStore) (sb : CSuperblock) :
    ∀ (ps : List CGovernancePayment) (vout : List CTxOut),
      superblockPaymentsLoop getValStr governance sb ps true vout =
        some (vout ++ ps.map (fun q => { nValue := q.nAmount, scriptPubKey := q.script })) := by
  intro ps
  induction ps with
  | nil => intro vout; simp [superblockPaymentsLoop]
  | cons p rest ih =>
    intro vout
    unfold superblockPaymentsLoop
    simp only [Bool.not_true, Bool.false_eq_true, if_false]
    rw [ih]
    simp

theorem GetBestSuperblock_true (P : ChainParams) (governance : GovStore)
    (mapTrigger : trigger_m_t) (h : Int)
    (hbest : (CSuperblockManager.GetBestSuperblock P governance mapTrigger none h).1 = true) :
    ∃ sb obj, CSuperblockManager.GetBestSuperblock P governance mapTrigger none h =
        (true, some sb) ∧ sb.GetGovernanceObject governance = some obj := by
  unfold CSuperblockManager.GetBestSuperblock at hbest ⊢
  split at hbest
  · exact Bool.noConfusion hbest
  · rename_i hc
    rw [if_neg hc]
    dsimp only at hbest ⊢
    rcases getBestSuperblockLoop_spec governance h
      (CGovernanceTriggerManager.GetActiveTriggers governance mapTrigger) 0 none with
      ⟨e, _⟩ | ⟨_, _, sb, obj, _, _, e2, _, e4, _⟩
    · rw [e] at hbest
      simp at hbest
    · refine ⟨sb, obj, ?_, e4⟩
      rw [← e2, ← hbest]

/-- C26: at a height for which `GetBestSuperblock` finds a trigger,
`GetSuperblockPayments` returns true and its output vector holds one output per
payment of that trigger, in schedule order, each with the script and the
amount of its payment; the first output carries the string of `GetQTPhaseXML`
for the hash of the trigger's governance object, every later output carries
the empty string. -/
theorem C26_GetSuperblockPayments_outputs (P : ChainParams)
    (getValStr : UniValue → List Char) (governance : GovStore) (mapTrigger : trigger_m_t)
    (nBlockHeight : Int) (voutSuperblockRet : List CTxOut)
    (hbest : (CSuperblockManager.GetBestSuperblock P governance mapTrigger none
      nBlockHeight).1 = true) :
    ∃ sb, (CSuperblockManager.GetBestSuperblock P governance mapTrigger none
        nBlockHeight).2 = some sb ∧
      CSuperblockManager.GetSuperblockPayments P getValStr governance mapTrigger
          nBlockHeight voutSuperblockRet =
        some (true,
          match sb.vecPayments with
          | [] => []
          | p :: rest =>
            { nValue := p.nAmount, scriptPubKey := p.script,
              sTxOutMessage := GetQTPhaseXML getValStr governance sb.nGovObjHash } ::
            rest.map (fun q => { nValue := q.nAmount, scriptPubKey := q.script,
                                 sTxOutMessage := [] })) := by
  obtain ⟨sb, obj, e, hobj⟩ := GetBestSuperblock_true P governance mapTrigger nBlockHeight hbest
  refine ⟨sb, by rw [e], ?_⟩
  unfold CSuperblockManager.GetSuperblockPayments
  rw [e]
  dsimp only
  cases hp : sb.vecPayments with
  | nil => simp [superblockPaymentsLoop]
  | cons p rest =>
    unfold superblockPaymentsLoop
    simp only [Bool.not_false, if_true, hobj]
    rw [superblockPaymentsLoop_emitted]
    simp

theorem C26_GetSuperblockPayments_outputs_witness :
    ∃ sb, (CSuperblockManager.GetBestSuperblock testParams testStoreTie
        [(1, some { testTrigger 1 40 with vecPayments := [payA, payB] })] none 40).2 =
          some sb ∧
      CSuperblockManager.GetSuperblockPayments testParams (fun _ => ['x']) testStoreTie
          [(1, some { testTrigger 1 40 with vecPayments := [payA, payB] })] 40 [outMiner] =
        some (true,
          match sb.vecPayments with
          | [] => []
          | p :: rest =>
            { nValue := p.nAmount, scriptPubKey := p.script,
              sTxOutMessage := GetQTPhaseXML (fun _ => ['x']) testStoreTie sb.nGovObjHash } ::
            rest.map (fun q => { nValue := q.nAmount, scriptPubKey := q.script,
                                 sTxOutMessage := [] })) :=
  C26_GetSuperblockPayments_outputs testParams (fun _ => ['x']) testStoreTie
    [(1, some { testTrigger 1 40 with vecPayments := [payA, payB] })] 40 [outMiner]
    (by decide)

/-- The outputs for the test trigger with the schedule `[payA, payB]`: two
outputs in schedule order, the string on the first only. -/
theorem GetSuperblockPayments_test_outputs :
    CSuperblockManager.GetSuperblockPayments testParams (fun _ => ['x']) testStoreTie
        [(1, some { testTrigger 1 40 with vecPayments := [payA, payB] })] 40 [outMiner] =
      some (true,
        [{ nValue := 10, scriptPubKey := [1],
           sTxOutMessage :=
             "<price>x</price><qtphase>x</qtphase><btcprice>x</btcprice>x".toList },
         { nValue := 20, scriptPubKey := [2], sTxOutMessage := [] }]) := by
  decide

/-! ## An extra output in an accepted transaction -/

theorem getElem?_insert_output (vout : List CTxOut) (x : CTxOut) (i j : Nat) (o : CTxOut)
    (hj : vout[j]? = some o) :
    (vout.take i ++ x :: vout.drop i)[if j < i then j else j + 1]? = some o := by
  have hlen : j < vout.length := by
    rcases List.getElem?_eq_some_iff.1 hj with ⟨hl, _⟩
    exact hl
  by_cases hji : j < i
  · rw [if_pos hji]
    have hl : j < (vout.take i).length := by
      rw [List.length_take]; omega
    rw [List.getElem?_append_left hl, List.getElem?_take_of_lt hji]
    exact hj
  · rw [if_neg hji]
    have hl : (vout.take i).length = i := by
      rw [List.length_take]; omega
    have hle : (vout.take i).length ≤ j + 1 := by omega
    rw [List.getElem?_append_right hle, hl]
    have e : j + 1 - i = (j - i) + 1 := by omega
    rw [e, List.getElem?_cons_succ, List.getElem?_drop]
    have e2 : i + (j - i) = j := by omega
    rw [e2]
    exact hj

theorem IsValid_true (P : ChainParams) (vecPayments : List CGovernancePayment)
    (vout : List CTxOut) (h : Int) (blockReward : CAmount)
    (hacc : CSuperblock.IsValid P vecPayments vout h blockReward = true) :
    (CSuperblock.IsValidBlockHeight P h = true ∨ CSuperblock.IsSmartContract P h = true) ∧
    vecPayments.length ≤ vout.length ∧
    GetPaymentsTotalAmount vecPayments ≤ CSuperblock.GetPaymentsLimit P h true ∧
    GetValueOut vout ≤ blockReward + GetPaymentsTotalAmount vecPayments ∧
    scanPayments vout vecPayments 0 = true := by
  unfold CSuperblock.IsValid at hacc
  split at hacc
  · exact Bool.noConfusion hacc
  · rename_i h1
    dsimp only at hacc
    split at hacc
    · exact Bool.noConfusion hacc
    · rename_i h2
      split at hacc
      · exact Bool.noConfusion hacc
      · rename_i h3
        split at hacc
        · exact Bool.noConfusion hacc
        · rename_i h4
          refine ⟨?_, by omega, not_lt.1 h3, not_lt.1 h4, hacc⟩
          by_cases ha : CSuperblock.IsValidBlockHeight P h = true
          · exact Or.inl ha
          · by_cases hb : CSuperblock.IsSmartContract P h = true
            · exact Or.inr hb
            · exfalso
              apply h1
              simp [ha, hb]

/-- C27: when `IsValid` accepts a transaction, it accepts the transaction with
one more output put in at any position `i` of the output vector, for the same
payments, height and block reward, provided the total output value of the new
transaction is at most the block reward plus the total payment amount. -/
theorem C27_IsValid_accepts_with_an_extra_output (P : ChainParams)
    (vecPayments : List CGovernancePayment) (vout : List CTxOut) (x : CTxOut) (i : Nat)
    (h : Int) (blockReward : CAmount)
    (hacc : CSuperblock.IsValid P vecPayments vout h blockReward = true)
    (hvalue : GetValueOut (vout.take i ++ x :: vout.drop i) ≤
      blockReward + GetPaymentsTotalAmount vecPayments) :
    CSuperblock.IsValid P vecPayments (vout.take i ++ x :: vout.drop i) h blockReward =
      true := by
  obtain ⟨hHeight, hCount, hLimit, _, hscan⟩ := IsValid_true P vecPayments vout h blockReward hacc
  have hCount' : vecPayments.length ≤ (vout.take i ++ x :: vout.drop i).length := by
    simp only [List.length_append, List.length_take, List.length_cons, List.length_drop]
    omega
  rw [IsValid_eq_scan P vecPayments _ h blockReward hHeight hCount' hLimit hvalue]
  obtain ⟨js, hall, hpw, _⟩ := (scanPayments_iff vout vecPayments 0).1 hscan
  apply (scanPayments_iff _ vecPayments 0).2
  refine ⟨js.map (fun j => if j < i then j else j + 1), ?_, ?_, fun _ _ => Nat.zero_le _⟩
  · rw [List.forall₂_map_right_iff]
    refine List.Forall₂.imp ?_ hall
    rintro p j ⟨o, ho, hm⟩
    exact ⟨o, getElem?_insert_output vout x i j o ho, hm⟩
  · rw [List.pairwise_map]
    refine List.Pairwise.imp ?_ hpw
    intro a b hab
    dsimp only
    split <;> split <;> omega

theorem C27_IsValid_accepts_with_an_extra_output_witness :
    CSuperblock.IsValid testParams [payA, payB] [outMiner, outA, outB] 20 1000 = true ∧
    CSuperblock.IsValid testParams [payA, payB]
      ([outMiner, outA, outB].take 1 ++ { nValue := 0, scriptPubKey := [9] } ::
        [outMiner, outA, outB].drop 1) 20 1000 = true :=
  ⟨by decide,
   C27_IsValid_accepts_with_an_extra_output testParams [payA, payB] [outMiner, outA, outB]
     { nValue := 0, scriptPubKey := [9] } 1 20 1000 (by decide) (by decide)⟩

/-! ## The static caches of the merkle-root computations -/

/-- One call keeps the cached root and flag those of the cached list. -/
theorem CalcCbTxMerkleRootMNList_coherent (X : EvoExternals) (block : CBlock)
    (pindexPrev : Option CBlockIndex) (merkleRootRet : uint256) (cache : MNListCache)
    (hc : X.CalcMerkleRoot cache.smlCached = (cache.merkleRootCached, cache.mutatedCached)) :
    X.CalcMerkleRoot
        (CalcCbTxMerkleRootMNList X block pindexPrev merkleRootRet cache).2.2.smlCached =
      ((CalcCbTxMerkleRootMNList X block pindexPrev merkleRootRet cache).2.2.merkleRootCached,
       (CalcCbTxMerkleRootMNList X block pindexPrev merkleRootRet cache).2.2.mutatedCached) := by
  unfold CalcCbTxMerkleRootMNList
  split
  · exact hc
  · dsimp only
    split
    · exact hc
    · rfl

theorem mnListCacheAfter_coherent (X : EvoExternals) :
    ∀ (calls : List (CBlock × Option CBlockIndex × uint256)) (cache : MNListCache),
      X.CalcMerkleRoot cache.smlCached = (cache.merkleRootCached, cache.mutatedCached) →
      X.CalcMerkleRoot (mnListCacheAfter X calls cache).smlCached =
        ((mnListCacheAfter X calls cache).merkleRootCached,
         (mnListCacheAfter X calls cache).mutatedCached) := by
  intro calls
  induction calls with
  | nil => intro cache hc; exact hc
  | cons call rest ih =>
    intro cache hc
    unfold mnListCacheAfter
    exact ih _ (CalcCbTxMerkleRootMNList_coherent X call.1 call.2.1 call.2.2 cache hc)

/-- With a cache whose root and flag are those of its list, the call returns
the flag and root of the direct computation. -/
theorem CalcCbTxMerkleRootMNList_direct (X : EvoExternals) (block : CBlock)
    (pindexPrev : Option CBlockIndex) (merkleRootRet : uint256) (cache : MNListCache)
    (hc : X.CalcMerkleRoot cache.smlCached = (cache.merkleRootCached, cache.mutatedCached)) :
    ((CalcCbTxMerkleRootMNList X block pindexPrev merkleRootRet cache).1,
      (CalcCbTxMerkleRootMNList X block pindexPrev merkleRootRet cache).2.1) =
      match X.BuildNewListFromBlock block pindexPrev with
      | none => (false, merkleRootRet)
      | some tmpMNList =>
        (!(X.CalcMerkleRoot (X.CSimplifiedMNList tmpMNList)).2,
          (X.CalcMerkleRoot (X.CSimplifiedMNList tmpMNList)).1) := by
  unfold CalcCbTxMerkleRootMNList
  cases X.BuildNewListFromBlock block pindexPrev with
  | none => rfl
  | some tmpMNList =>
    dsimp only
    split
    · rename_i he
      rw [he, hc]
    · rfl

/-- C28: after every sequence of calls from the initial cache (empty list,
zero root, flag false), `CalcCbTxMerkleRootMNList` returns the flag and the
root that `CalcMerkleRoot` gives on the simplified masternode list of the
block, and false with `merkleRootRet` untouched when the list cannot be built;
so the result does not depend on the calls made before. The merkle root of the
empty list is taken to be the zero root without mutation. -/
theorem C28_CalcCbTxMerkleRootMNList_cache_is_transparent (X : EvoExternals)
    (hempty : X.CalcMerkleRoot [] = (0, false))
    (calls calls2 : List (CBlock × Option CBlockIndex × uint256))
    (block : CBlock) (pindexPrev : Option CBlockIndex) (merkleRootRet : uint256) :
    ((CalcCbTxMerkleRootMNList X block pindexPrev merkleRootRet
          (mnListCacheAfter X calls {})).1,
      (CalcCbTxMerkleRootMNList X block pindexPrev merkleRootRet
          (mnListCacheAfter X calls {})).2.1) =
      (match X.BuildNewListFromBlock block pindexPrev with
      | none => (false, merkleRootRet)
      | some tmpMNList =>
        (!(X.CalcMerkleRoot (X.CSimplifiedMNList tmpMNList)).2,
          (X.CalcMerkleRoot (X.CSimplifiedMNList tmpMNList)).1)) ∧
    ((CalcCbTxMerkleRootMNList X block pindexPrev merkleRootRet
          (mnListCacheAfter X calls {})).1,
      (CalcCbTxMerkleRootMNList X block pindexPrev merkleRootRet
          (mnListCacheAfter X calls {})).2.1) =
      ((CalcCbTxMerkleRootMNList X block pindexPrev merkleRootRet
          (mnListCacheAfter X calls2 {})).1,
      (CalcCbTxMerkleRootMNList X block pindexPrev merkleRootRet
          (mnListCacheAfter X calls2 {})).2.1) := by
  have h0 : X.CalcMerkleRoot ({} : MNListCache).smlCached =
      (({} : MNListCache).merkleRootCached, ({} : MNListCache).mutatedCached) := hempty
  have h1 := CalcCbTxMerkleRootMNList_direct X block pindexPrev merkleRootRet _
    (mnListCacheAfter_coherent X calls {} h0)
  have h2 := CalcCbTxMerkleRootMNList_direct X block pindexPrev merkleRootRet _
    (mnListCacheAfter_coherent X calls2 {} h0)
  exact ⟨h1, h1.trans h2.symm⟩

theorem C28_CalcCbTxMerkleRootMNList_cache_is_transparent_witness :
    ((CalcCbTxMerkleRootMNList testEvoLists ⟨[testCoinbase [], testCoinbase []]⟩ none 9
          (mnListCacheAfter testEvoLists
            [(⟨[testCoinbase [], testCoinbase []]⟩, none, 0), (⟨[]⟩, none, 0),
             (⟨[testCoinbase []]⟩, none, 0)] {})).1,
      (CalcCbTxMerkleRootMNList testEvoLists ⟨[testCoinbase [], testCoinbase []]⟩ none 9
          (mnListCacheAfter testEvoLists
            [(⟨[testCoinbase [], testCoinbase []]⟩, none, 0), (⟨[]⟩, none, 0),
             (⟨[testCoinbase []]⟩, none, 0)] {})).2.1) =
      (match testEvoLists.BuildNewListFromBlock ⟨[testCoinbase [], testCoinbase []]⟩ none with
      | none => (false, 9)
      | some tmpMNList =>
        (!(testEvoLists.CalcMerkleRoot (testEvoLists.CSimplifiedMNList tmpMNList)).2,
          (testEvoLists.CalcMerkleRoot (testEvoLists.CSimplifiedMNList tmpMNList)).1)) ∧
    ((CalcCbTxMerkleRootMNList testEvoLists ⟨[testCoinbase [], testCoinbase []]⟩ none 9
          (mnListCacheAfter testEvoLists
            [(⟨[testCoinbase [], testCoinbase []]⟩, none, 0), (⟨[]⟩, none, 0),
             (⟨[testCoinbase []]⟩, none, 0)] {})).1,
      (CalcCbTxMerkleRootMNList testEvoLists ⟨[testCoinbase [], testCoinbase []]⟩ none 9
          (mnListCacheAfter testEvoLists
            [(⟨[testCoinbase [], testCoinbase []]⟩, none, 0), (⟨[]⟩, none, 0),
             (⟨[testCoinbase []]⟩, none, 0)] {})).2.1) =
      ((CalcCbTxMerkleRootMNList testEvoLists ⟨[testCoinbase [], testCoinbase []]⟩ none 9
          (mnListCacheAfter testEvoLists [] {})).1,
      (CalcCbTxMerkleRootMNList testEvoLists ⟨[testCoinbase [], testCoinbase []]⟩ none 9
          (mnListCacheAfter testEvoLists [] {})).2.1) :=
  C28_CalcCbTxMerkleRootMNList_cache_is_transparent testEvoLists (by decide)
    [(⟨[testCoinbase [], testCoinbase []]⟩, none, 0), (⟨[]⟩, none, 0),
     (⟨[testCoinbase []]⟩, none, 0)] []
    ⟨[testCoinbase [], testCoinbase []]⟩ none 9

/-- The root of the list `[3, 3]` on the test collaborators, first and again
after the empty list and the list `[3]` were computed in between: 6 with flag
true both times. -/
theorem CalcCbTxMerkleRootMNList_test_recomputation :
    ((CalcCbTxMerkleRootMNList testEvoLists ⟨[testCoinbase [], testCoinbase []]⟩ none 9 {}).1,
     (CalcCbTxMerkleRootMNList testEvoLists ⟨[testCoinbase [], testCoinbase []]⟩ none 9 {}).2.1) =
      (true, 6) ∧
    ((CalcCbTxMerkleRootMNList testEvoLists ⟨[testCoinbase [], testCoinbase []]⟩ none 9
        (mnListCacheAfter testEvoLists
          [(⟨[testCoinbase [], testCoinbase []]⟩, none, 0), (⟨[]⟩, none, 0),
           (⟨[testCoinbase []]⟩, none, 0)] {})).1,
     (CalcCbTxMerkleRootMNList testEvoLists ⟨[testCoinbase [], testCoinbase []]⟩ none 9
        (mnListCacheAfter testEvoLists
          [(⟨[testCoinbase [], testCoinbase []]⟩, none, 0), (⟨[]⟩, none, 0),
           (⟨[testCoinbase []]⟩, none, 0)] {})).2.1) = (true, 6) := by
  decide

/-- With caches whose hash lists are the commitment hashes of the cached index
set, the flag and root returned by `CalcCbTxMerkleRootQuorums` are those
computed from the hashes of the store's answer. -/
theorem CalcCbTxMerkleRootQuorums_direct (X : EvoExternals) (block : CBlock)
    (pindexPrev : Option CBlockIndex) (cache : QuorumCache)
    (hc : collectMinedHashes X cache.quorumsCached [] = some cache.qcHashesCached) :
    (CalcCbTxMerkleRootQuorums X block pindexPrev cache).map (fun r => (r.1, r.2.1)) =
      (collectMinedHashes X (X.GetMinedAndActiveCommitmentsUntilBlock pindexPrev) []).bind
        (fun qcHashes0 =>
          (addBlockCommitments X (block.vtx.drop 1) qcHashes0).map (fun qcHashes =>
            (!(X.ComputeMerkleRoot
                ((qcHashes.map Prod.snd).flatten.insertionSort (· ≤ ·))).2,
              (X.ComputeMerkleRoot
                ((qcHashes.map Prod.snd).flatten.insertionSort (· ≤ ·))).1))) := by
  unfold CalcCbTxMerkleRootQuorums
  dsimp only
  by_cases he : X.GetMinedAndActiveCommitmentsUntilBlock pindexPrev = cache.quorumsCached
  · rw [if_pos he, he, hc]
    dsimp only [Option.bind]
    cases addBlockCommitments X (block.vtx.drop 1) cache.qcHashesCached with
    | none => rfl
    | some q => rfl
  · rw [if_neg he]
    cases collectMinedHashes X (X.GetMinedAndActiveCommitmentsUntilBlock pindexPrev) [] with
    | none => rfl
    | some q0 =>
      dsimp only [Option.bind]
      cases addBlockCommitments X (block.vtx.drop 1) q0 with
      | none => rfl
      | some q => rfl

/-- The caches after a call: the cached index set is the store's answer and
the cached hash lists are its commitment hashes. -/
theorem CalcCbTxMerkleRootQuorums_cache (X : EvoExternals) (block : CBlock)
    (pindexPrev : Option CBlockIndex) (cache : QuorumCache)
    (r : Bool × uint256 × QuorumCache)
    (hc : collectMinedHashes X cache.quorumsCached [] = some cache.qcHashesCached)
    (hr : CalcCbTxMerkleRootQuorums X block pindexPrev cache = some r) :
    r.2.2.quorumsCached = X.GetMinedAndActiveCommitmentsUntilBlock pindexPrev ∧
      collectMinedHashes X (X.GetMinedAndActiveCommitmentsUntilBlock pindexPrev) [] =
        some r.2.2.qcHashesCached := by
  unfold CalcCbTxMerkleRootQuorums at hr
  dsimp only at hr
  by_cases he : X.GetMinedAndActiveCommitmentsUntilBlock pindexPrev = cache.quorumsCached
  · rw [if_pos he] at hr
    dsimp only at hr
    cases ha : addBlockCommitments X (block.vtx.drop 1) cache.qcHashesCached with
    | none => rw [ha] at hr; cases hr
    | some q =>
      rw [ha] at hr
      injection hr with hr
      rw [← hr]
      exact ⟨he.symm, by rw [he]; exact hc⟩
  · rw [if_neg he] at hr
    cases hq : collectMinedHashes X (X.GetMinedAndActiveCommitmentsUntilBlock pindexPrev) [] with
    | none => rw [hq] at hr; cases hr
    | some q0 =>
      rw [hq] at hr
      dsimp only at hr
      cases ha : addBlockCommitments X (block.vtx.drop 1) q0 with
      | none => rw [ha] at hr; cases hr
      | some q =>
        rw [ha] at hr
        injection hr with hr
        rw [← hr]
        exact ⟨rfl, rfl⟩

theorem quorumCacheAfter_coherent (X : EvoExternals) :
    ∀ (calls : List (CBlock × Option CBlockIndex)) (cache cache' : QuorumCache),
      collectMinedHashes X cache.quorumsCached [] = some cache.qcHashesCached →
      quorumCacheAfter X calls cache = some cache' →
      collectMinedHashes X cache'.quorumsCached [] = some cache'.qcHashesCached := by
  intro calls
  induction calls with
  | nil =>
    intro cache cache' hc h
    injection h with h
    rw [← h]
    exact hc
  | cons call rest ih =>
    intro cache cache' hc h
    unfold quorumCacheAfter at h
    cases hr : CalcCbTxMerkleRootQuorums X call.1 call.2 cache with
    | none => rw [hr] at h; cases h
    | some r =>
      rw [hr] at h
      dsimp only at h
      have h2 := CalcCbTxMerkleRootQuorums_cache X call.1 call.2 cache r hc hr
      refine ih r.2.2 cache' ?_ h
      rw [h2.1]
      exact h2.2

/-- C29: after every sequence of calls from the empty caches,
`CalcCbTxMerkleRootQuorums` returns the flag and root it returns with empty
caches (and returns exactly when it does with empty caches); the cached hash
lists are the commitment hashes of the cached index set, before the call and
after it, and the caches after the call are the same whatever block is
given. -/
theorem C29_CalcCbTxMerkleRootQuorums_cache_is_transparent (X : EvoExternals)
    (calls : List (CBlock × Option CBlockIndex)) (cache : QuorumCache)
    (block block2 : CBlock) (pindexPrev : Option CBlockIndex)
    (hseq : quorumCacheAfter X calls {} = some cache) :
    (CalcCbTxMerkleRootQuorums X block pindexPrev cache).map (fun r => (r.1, r.2.1)) =
      (CalcCbTxMerkleRootQuorums X block pindexPrev {}).map (fun r => (r.1, r.2.1)) ∧
    collectMinedHashes X cache.quorumsCached [] = some cache.qcHashesCached ∧
    (∀ r, CalcCbTxMerkleRootQuorums X block pindexPrev cache = some r →
      collectMinedHashes X r.2.2.quorumsCached [] = some r.2.2.qcHashesCached ∧
      ∀ r2, CalcCbTxMerkleRootQuorums X block2 pindexPrev cache = some r2 →
        r2.2.2 = r.2.2) := by
  have h0 : collectMinedHashes X ({} : QuorumCache).quorumsCached [] =
      some ({} : QuorumCache).qcHashesCached := rfl
  have hc := quorumCacheAfter_coherent X calls {} cache h0 hseq
  refine ⟨?_, hc, ?_⟩
  · rw [CalcCbTxMerkleRootQuorums_direct X block pindexPrev cache hc,
      CalcCbTxMerkleRootQuorums_direct X block pindexPrev {} h0]
  · intro r hr
    have h1 := CalcCbTxMerkleRootQuorums_cache X block pindexPrev cache r hc hr
    refine ⟨by rw [h1.1]; exact h1.2, ?_⟩
    intro r2 hr2
    have h2 := CalcCbTxMerkleRootQuorums_cache X block2 pindexPrev cache r2 hc hr2
    have e1 : r2.2.2.quorumsCached = r.2.2.quorumsCached := by rw [h1.1, h2.1]
    have e2 : r2.2.2.qcHashesCached = r.2.2.qcHashesCached := by
      have := h1.2.symm.trans h2.2
      injection this with this
      exact this.symm
    cases hx : r2.2.2
    cases hy : r.2.2
    rw [hx] at e1 e2
    rw [hy] at e1 e2
    dsimp only at e1 e2
    rw [e1, e2]

theorem C29_CalcCbTxMerkleRootQuorums_cache_is_transparent_witness :
    (CalcCbTxMerkleRootQuorums testEvoQuorums
        ⟨[testCoinbase [], testCommitmentTx [1, 50]]⟩ (some testIndex8)
        { quorumsCached := [(1, [8, 7])], qcHashesCached := [(1, [8, 7])] }).map
          (fun r => (r.1, r.2.1)) =
      (CalcCbTxMerkleRootQuorums testEvoQuorums
        ⟨[testCoinbase [], testCommitmentTx [1, 50]]⟩ (some testIndex8) {}).map
          (fun r => (r.1, r.2.1)) ∧
    collectMinedHashes testEvoQuorums
        ({ quorumsCached := [(1, [8, 7])],
           qcHashesCached := [(1, [8, 7])] } : QuorumCache).quorumsCached [] =
      some ({ quorumsCached := [(1, [8, 7])],
              qcHashesCached := [(1, [8, 7])] } : QuorumCache).qcHashesCached ∧
    (∀ r, CalcCbTxMerkleRootQuorums testEvoQuorums
        ⟨[testCoinbase [], testCommitmentTx [1, 50]]⟩ (some testIndex8)
        { quorumsCached := [(1, [8, 7])], qcHashesCached := [(1, [8, 7])] } = some r →
      collectMinedHashes testEvoQuorums r.2.2.quorumsCached [] = some r.2.2.qcHashesCached ∧
      ∀ r2, CalcCbTxMerkleRootQuorums testEvoQuorums ⟨[testCoinbase []]⟩ (some testIndex8)
          { quorumsCached := [(1, [8, 7])], qcHashesCached := [(1, [8, 7])] } = some r2 →
        r2.2.2 = r.2.2) :=
  C29_CalcCbTxMerkleRootQuorums_cache_is_transparent testEvoQuorums
    [(⟨[testCoinbase [], testCommitmentTx [1, 60]]⟩, some testIndex8)]
    { quorumsCached := [(1, [8, 7])], qcHashesCached := [(1, [8, 7])] }
    ⟨[testCoinbase [], testCommitmentTx [1, 50]]⟩ ⟨[testCoinbase []]⟩ (some testIndex8)
    (by decide)

/-- Two calls on the test quorum store with the same previous index: the
second call, on the caches the first call left, returns the root 58 of the
hashes 8 and 50 and leaves the cached hashes `[8, 7]` of the store's answer,
as the call with empty caches does. -/
theorem CalcCbTxMerkleRootQuorums_test_second_call :
    quorumCacheAfter testEvoQuorums
        [(⟨[testCoinbase [], testCommitmentTx [1, 60]]⟩, some testIndex8)] {} =
      some { quorumsCached := [(1, [8, 7])], qcHashesCached := [(1, [8, 7])] } ∧
    CalcCbTxMerkleRootQuorums testEvoQuorums
        ⟨[testCoinbase [], testCommitmentTx [1, 50]]⟩ (some testIndex8)
        { quorumsCached := [(1, [8, 7])], qcHashesCached := [(1, [8, 7])] } =
      some (true, 58, { quorumsCached := [(1, [8, 7])], qcHashesCached := [(1, [8, 7])] }) ∧
    CalcCbTxMerkleRootQuorums testEvoQuorums
        ⟨[testCoinbase [], testCommitmentTx [1, 50]]⟩ (some testIndex8) {} =
      some (true, 58, { quorumsCached := [(1, [8, 7])], qcHashesCached := [(1, [8, 7])] }) := by
  decide

/-! ## Folding the commitments of the block into the hash lists -/

theorem mapGetD_of_not_mem {β : Type} (k : Nat) (d : β) :
    ∀ (m : List (Nat × β)), (∀ p ∈ m, k ≠ p.1) → mapGetD k d m = d := by
  intro m
  induction m with
  | nil => intro _; rfl
  | cons q rest ih =>
    intro h
    obtain ⟨k', v'⟩ := q
    unfold mapGetD
    rw [if_neg (h (k', v') (List.mem_cons_self _ _))]
    exact ih (fun p hp => h p (List.mem_cons_of_mem _ hp))

theorem mem_mapAt {β : Type} (k : Nat) (d : β) (f : β → β) :
    ∀ (m : List (Nat × β)) (p : Nat × β), p ∈ mapAt k d f m → p.1 = k ∨ p ∈ m := by
  intro m
  induction m with
  | nil =>
    intro p hp
    simp only [mapAt, List.mem_singleton] at hp
    exact Or.inl (by rw [hp])
  | cons q rest ih =>
    intro p hp
    obtain ⟨k', v'⟩ := q
    unfold mapAt at hp
    by_cases h1 : k < k'
    · rw [if_pos h1] at hp
      rcases List.mem_cons.1 hp with e | e
      · exact Or.inl (by rw [e])
      · exact Or.inr e
    · rw [if_neg h1] at hp
      by_cases h2 : k = k'
      · rw [if_pos h2] at hp
        rcases List.mem_cons.1 hp with e | e
        · exact Or.inl (by rw [e, h2])
        · exact Or.inr (List.mem_cons_of_mem _ e)
      · rw [if_neg h2] at hp
        rcases List.mem_cons.1 hp with e | e
        · exact Or.inr (by rw [e]; exact List.mem_cons_self _ _)
        · rcases ih p e with e' | e'
          · exact Or.inl e'
          · exact Or.inr (List.mem_cons_of_mem _ e')

theorem mapAt_sorted {β : Type} (k : Nat) (d : β) (f : β → β) :
    ∀ (m : List (Nat × β)), m.Pairwise (fun a b => a.1 < b.1) →
      (mapAt k d f m).Pairwise (fun a b => a.1 < b.1) := by
  intro m
  induction m with
  | nil => intro _; simp [mapAt]
  | cons q rest ih =>
    intro hs
    obtain ⟨k', v'⟩ := q
    have hs' := List.pairwise_cons.1 hs
    unfold mapAt
    by_cases h1 : k < k'
    · rw [if_pos h1]
      refine List.pairwise_cons.2 ⟨?_, hs⟩
      intro p hp
      rcases List.mem_cons.1 hp with e | e
      · rw [e]; exact h1
      · exact lt_trans h1 (hs'.1 p e)
    · rw [if_neg h1]
      by_cases h2 : k = k'
      · rw [if_pos h2]
        exact List.pairwise_cons.2 ⟨hs'.1, hs'.2⟩
      · rw [if_neg h2]
        refine List.pairwise_cons.2 ⟨?_, ih hs'.2⟩
        intro p hp
        rcases mem_mapAt k d f rest p hp with e | e
        · rw [e]
          exact lt_of_le_of_ne (not_lt.1 h1) (fun e' => h2 e'.symm)
        · exact hs'.1 p e

theorem mapGetD_mapAt_same {β : Type} (k : Nat) (d : β) (f : β → β) :
    ∀ (m : List (Nat × β)), m.Pairwise (fun a b => a.1 < b.1) →
      mapGetD k d (mapAt k d f m) = f (mapGetD k d m) := by
  intro m
  induction m with
  | nil => intro _; simp [mapAt, mapGetD]
  | cons q rest ih =>
    intro hs
    obtain ⟨k', v'⟩ := q
    have hs' := List.pairwise_cons.1 hs
    unfold mapAt
    by_cases h1 : k < k'
    · rw [if_pos h1]
      have hne : k ≠ k' := Nat.ne_of_lt h1
      have hrest : mapGetD k d rest = d :=
        mapGetD_of_not_mem k d rest
          (fun p hp => Nat.ne_of_lt (lt_trans h1 (hs'.1 p hp)))
      simp only [mapGetD, if_true, if_neg hne, hrest]
    · rw [if_neg h1]
      by_cases h2 : k = k'
      · rw [if_pos h2]
        simp only [mapGetD, if_pos h2]
      · rw [if_neg h2]
        simp only [mapGetD, if_neg h2]
        exact ih hs'.2

theorem mapGetD_mapAt_other {β : Type} (k T : Nat) (d : β) (f : β → β) (hT : T ≠ k) :
    ∀ (m : List (Nat × β)), mapGetD T d (mapAt k d f m) = mapGetD T d m := by
  intro m
  induction m with
  | nil => simp [mapAt, mapGetD, hT]
  | cons q rest ih =>
    obtain ⟨k', v'⟩ := q
    unfold mapAt
    by_cases h1 : k < k'
    · rw [if_pos h1]
      simp only [mapGetD, if_neg hT]
    · rw [if_neg h1]
      by_cases h2 : k = k'
      · rw [if_pos h2]
        have hT' : T ≠ k' := by rw [← h2]; exact hT
        simp only [mapGetD, if_neg hT']
      · rw [if_neg h2]
        simp only [mapGetD]
        rw [ih]

theorem foldedIn_length (params : LLMQParams) (qcHash : uint256) (v : List uint256)
    (h1 : 1 ≤ params.signingActiveQuorumCount)
    (hv : v.length ≤ params.signingActiveQuorumCount) :
    (foldedIn params qcHash v).length ≤ params.signingActiveQuorumCount := by
  unfold foldedIn
  by_cases he : v.length = params.signingActiveQuorumCount
  · rw [if_pos he, List.length_append, List.length_dropLast, List.length_singleton]
    omega
  · rw [if_neg he, List.length_append, List.length_singleton]
    omega

/-- The loop over the block's transactions, for a block with at most one
non-null commitment per quorum type whose vectors hold at most
`signingActiveQuorumCount` hashes: no assertion fails, the vector of the type
of each commitment is the vector before with that commitment folded in, and
the other vectors are unchanged. -/
theorem addBlockCommitments_spec (X : EvoExternals) :
    ∀ (txs : List CTransaction) (q : List (Nat × List uint256))
      (cs : List (LLMQParams × uint256)),
      q.Pairwise (fun a b => a.1 < b.1) →
      blockCommitments X txs = some cs →
      (cs.map (fun c => c.1.type)).Nodup →
      (∀ c ∈ cs, 1 ≤ c.1.signingActiveQuorumCount ∧
        (mapGetD c.1.type [] q).length ≤ c.1.signingActiveQuorumCount) →
      ∃ q', addBlockCommitments X txs q = some q' ∧
        q'.Pairwise (fun a b => a.1 < b.1) ∧
        (∀ c ∈ cs, mapGetD c.1.type [] q' = foldedIn c.1 c.2 (mapGetD c.1.type [] q)) ∧
        (∀ T, T ∉ cs.map (fun c => c.1.type) → mapGetD T [] q' = mapGetD T [] q) := by
  intro txs
  induction txs with
  | nil =>
    intro q cs hs hcs _ _
    simp only [blockCommitments, Option.some.injEq] at hcs
    subst hcs
    exact ⟨q, rfl, hs, fun c hc => absurd hc (List.not_mem_nil c), fun _ _ => rfl⟩
  | cons tx rest ih =>
    intro q cs hs hcs hnd hcount
    unfold blockCommitments at hcs
    unfold addBlockCommitments
    by_cases hty : tx.nVersion = 3 ∧ tx.nType = X.TRANSACTION_QUORUM_COMMITMENT
    · rw [if_pos hty] at hcs ⊢
      cases hpay : X.GetCommitmentPayload tx with
      | none => rw [hpay] at hcs; cases hcs
      | some commitment =>
        rw [hpay] at hcs
        dsimp only at hcs ⊢
        by_cases hnull : commitment.isNull = true
        · rw [if_pos hnull] at hcs ⊢
          exact ih q cs hs hcs hnd hcount
        · rw [if_neg hnull] at hcs ⊢
          cases hpar : X.llmqs commitment.llmqType with
          | none => rw [hpar] at hcs; cases hcs
          | some params =>
            rw [hpar] at hcs
            dsimp only at hcs ⊢
            cases hrest : blockCommitments X rest with
            | none => rw [hrest] at hcs; cases hcs
            | some cs' =>
              rw [hrest] at hcs
              injection hcs with hcs
              subst hcs
              have hnd' := List.nodup_cons.1 hnd
              have hhead := hcount (params, X.SerializeHash commitment)
                (List.mem_cons_self _ _)
              have hlen := foldedIn_length params (X.SerializeHash commitment)
                (mapGetD params.type [] q) hhead.1 hhead.2
              unfold foldedIn at hlen
              rw [if_pos hlen]
              have hother : ∀ c ∈ cs', c.1.type ≠ params.type := by
                intro c hc e
                exact hnd'.1 (List.mem_map.2 ⟨c, hc, e⟩)
              obtain ⟨q', h1, h2, h3, h4⟩ := ih
                (mapAt params.type [] (fun _ =>
                  (if (mapGetD params.type [] q).length = params.signingActiveQuorumCount
                    then (mapGetD params.type [] q).dropLast
                    else mapGetD params.type [] q) ++ [X.SerializeHash commitment]) q)
                cs' (mapAt_sorted _ _ _ q hs) hrest hnd'.2
                (fun c hc => by
                  rw [mapGetD_mapAt_other params.type c.1.type [] _ (hother c hc)]
                  exact hcount c (List.mem_cons_of_mem _ hc))
              refine ⟨q', h1, h2, ?_, ?_⟩
              · intro c hc
                rcases List.mem_cons.1 hc with e | hc'
                · rw [e]
                  dsimp only
                  rw [h4 params.type hnd'.1, mapGetD_mapAt_same _ _ _ q hs]
                  rfl
                · rw [h3 c hc', mapGetD_mapAt_other params.type c.1.type [] _ (hother c hc')]
              · intro T hT
                have hT1 : T ≠ params.type := fun e => hT (by simp [e])
                have hT2 : T ∉ cs'.map (fun c => c.1.type) := fun e => hT (by simp [e])
                rw [h4 T hT2, mapGetD_mapAt_other params.type T [] _ hT1]
    · rw [if_neg hty] at hcs ⊢
      exact ih q cs hs hcs hnd hcount

/-- C30: for a block with at most one non-null commitment per quorum type, on
hash lists that hold at most `signingActiveQuorumCount` hashes for the types
of these commitments (each count at least 1), the loop over the block's
transactions returns (no assertion fails); afterwards the vector of the type
of each commitment holds at most `signingActiveQuorumCount` hashes and is the
vector before, without its last entry when it was full, followed by the hash
of the commitment; the vectors of the other types are unchanged. -/
theorem C30_addBlockCommitments_bounded_and_evicts_last (X : EvoExternals)
    (txs : List CTransaction) (qcHashes : List (Nat × List uint256))
    (cs : List (LLMQParams × uint256))
    (hmap : qcHashes.Pairwise (fun a b => a.1 < b.1))
    (hcs : blockCommitments X txs = some cs)
    (hone : (cs.map (fun c => c.1.type)).Nodup)
    (hcount : ∀ c ∈ cs, 1 ≤ c.1.signingActiveQuorumCount ∧
      (mapGetD c.1.type [] qcHashes).length ≤ c.1.signingActiveQuorumCount) :
    ∃ q', addBlockCommitments X txs qcHashes = some q' ∧
      (∀ c ∈ cs,
        (mapGetD c.1.type [] q').length ≤ c.1.signingActiveQuorumCount ∧
        mapGetD c.1.type [] q' =
          (if (mapGetD c.1.type [] qcHashes).length = c.1.signingActiveQuorumCount
            then (mapGetD c.1.type [] qcHashes).dropLast
            else mapGetD c.1.type [] qcHashes) ++ [c.2]) ∧
      (∀ T, T ∉ cs.map (fun c => c.1.type) →
        mapGetD T [] q' = mapGetD T [] qcHashes) := by
  obtain ⟨q', h1, _, h3, h4⟩ := addBlockCommitments_spec X txs qcHashes cs hmap hcs hone hcount
  refine ⟨q', h1, ?_, h4⟩
  intro c hc
  have hl := foldedIn_length c.1 c.2 (mapGetD c.1.type [] qcHashes)
    (hcount c hc).1 (hcount c hc).2
  rw [← h3 c hc] at hl
  exact ⟨hl, by rw [h3 c hc]; rfl⟩

theorem C30_addBlockCommitments_bounded_and_evicts_last_witness :
    ∃ q', addBlockCommitments testEvoQuorums
        [testCommitmentTx [1, 50], testCommitmentTx [2, 60], testCommitmentTx [2]]
        [(1, [8, 7])] = some q' ∧
      (∀ c ∈ [((⟨1, 2⟩ : LLMQParams), (50 : uint256)), (⟨2, 1⟩, 60)],
        (mapGetD c.1.type [] q').length ≤ c.1.signingActiveQuorumCount ∧
        mapGetD c.1.type [] q' =
          (if (mapGetD c.1.type [] [(1, [(8 : uint256), 7])]).length =
              c.1.signingActiveQuorumCount
            then (mapGetD c.1.type [] [(1, [(8 : uint256), 7])]).dropLast
            else mapGetD c.1.type [] [(1, [(8 : uint256), 7])]) ++ [c.2]) ∧
      (∀ T, T ∉ [((⟨1, 2⟩ : LLMQParams), (50 : uint256)), (⟨2, 1⟩, 60)].map
          (fun c => c.1.type) →
        mapGetD T [] q' = mapGetD T [] [(1, [(8 : uint256), 7])]) :=
  C30_addBlockCommitments_bounded_and_evicts_last testEvoQuorums
    [testCommitmentTx [1, 50], testCommitmentTx [2, 60], testCommitmentTx [2]]
    [(1, [8, 7])] [(⟨1, 2⟩, 50), (⟨2, 1⟩, 60)]
    (by decide) (by decide) (by decide) (by decide)

/-- The loop on the test block: the full vector `[8, 7]` of type 1 loses its
last entry 7 and gains the hash 50; the vector of type 2 gains the hash 60. -/
theorem addBlockCommitments_test_block :
    addBlockCommitments testEvoQuorums
        [testCommitmentTx [1, 50], testCommitmentTx [2, 60], testCommitmentTx [2]]
        [(1, [8, 7])] = some [(1, [8, 50]), (2, [60])] := by
  decide

theorem collectMinedHashes_sorted (X : EvoExternals) :
    ∀ (quorums q q' : List (Nat × List uint256)),
      q.Pairwise (fun a b => a.1 < b.1) → collectMinedHashes X quorums q = some q' →
      q'.Pairwise (fun a b => a.1 < b.1) := by
  intro quorums
  induction quorums with
  | nil =>
    intro q q' hs h
    simp only [collectMinedHashes, Option.some.injEq] at h
    rw [← h]
    exact hs
  | cons p rest ih =>
    intro q q' hs h
    unfold collectMinedHashes at h
    cases hm : minedCommitmentHashes X p.1 p.2 with
    | none => rw [hm] at h; cases h
    | some hsh =>
      rw [hm] at h
      exact ih _ q' (mapAt_sorted _ _ _ q hs) h

/-- With the hashes of the store's answer at hand and a block as in
`addBlockCommitments_spec`, `CalcCbTxMerkleRootQuorums` returns, from caches
left by earlier calls as from empty caches. -/
theorem CalcCbTxMerkleRootQuorums_returns (X : EvoExternals) (block : CBlock)
    (pindexPrev : Option CBlockIndex) (cache : QuorumCache)
    (q0 : List (Nat × List uint256)) (cs : List (LLMQParams × uint256))
    (hc : collectMinedHashes X cache.quorumsCached [] = some cache.qcHashesCached)
    (hq0 : collectMinedHashes X (X.GetMinedAndActiveCommitmentsUntilBlock pindexPrev) [] =
      some q0)
    (hcs : blockCommitments X (block.vtx.drop 1) = some cs)
    (hone : (cs.map (fun c => c.1.type)).Nodup)
    (hcount : ∀ c ∈ cs, 1 ≤ c.1.signingActiveQuorumCount ∧
      (mapGetD c.1.type [] q0).length ≤ c.1.signingActiveQuorumCount) :
    (CalcCbTxMerkleRootQuorums X block pindexPrev cache).isSome = true := by
  have hs : q0.Pairwise (fun a b => a.1 < b.1) :=
    collectMinedHashes_sorted X _ [] q0 List.Pairwise.nil hq0
  obtain ⟨q', h1, _⟩ := addBlockCommitments_spec X (block.vtx.drop 1) q0 cs hs hcs hone hcount
  have h := CalcCbTxMerkleRootQuorums_direct X block pindexPrev cache hc
  rw [hq0] at h
  dsimp only [Option.bind] at h
  rw [h1] at h
  cases hr : CalcCbTxMerkleRootQuorums X block pindexPrev cache with
  | none => rw [hr] at h; cases h
  | some r => rfl

/-! ## The quorum merkle root as a function of the hashes -/

theorem flatten_perm_of_forall₂ :
    ∀ (q q' : List (Nat × List uint256)),
      List.Forall₂ (fun a b => a.1 = b.1 ∧ a.2.Perm b.2) q q' →
      ((q.map Prod.snd).flatten).Perm ((q'.map Prod.snd).flatten) := by
  intro q q' h
  induction h with
  | nil => exact List.Perm.refl _
  | cons hab _ ih =>
    simp only [List.map_cons, List.flatten_cons]
    exact List.Perm.append hab.2 ih

theorem quorumsMerkleRoot_of_perm (X : EvoExternals) (q q' : List (Nat × List uint256))
    (h : ((q.map Prod.snd).flatten).Perm ((q'.map Prod.snd).flatten)) :
    quorumsMerkleRoot X q = quorumsMerkleRoot X q' := by
  have hs : ((q.map Prod.snd).flatten).insertionSort (· ≤ ·) =
      ((q'.map Prod.snd).flatten).insertionSort (· ≤ ·) := by
    apply List.eq_of_perm_of_sorted (r := (· ≤ ·))
    · exact ((List.perm_insertionSort _ _).trans h).trans (List.perm_insertionSort _ _).symm
    · exact List.sorted_insertionSort _ _
    · exact List.sorted_insertionSort _ _
  unfold quorumsMerkleRoot
  dsimp only
  rw [hs]

theorem CalcCbTxMerkleRootQuorums_root (X : EvoExternals) (block : CBlock)
    (pindexPrev : Option CBlockIndex) (cache : QuorumCache)
    (r : Bool × uint256 × QuorumCache)
    (hr : CalcCbTxMerkleRootQuorums X block pindexPrev cache = some r) :
    ∃ qcHashes0 qcHashes,
      addBlockCommitments X (block.vtx.drop 1) qcHashes0 = some qcHashes ∧
      (r.1, r.2.1) = quorumsMerkleRoot X qcHashes := by
  unfold CalcCbTxMerkleRootQuorums at hr
  dsimp only at hr
  split at hr
  · cases hr
  · rename_i q0 cache1 _
    split at hr
    · cases hr
    · rename_i q ha
      injection hr with hr
      rw [← hr]
      exact ⟨q0, q, ha, rfl⟩

/-- C31: after every sequence of calls from the empty caches, the flag and root
that `CalcCbTxMerkleRootQuorums` returns are those of `quorumsMerkleRoot` on
the hash lists obtained from the hashes of the mined commitments of the
store's answer by folding in the commitments of the block; `quorumsMerkleRoot`
is the merkle root of the ascending-sorted concatenation of these lists, and
it is the same for any two collections of hash lists with the same hashes
counted with multiplicity, so for the quorum types in another order and for
the hashes of each type in another order. -/
theorem C31_quorum_root_is_root_of_sorted_hashes (X : EvoExternals)
    (calls : List (CBlock × Option CBlockIndex)) (cache : QuorumCache)
    (block : CBlock) (pindexPrev : Option CBlockIndex)
    (hseq : quorumCacheAfter X calls {} = some cache) :
    (CalcCbTxMerkleRootQuorums X block pindexPrev cache).map (fun r => (r.1, r.2.1)) =
      (collectMinedHashes X (X.GetMinedAndActiveCommitmentsUntilBlock pindexPrev) []).bind
        (fun qcHashes0 =>
          (addBlockCommitments X (block.vtx.drop 1) qcHashes0).map (quorumsMerkleRoot X)) ∧
    (∀ q : List (Nat × List uint256),
      quorumsMerkleRoot X q =
        (!(X.ComputeMerkleRoot (((q.map Prod.snd).flatten).insertionSort (· ≤ ·))).2,
          (X.ComputeMerkleRoot (((q.map Prod.snd).flatten).insertionSort (· ≤ ·))).1) ∧
      (((q.map Prod.snd).flatten).insertionSort (· ≤ ·)).Sorted (· ≤ ·) ∧
      (((q.map Prod.snd).flatten).insertionSort (· ≤ ·)).Perm ((q.map Prod.snd).flatten)) ∧
    (∀ q q' : List (Nat × List uint256),
      ((q.map Prod.snd).flatten).Perm ((q'.map Prod.snd).flatten) →
      quorumsMerkleRoot X q = quorumsMerkleRoot X q') ∧
    (∀ q q' : List (Nat × List uint256), q.Perm q' →
      quorumsMerkleRoot X q = quorumsMerkleRoot X q') ∧
    (∀ q q' : List (Nat × List uint256),
      List.Forall₂ (fun a b => a.1 = b.1 ∧ a.2.Perm b.2) q q' →
      quorumsMerkleRoot X q = quorumsMerkleRoot X q') := by
  have h0 : collectMinedHashes X ({} : QuorumCache).quorumsCached [] =
      some ({} : QuorumCache).qcHashesCached := rfl
  have hc := quorumCacheAfter_coherent X calls {} cache h0 hseq
  refine ⟨?_, ?_, quorumsMerkleRoot_of_perm X, ?_, ?_⟩
  · exact CalcCbTxMerkleRootQuorums_direct X block pindexPrev cache hc
  · intro q
    exact ⟨rfl, List.sorted_insertionSort _ _, List.perm_insertionSort _ _⟩
  · intro q q' h
    exact quorumsMerkleRoot_of_perm X q q' (List.Perm.flatten (List.Perm.map _ h))
  · intro q q' h
    exact quorumsMerkleRoot_of_perm X q q' (flatten_perm_of_forall₂ q q' h)

theorem C31_quorum_root_is_root_of_sorted_hashes_witness :
    (CalcCbTxMerkleRootQuorums testEvoQuorums
        ⟨[testCoinbase [], testCommitmentTx [2, 60]]⟩ (some testIndex8)
        { quorumsCached := [(1, [8, 7])], qcHashesCached := [(1, [8, 7])] }).map
          (fun r => (r.1, r.2.1)) =
      (collectMinedHashes testEvoQuorums
        (testEvoQuorums.GetMinedAndActiveCommitmentsUntilBlock (some testIndex8)) []).bind
        (fun qcHashes0 =>
          (addBlockCommitments testEvoQuorums
            (({ vtx := [testCoinbase [], testCommitmentTx [2, 60]] } : CBlock).vtx.drop 1)
            qcHashes0).map (quorumsMerkleRoot testEvoQuorums)) ∧
    (∀ q : List (Nat × List uint256),
      quorumsMerkleRoot testEvoQuorums q =
        (!(testEvoQuorums.ComputeMerkleRoot
            (((q.map Prod.snd).flatten).insertionSort (· ≤ ·))).2,
          (testEvoQuorums.ComputeMerkleRoot
            (((q.map Prod.snd).flatten).insertionSort (· ≤ ·))).1) ∧
      (((q.map Prod.snd).flatten).insertionSort (· ≤ ·)).Sorted (· ≤ ·) ∧
      (((q.map Prod.snd).flatten).insertionSort (· ≤ ·)).Perm ((q.map Prod.snd).flatten)) ∧
    (∀ q q' : List (Nat × List uint256),
      ((q.map Prod.snd).flatten).Perm ((q'.map Prod.snd).flatten) →
      quorumsMerkleRoot testEvoQuorums q = quorumsMerkleRoot testEvoQuorums q') ∧
    (∀ q q' : List (Nat × List uint256), q.Perm q' →
      quorumsMerkleRoot testEvoQuorums q = quorumsMerkleRoot testEvoQuorums q') ∧
    (∀ q q' : List (Nat × List uint256),
      List.Forall₂ (fun a b => a.1 = b.1 ∧ a.2.Perm b.2) q q' →
      quorumsMerkleRoot testEvoQuorums q = quorumsMerkleRoot testEvoQuorums q') :=
  C31_quorum_root_is_root_of_sorted_hashes testEvoQuorums
    [(⟨[testCoinbase [], testCommitmentTx [1, 60]]⟩, some testIndex8)]
    { quorumsCached := [(1, [8, 7])], qcHashesCached := [(1, [8, 7])] }
    ⟨[testCoinbase [], testCommitmentTx [2, 60]]⟩ (some testIndex8) (by decide)

/-- The call on the test quorum store below the index of height 8: for a block
without commitments the root is that of the store's hashes 7 and 8; for a
block with a commitment of type 2 and hash 60 it is that of 7, 8 and 60. -/
theorem CalcCbTxMerkleRootQuorums_test_roots :
    (CalcCbTxMerkleRootQuorums testEvoQuorums ⟨[testCoinbase []]⟩ (some testIndex8) {}).map
        (fun r => (r.1, r.2.1)) = some (true, 15) ∧
    quorumsMerkleRoot testEvoQuorums [(1, [8, 7])] = (true, 15) ∧
    (CalcCbTxMerkleRootQuorums testEvoQuorums
        ⟨[testCoinbase [], testCommitmentTx [2, 60]]⟩ (some testIndex8) {}).map
        (fun r => (r.1, r.2.1)) = some (true, 75) ∧
    quorumsMerkleRoot testEvoQuorums [(1, [8, 7]), (2, [60])] = (true, 75) := by
  decide

/-- The root on the test collaborators for the hash lists of types 1 and 2,
for the types in the other order and for the hashes of type 1 in the other
order: the root of `[8, 50, 60]` each time. -/
theorem quorumsMerkleRoot_test_reordering :
    quorumsMerkleRoot testEvoQuorums [(1, [50, 8]), (2, [60])] = (true, 118) ∧
    quorumsMerkleRoot testEvoQuorums [(2, [60]), (1, [50, 8])] = (true, 118) ∧
    quorumsMerkleRoot testEvoQuorums [(1, [8, 50]), (2, [60])] = (true, 118) ∧
    ((([(1, [50, 8]), (2, [60])] : List (Nat × List uint256)).map Prod.snd).flatten).insertionSort
      (· ≤ ·) = [8, 50, 60] := by
  decide

/-! ## The pointer at `SetExpired`, and a sweep without a best trigger -/

/-- C33: a trigger that reaches the case of status valid or executed in the
switch of `CleanAndRemove` has a governance object under its key, of trigger
kind, and kept its status; the object is still there after `IsExpired`, so
the pointer used by `pObj->SetExpired()` is not null. -/
theorem C33_SetExpired_pointer_not_null (P : ChainParams) (governance : GovStore)
    (nCachedBlockHeight nAdjustedTime : Int) (key : uint256) (pSuperblock : CSuperblock)
    (hcase : (statusAfterLookup governance key pSuperblock).nStatus =
        SeenObjectStatus.SEEN_OBJECT_IS_VALID ∨
      (statusAfterLookup governance key pSuperblock).nStatus =
        SeenObjectStatus.SEEN_OBJECT_EXECUTED) :
    (∃ pObj, governance key = some pObj ∧
      pObj.nObjectType = GovernanceObjectType.GOVERNANCE_OBJECT_TRIGGER) ∧
    statusAfterLookup governance key pSuperblock = pSuperblock ∧
    ∃ pObj', ((statusAfterLookup governance key pSuperblock).IsExpired P governance
      nCachedBlockHeight nAdjustedTime).2 key = some pObj' := by
  unfold statusAfterLookup at hcase ⊢
  cases hg : governance key with
  | none =>
    rw [hg] at hcase
    rcases hcase with h | h <;> cases h
  | some obj =>
    rw [hg] at hcase
    dsimp only at hcase ⊢
    by_cases ht : obj.nObjectType = GovernanceObjectType.GOVERNANCE_OBJECT_TRIGGER
    · rw [if_neg (not_not.2 ht)]
      refine ⟨⟨obj, rfl, ht⟩, rfl, ?_⟩
      unfold CSuperblock.IsExpired
      dsimp only
      split
      · by_cases hk : key = pSuperblock.nGovObjHash
        · rw [← hk]
          exact ⟨_, update_same governance key _ obj hg⟩
        · exact ⟨obj, (update_other governance _ key _ hk).trans hg⟩
      · exact ⟨obj, hg⟩
    · rw [if_pos ht] at hcase
      rcases hcase with h | h <;> cases h

theorem C33_SetExpired_pointer_not_null_witness :
    (∃ pObj, testStoreSweep 1 = some pObj ∧
      pObj.nObjectType = GovernanceObjectType.GOVERNANCE_OBJECT_TRIGGER) ∧
    statusAfterLookup testStoreSweep 1 (testTrigger 1 40) = testTrigger 1 40 ∧
    ∃ pObj', ((statusAfterLookup testStoreSweep 1 (testTrigger 1 40)).IsExpired testParams
      testStoreSweep 700 777).2 1 = some pObj' :=
  C33_SetExpired_pointer_not_null testParams testStoreSweep 700 777 1 (testTrigger 1 40)
    (Or.inl (by decide))

/-- C35: when `GetBestSuperblock` finds no trigger, `GetSuperblockPayments`
returns false and the output vector of the caller is the one passed in. -/
theorem C35_GetSuperblockPayments_without_trigger (P : ChainParams)
    (getValStr : UniValue → List Char) (governance : GovStore) (mapTrigger : trigger_m_t)
    (nBlockHeight : Int) (voutSuperblockRet : List CTxOut)
    (hnone : (CSuperblockManager.GetBestSuperblock P governance mapTrigger none
      nBlockHeight).1 = false) :
    CSuperblockManager.GetSuperblockPayments P getValStr governance mapTrigger
        nBlockHeight voutSuperblockRet = some (false, voutSuperblockRet) := by
  unfold CSuperblockManager.GetSuperblockPayments
  split
  · rfl
  · rename_i e
    rw [e] at hnone
    exact Bool.noConfusion hnone
  · rename_i e
    rw [e] at hnone
    exact Bool.noConfusion hnone

theorem C35_GetSuperblockPayments_without_trigger_witness :
    CSuperblockManager.GetSuperblockPayments testParams (fun _ => ['x']) testStoreTie
        [(1, some (testTrigger 1 40))] 60 [outMiner, outA] =
      some (false, [outMiner, outA]) :=
  C35_GetSuperblockPayments_without_trigger testParams (fun _ => ['x']) testStoreTie
    [(1, some (testTrigger 1 40))] 60 [outMiner, outA] (by decide)

/-! ## The text of a coinbase payload -/

/-- C37: `CCbTx::ToString` passes `nVersion` as the first and `nHeight` as
the second argument of the format string, so the version is printed after the
label `nHeight=` and the height after the label `nVersion=`: the payload of
version 2 for height 100 reads `CCbTx(nHeight=2, nVersion=100, ...)`. -/
theorem C37_ToString_swaps_height_and_version :
    (∀ (ToString256 : uint256 → List Char) (cbTx : CCbTx),
      ∃ rest, CCbTx.ToString ToString256 cbTx =
        "CCbTx(nHeight=".toList ++ formatD cbTx.nVersion ++
          ", nVersion=".toList ++ formatD cbTx.nHeight ++ ','  :: rest) ∧
    CCbTx.ToString (fun n => Nat.toDigits 16 n)
        { nVersion := 2, nHeight := 100, merkleRootMNList := 255, merkleRootQuorums := 16 } =
      "CCbTx(nHeight=2, nVersion=100, merkleRootMNList=ff, merkleRootQuorums=10)".toList := by
  refine ⟨?_, by decide⟩
  intro ToString256 cbTx
  refine ⟨" merkleRootMNList=".toList ++ ToString256 cbTx.merkleRootMNList ++
    ", merkleRootQuorums=".toList ++ ToString256 cbTx.merkleRootQuorums ++ ")".toList, ?_⟩
  unfold CCbTx.ToString
  simp [List.append_assoc]

/-! ## The nearest superblock heights -/

theorem multiple_below_cycle_nonpos (c a : Int) (hd : c ∣ a) (hlt : a < c) : a ≤ 0 := by
  by_contra hpos
  have h1 : 0 < a := not_le.1 hpos
  have h2 := Int.le_of_dvd h1 hd
  omega

theorem multiple_above_neg_cycle_nonneg (c a : Int) (hd : c ∣ a) (hgt : -c < a) : 0 ≤ a := by
  have h1 : c ∣ -a := (Int.dvd_neg).2 hd
  have h2 := multiple_below_cycle_nonpos c (-a) h1 (by omega)
  omega

theorem IsValidBlockHeight_iff (P : ChainParams) (k : Int)
    (hc : 0 < P.consensus.nSuperblockCycle) (hs : 0 ≤ P.consensus.nSuperblockStartBlock) :
    CSuperblock.IsValidBlockHeight P k = true ↔
      P.consensus.nSuperblockStartBlock ≤ k ∧ P.consensus.nSuperblockCycle ∣ k := by
  unfold CSuperblock.IsValidBlockHeight
  simp only [Bool.and_eq_true, decide_eq_true_eq, ge_iff_le]
  constructor
  · rintro ⟨h1, h2⟩
    rw [Int.tmod_eq_emod (le_trans hs h1) (le_of_lt hc)] at h2
    exact ⟨h1, Int.dvd_of_emod_eq_zero h2⟩
  · rintro ⟨h1, h2⟩
    rw [Int.tmod_eq_emod (le_trans hs h1) (le_of_lt hc)]
    exact ⟨h1, Int.emod_eq_zero_of_dvd h2⟩

/-- The first superblock height computed by `GetNearestSuperblocksHeights`:
the least multiple of the cycle that is at least the start block. -/
theorem firstSuperblock_spec (s c : Int) (hc : 0 < c) (hs : 0 ≤ s) :
    s ≤ s + Int.tmod (c - Int.tmod s c) c ∧
    s + Int.tmod (c - Int.tmod s c) c < s + c ∧
    c ∣ s + Int.tmod (c - Int.tmod s c) c := by
  have hne : c ≠ 0 := ne_of_gt hc
  have e1 : Int.tmod s c = s % c := Int.tmod_eq_emod hs (le_of_lt hc)
  have hm0 : 0 ≤ s % c := Int.emod_nonneg s hne
  have hm1 : s % c < c := Int.emod_lt_of_pos s hc
  have e2 : Int.tmod (c - s % c) c = (c - s % c) % c :=
    Int.tmod_eq_emod (by omega) (le_of_lt hc)
  rw [e1, e2]
  have ho0 : 0 ≤ (c - s % c) % c := Int.emod_nonneg _ hne
  have ho1 : (c - s % c) % c < c := Int.emod_lt_of_pos _ hc
  refine ⟨by omega, by omega, ?_⟩
  apply Int.dvd_of_emod_eq_zero
  rw [Int.add_emod_emod]
  apply Int.emod_eq_zero_of_dvd
  have h1 : c ∣ s - s % c := Int.dvd_sub_of_emod_eq rfl
  have h2 : s + (c - s % c) = c + (s - s % c) := by omega
  rw [h2]
  exact Int.dvd_add (dvd_refl c) h1

/-- C32, counterexample: on the test chain (cycle 20 from height 20) at height
2147483647 the last height returned is 2147483640 and the next height returned
is the wrapped sum -2147483636, which is not above the height. -/
theorem C32_next_height_wraps_below_zero :
    (0 : Int) ≤ 2147483647 ∧ 0 < testParams.consensus.nSuperblockCycle ∧
    0 ≤ testParams.consensus.nSuperblockStartBlock ∧
    CSuperblock.GetNearestSuperblocksHeights testParams 2147483647 =
      (2147483640, -2147483636) ∧
    ¬ (2147483647 < (CSuperblock.GetNearestSuperblocksHeights testParams 2147483647).2) ∧
    CSuperblock.IsValidBlockHeight testParams
      (CSuperblock.GetNearestSuperblocksHeights testParams 2147483647).2 = false := by
  decide

/-- C32 (amended): for a height `h ≥ 0`, a cycle above 0 and a start block of
at least 0, when some height above `h` in the range of `int` satisfies
`IsValidBlockHeight`, the next height returned by
`GetNearestSuperblocksHeights` is the least height above `h` that satisfies
`IsValidBlockHeight`, and the last height returned is the greatest height up
to `h` that satisfies it, or 0 when no height up to `h` satisfies it. -/
theorem C32_GetNearestSuperblocksHeights_nearest_in_range (P : ChainParams) (h k0 : Int)
    (hh : 0 ≤ h) (hc : 0 < P.consensus.nSuperblockCycle)
    (hs : 0 ≤ P.consensus.nSuperblockStartBlock)
    (hk0 : h < k0) (hmax : k0 ≤ 2147483647)
    (hv0 : CSuperblock.IsValidBlockHeight P k0 = true) :
    (CSuperblock.IsValidBlockHeight P (CSuperblock.GetNearestSuperblocksHeights P h).2 = true ∧
      h < (CSuperblock.GetNearestSuperblocksHeights P h).2 ∧
      ∀ k, h < k → CSuperblock.IsValidBlockHeight P k = true →
        (CSuperblock.GetNearestSuperblocksHeights P h).2 ≤ k) ∧
    ((CSuperblock.IsValidBlockHeight P (CSuperblock.GetNearestSuperblocksHeights P h).1 = true ∧
        (CSuperblock.GetNearestSuperblocksHeights P h).1 ≤ h ∧
        ∀ k, k ≤ h → CSuperblock.IsValidBlockHeight P k = true →
          k ≤ (CSuperblock.GetNearestSuperblocksHeights P h).1) ∨
      ((CSuperblock.GetNearestSuperblocksHeights P h).1 = 0 ∧
        ∀ k, k ≤ h → CSuperblock.IsValidBlockHeight P k = false)) := by
  obtain ⟨f1, f2, f3⟩ := firstSuperblock_spec P.consensus.nSuperblockStartBlock
    P.consensus.nSuperblockCycle hc hs
  have hmin : ∀ k, CSuperblock.IsValidBlockHeight P k = true →
      P.consensus.nSuperblockStartBlock +
        Int.tmod (P.consensus.nSuperblockCycle -
          Int.tmod P.consensus.nSuperblockStartBlock P.consensus.nSuperblockCycle)
          P.consensus.nSuperblockCycle ≤ k := by
    intro k hk
    obtain ⟨k1, k2⟩ := (IsValidBlockHeight_iff P k hc hs).1 hk
    have hd := Int.dvd_sub f3 k2
    have := multiple_below_cycle_nonpos _ _ hd (by omega)
    omega
  have hne : P.consensus.nSuperblockCycle ≠ 0 := ne_of_gt hc
  obtain ⟨v1, v2⟩ := (IsValidBlockHeight_iff P k0 hc hs).1 hv0
  have hcmax : P.consensus.nSuperblockCycle ≤ k0 := Int.le_of_dvd (by omega) v2
  have es : Int.tmod P.consensus.nSuperblockStartBlock P.consensus.nSuperblockCycle =
      P.consensus.nSuperblockStartBlock % P.consensus.nSuperblockCycle :=
    Int.tmod_eq_emod hs (le_of_lt hc)
  have hs0 : 0 ≤ P.consensus.nSuperblockStartBlock % P.consensus.nSuperblockCycle :=
    Int.emod_nonneg _ hne
  have hs1 : P.consensus.nSuperblockStartBlock % P.consensus.nSuperblockCycle <
      P.consensus.nSuperblockCycle := Int.emod_lt_of_pos _ hc
  have w1 : wrapInt32 (P.consensus.nSuperblockCycle -
      Int.tmod P.consensus.nSuperblockStartBlock P.consensus.nSuperblockCycle) =
      P.consensus.nSuperblockCycle -
        Int.tmod P.consensus.nSuperblockStartBlock P.consensus.nSuperblockCycle := by
    apply wrapInt32_of_range <;> rw [es] <;> omega
  have hf0 := hmin k0 hv0
  have w2 : wrapInt32 (P.consensus.nSuperblockStartBlock +
      Int.tmod (P.consensus.nSuperblockCycle -
        Int.tmod P.consensus.nSuperblockStartBlock P.consensus.nSuperblockCycle)
        P.consensus.nSuperblockCycle) =
      P.consensus.nSuperblockStartBlock +
        Int.tmod (P.consensus.nSuperblockCycle -
          Int.tmod P.consensus.nSuperblockStartBlock P.consensus.nSuperblockCycle)
          P.consensus.nSuperblockCycle := by
    apply wrapInt32_of_range <;> omega
  unfold CSuperblock.GetNearestSuperblocksHeights
  dsimp only
  rw [w1, w2]
  split
  · rename_i hlt
    refine ⟨⟨(IsValidBlockHeight_iff P _ hc hs).2 ⟨f1, f3⟩, hlt, fun k _ hk => hmin k hk⟩,
      Or.inr ⟨rfl, ?_⟩⟩
    intro k hk
    by_contra hv
    have hv' : CSuperblock.IsValidBlockHeight P k = true := by
      simpa using hv
    have := hmin k hv'
    omega
  · rename_i hge
    have e1 : Int.tmod h P.consensus.nSuperblockCycle = h % P.consensus.nSuperblockCycle :=
      Int.tmod_eq_emod hh (le_of_lt hc)
    rw [e1]
    have hm0 : 0 ≤ h % P.consensus.nSuperblockCycle := Int.emod_nonneg h hne
    have hm1 : h % P.consensus.nSuperblockCycle < P.consensus.nSuperblockCycle :=
      Int.emod_lt_of_pos h hc
    have hl : P.consensus.nSuperblockCycle ∣ h - h % P.consensus.nSuperblockCycle :=
      Int.dvd_sub_of_emod_eq rfl
    have hlf : P.consensus.nSuperblockStartBlock +
        Int.tmod (P.consensus.nSuperblockCycle -
          Int.tmod P.consensus.nSuperblockStartBlock P.consensus.nSuperblockCycle)
          P.consensus.nSuperblockCycle ≤ h - h % P.consensus.nSuperblockCycle := by
      have hd := Int.dvd_sub hl f3
      have := multiple_above_neg_cycle_nonneg _ _ hd (by omega)
      omega
    have hnext : ∀ k, h < k → CSuperblock.IsValidBlockHeight P k = true →
        h - h % P.consensus.nSuperblockCycle + P.consensus.nSuperblockCycle ≤ k := by
      intro k hk hv
      obtain ⟨_, k2⟩ := (IsValidBlockHeight_iff P k hc hs).1 hv
      have hd := Int.dvd_sub k2 hl
      have := Int.le_of_dvd (by omega) hd
      omega
    have hn0 := hnext k0 hk0 hv0
    have w3 : wrapInt32 (h - h % P.consensus.nSuperblockCycle) =
        h - h % P.consensus.nSuperblockCycle := by
      apply wrapInt32_of_range <;> omega
    have w4 : wrapInt32 (h - h % P.consensus.nSuperblockCycle + P.consensus.nSuperblockCycle) =
        h - h % P.consensus.nSuperblockCycle + P.consensus.nSuperblockCycle := by
      apply wrapInt32_of_range <;> omega
    rw [w3, w4]
    have hvl : CSuperblock.IsValidBlockHeight P (h - h % P.consensus.nSuperblockCycle) = true :=
      (IsValidBlockHeight_iff P _ hc hs).2 ⟨by omega, hl⟩
    refine ⟨⟨(IsValidBlockHeight_iff P _ hc hs).2
      ⟨by omega, Int.dvd_add hl (dvd_refl _)⟩, by omega, hnext⟩, Or.inl ⟨hvl, by omega, ?_⟩⟩
    intro k hk hv
    obtain ⟨_, k2⟩ := (IsValidBlockHeight_iff P k hc hs).1 hv
    have hd := Int.dvd_sub k2 hl
    have := multiple_below_cycle_nonpos _ _ hd (by omega)
    omega

theorem C32_GetNearestSuperblocksHeights_nearest_in_range_witness :
    (CSuperblock.IsValidBlockHeight testParams
        (CSuperblock.GetNearestSuperblocksHeights testParams 45).2 = true ∧
      45 < (CSuperblock.GetNearestSuperblocksHeights testParams 45).2 ∧
      ∀ k, 45 < k → CSuperblock.IsValidBlockHeight testParams k = true →
        (CSuperblock.GetNearestSuperblocksHeights testParams 45).2 ≤ k) ∧
    ((CSuperblock.IsValidBlockHeight testParams
          (CSuperblock.GetNearestSuperblocksHeights testParams 45).1 = true ∧
        (CSuperblock.GetNearestSuperblocksHeights testParams 45).1 ≤ 45 ∧
        ∀ k, k ≤ 45 → CSuperblock.IsValidBlockHeight testParams k = true →
          k ≤ (CSuperblock.GetNearestSuperblocksHeights testParams 45).1) ∨
      ((CSuperblock.GetNearestSuperblocksHeights testParams 45).1 = 0 ∧
        ∀ k, k ≤ 45 → CSuperblock.IsValidBlockHeight testParams k = false)) :=
  C32_GetNearestSuperblocksHeights_nearest_in_range testParams 45 60 (by decide) (by decide)
    (by decide) (by decide) (by decide) (by decide)

/-- The nearest superblock heights on the test chain (cycle 20 from height
20): 40 and 60 around height 45, 0 and 20 below the first superblock. -/
theorem GetNearestSuperblocksHeights_test_heights :
    CSuperblock.GetNearestSuperblocksHeights testParams 45 = (40, 60) ∧
    CSuperblock.GetNearestSuperblocksHeights testParams 40 = (40, 60) ∧
    CSuperblock.GetNearestSuperblocksHeights testParams 5 = (0, 20) := by
  decide

/-! ## A second sweep -/

theorem removalDue_congr_time (P : ChainParams) (g g' : GovStore) (h t t' : Int)
    (key : uint256) (sb : CSuperblock) (hk : sameKinds g g') :
    removalDue P g h t key sb ↔ removalDue P g' h t' key sb := by
  unfold removalDue statusExpired
  rw [objectUnusable_congr g g' key hk, IsExpired_fst, IsExpired_fst]

theorem cleanAndRemoveLoop_sameKinds (P : ChainParams) (g : GovStore) (h t : Int) :
    ∀ (m : trigger_m_t) (g' : GovStore), sameKinds g g' →
      sameKinds g (cleanAndRemoveLoop P h t m g').2 := by
  intro m
  induction m with
  | nil => intro g' hk; exact hk
  | cons q rest ih =>
    intro g' hk
    obtain ⟨key, osb⟩ := q
    cases osb with
    | none =>
      unfold cleanAndRemoveLoop
      exact ih g' hk
    | some sb =>
      have hk1 := sameKinds_removeSwitch P g g' h t key (statusAfterLookup g' key sb) hk
      unfold cleanAndRemoveLoop
      dsimp only
      split
      · exact ih _ (sameKinds_update g _ key _ hk1 (fun _ => rfl))
      · exact ih _ hk1

/-- A sweep over a registry in which no entry is due for removal leaves the
registry as it is. -/
theorem cleanAndRemoveLoop_fixed (P : ChainParams) (g : GovStore) (h t : Int) :
    ∀ (m : trigger_m_t) (g' : GovStore), sameKinds g g' →
      (∀ p ∈ m, ∃ sb, p.2 = some sb ∧ ¬ removalDue P g h t p.1 sb) →
      (cleanAndRemoveLoop P h t m g').1 = m := by
  intro m
  induction m with
  | nil => intro g' _ _; rfl
  | cons q rest ih =>
    intro g' hk hall
    obtain ⟨key, osb⟩ := q
    obtain ⟨sb, hsb, hnd⟩ := hall (key, osb) (List.mem_cons_self _ _)
    dsimp only at hsb hnd
    subst hsb
    have hrest : ∀ p ∈ rest, ∃ sb, p.2 = some sb ∧ ¬ removalDue P g h t p.1 sb :=
      fun p hp => hall p (List.mem_cons_of_mem _ hp)
    have hdec := removeSwitch_iff P g' h t key sb
    rw [← removalDue_congr P g g' h t key sb hk] at hdec
    have hr : ¬ (removeSwitch P h t g' key (statusAfterLookup g' key sb)).1 = true :=
      fun e => hnd (hdec.1 e)
    have hr' : (removeSwitch P h t g' key (statusAfterLookup g' key sb)).1 = false := by
      simpa using hr
    have hk1 := sameKinds_removeSwitch P g g' h t key (statusAfterLookup g' key sb) hk
    unfold cleanAndRemoveLoop
    dsimp only
    rw [if_neg hr, ih _ hk1 hrest, statusAfterLookup_of_kept P g' h t key sb hr']

/-- A second sweep at the same chain height, on the registry and the store the
first sweep left, removes nothing; every entry left by the first sweep holds a
trigger whose governance object exists and is a trigger, whose status is
neither invalid nor unknown, and which, when its status is valid or executed,
is not expired. -/
theorem CleanAndRemove_second_sweep_fixed (P : ChainParams)
    (governance : GovStore) (nCachedBlockHeight nAdjustedTime nAdjustedTime2 : Int)
    (mapTrigger : trigger_m_t) :
    (CGovernanceTriggerManager.CleanAndRemove P nCachedBlockHeight nAdjustedTime2
        (CGovernanceTriggerManager.CleanAndRemove P nCachedBlockHeight nAdjustedTime
          mapTrigger governance).1
        (CGovernanceTriggerManager.CleanAndRemove P nCachedBlockHeight nAdjustedTime
          mapTrigger governance).2).1 =
      (CGovernanceTriggerManager.CleanAndRemove P nCachedBlockHeight nAdjustedTime
        mapTrigger governance).1 ∧
    ∀ p ∈ (CGovernanceTriggerManager.CleanAndRemove P nCachedBlockHeight nAdjustedTime
        mapTrigger governance).1,
      ∃ sb obj, p.2 = some sb ∧ governance p.1 = some obj ∧
        obj.nObjectType = GovernanceObjectType.GOVERNANCE_OBJECT_TRIGGER ∧
        sb.nStatus ≠ SeenObjectStatus.SEEN_OBJECT_ERROR_INVALID ∧
        sb.nStatus ≠ SeenObjectStatus.SEEN_OBJECT_UNKNOWN ∧
        ((sb.nStatus = SeenObjectStatus.SEEN_OBJECT_IS_VALID ∨
            sb.nStatus = SeenObjectStatus.SEEN_OBJECT_EXECUTED) →
          (sb.IsExpired P governance nCachedBlockHeight nAdjustedTime).1 = false) := by
  unfold CGovernanceTriggerManager.CleanAndRemove
  have hmem := cleanAndRemoveLoop_mem P governance nCachedBlockHeight nAdjustedTime
    mapTrigger governance (sameKinds_refl governance)
  have hk := cleanAndRemoveLoop_sameKinds P governance nCachedBlockHeight nAdjustedTime
    mapTrigger governance (sameKinds_refl governance)
  constructor
  · apply cleanAndRemoveLoop_fixed P governance nCachedBlockHeight nAdjustedTime2 _ _ hk
    intro p hp
    obtain ⟨_, sb, hsb, hnd⟩ := (hmem p).1 hp
    refine ⟨sb, hsb, ?_⟩
    intro hd
    exact hnd ((removalDue_congr_time P governance governance nCachedBlockHeight
      nAdjustedTime nAdjustedTime2 p.1 sb (sameKinds_refl governance)).2 hd)
  · intro p hp
    obtain ⟨_, sb, hsb, hnd⟩ := (hmem p).1 hp
    unfold removalDue objectUnusable statusExpired at hnd
    cases hg : governance p.1 with
    | none => exact absurd (Or.inl (Or.inl hg)) hnd
    | some obj =>
      refine ⟨sb, obj, hsb, rfl, ?_, ?_, ?_, ?_⟩
      · by_contra ht
        exact hnd (Or.inl (Or.inr ⟨obj, hg, ht⟩))
      · intro e
        exact hnd (Or.inr (Or.inl e))
      · intro e
        exact hnd (Or.inr (Or.inr (Or.inl e)))
      · intro hs
        cases he : (sb.IsExpired P governance nCachedBlockHeight nAdjustedTime).1 with
        | false => rfl
        | true => exact absurd (Or.inr (Or.inr (Or.inr ⟨hs, he⟩))) hnd

/-- C34: on a registry whose triggers carry one of the four status codes the
code assigns, a second sweep at the same chain height, on the registry and the
store the first sweep left, removes nothing; every entry left by the first
sweep holds a trigger whose governance object exists and is a trigger, whose
status is valid or executed, and of which `IsExpired` does not hold. -/
theorem C34_CleanAndRemove_is_idempotent (P : ChainParams)
    (governance : GovStore) (nCachedBlockHeight nAdjustedTime nAdjustedTime2 : Int)
    (mapTrigger : trigger_m_t)
    (hnamed : ∀ p ∈ mapTrigger, namedStatus p = true) :
    (CGovernanceTriggerManager.CleanAndRemove P nCachedBlockHeight nAdjustedTime2
        (CGovernanceTriggerManager.CleanAndRemove P nCachedBlockHeight nAdjustedTime
          mapTrigger governance).1
        (CGovernanceTriggerManager.CleanAndRemove P nCachedBlockHeight nAdjustedTime
          mapTrigger governance).2).1 =
      (CGovernanceTriggerManager.CleanAndRemove P nCachedBlockHeight nAdjustedTime
        mapTrigger governance).1 ∧
    ∀ p ∈ (CGovernanceTriggerManager.CleanAndRemove P nCachedBlockHeight nAdjustedTime
        mapTrigger governance).1,
      ∃ sb obj, p.2 = some sb ∧ governance p.1 = some obj ∧
        obj.nObjectType = GovernanceObjectType.GOVERNANCE_OBJECT_TRIGGER ∧
        (sb.nStatus = SeenObjectStatus.SEEN_OBJECT_IS_VALID ∨
          sb.nStatus = SeenObjectStatus.SEEN_OBJECT_EXECUTED) ∧
        (sb.IsExpired P governance nCachedBlockHeight nAdjustedTime).1 = false := by
  obtain ⟨h1, h2⟩ := CleanAndRemove_second_sweep_fixed P governance nCachedBlockHeight
    nAdjustedTime nAdjustedTime2 mapTrigger
  refine ⟨h1, ?_⟩
  intro p hp
  obtain ⟨sb, obj, hsb, hobj, htype, hni, hnu, hexp⟩ := h2 p hp
  have hin : p ∈ mapTrigger := by
    unfold CGovernanceTriggerManager.CleanAndRemove at hp
    exact ((cleanAndRemoveLoop_mem P governance nCachedBlockHeight nAdjustedTime
      mapTrigger governance (sameKinds_refl governance) p).1 hp).1
  have hst := hnamed p hin
  unfold namedStatus at hst
  rw [hsb] at hst
  simp only [Bool.or_eq_true, decide_eq_true_eq] at hst
  have hve : sb.nStatus = SeenObjectStatus.SEEN_OBJECT_IS_VALID ∨
      sb.nStatus = SeenObjectStatus.SEEN_OBJECT_EXECUTED := by
    rcases hst with ((hv | hi) | he) | hu
    · exact Or.inl hv
    · exact absurd hi hni
    · exact Or.inr he
    · exact absurd hu hnu
  exact ⟨sb, obj, hsb, hobj, htype, hve, hexp hve⟩

theorem C34_CleanAndRemove_is_idempotent_witness :
    (CGovernanceTriggerManager.CleanAndRemove testParams 100 778
        (CGovernanceTriggerManager.CleanAndRemove testParams 100 777
          testRegistrySweep testStoreSweep).1
        (CGovernanceTriggerManager.CleanAndRemove testParams 100 777
          testRegistrySweep testStoreSweep).2).1 =
      (CGovernanceTriggerManager.CleanAndRemove testParams 100 777
        testRegistrySweep testStoreSweep).1 ∧
    ∀ p ∈ (CGovernanceTriggerManager.CleanAndRemove testParams 100 777
        testRegistrySweep testStoreSweep).1,
      ∃ sb obj, p.2 = some sb ∧ testStoreSweep p.1 = some obj ∧
        obj.nObjectType = GovernanceObjectType.GOVERNANCE_OBJECT_TRIGGER ∧
        (sb.nStatus = SeenObjectStatus.SEEN_OBJECT_IS_VALID ∨
          sb.nStatus = SeenObjectStatus.SEEN_OBJECT_EXECUTED) ∧
        (sb.IsExpired testParams testStoreSweep 100 777).1 = false :=
  C34_CleanAndRemove_is_idempotent testParams testStoreSweep 100 777 778 testRegistrySweep
    (by decide)

/-- Two sweeps of the test registry at chain height 100: the second leaves
the registry of the first. -/
theorem CleanAndRemove_test_second_sweep :
    (CGovernanceTriggerManager.CleanAndRemove testParams 100 778
        (CGovernanceTriggerManager.CleanAndRemove testParams 100 777 testRegistrySweep
          testStoreSweep).1
        (CGovernanceTriggerManager.CleanAndRemove testParams 100 777 testRegistrySweep
          testStoreSweep).2).1 = [(1, some (testTrigger 1 40))] := by
  decide

/-! ## Splitting at the delimiter -/

theorem boostSplit_ne_nil (isDelim : Char → Bool) :
    ∀ s : List Char, ∃ t ts, boostSplit isDelim s = t :: ts := by
  intro s
  induction s with
  | nil => exact ⟨[], [], rfl⟩
  | cons c cs ih =>
    obtain ⟨t, ts, e⟩ := ih
    unfold boostSplit
    by_cases hd : isDelim c = true
    · rw [if_pos hd]
      exact ⟨[], _, rfl⟩
    · rw [if_neg hd, e]
      exact ⟨c :: t, ts, rfl⟩

/-- No piece of `boost::split` holds a delimiter character. -/
theorem boostSplit_no_delim (isDelim : Char → Bool) :
    ∀ (s : List Char), ∀ part ∈ boostSplit isDelim s, ∀ c ∈ part, isDelim c = false := by
  intro s
  induction s with
  | nil =>
    intro part hp c hc
    simp only [boostSplit, List.mem_singleton] at hp
    rw [hp] at hc
    cases hc
  | cons x xs ih =>
    intro part hp c hc
    obtain ⟨t, ts, e⟩ := boostSplit_ne_nil isDelim xs
    unfold boostSplit at hp
    by_cases hd : isDelim x = true
    · rw [if_pos hd] at hp
      rcases List.mem_cons.1 hp with e1 | e1
      · rw [e1] at hc; cases hc
      · exact ih part e1 c hc
    · rw [if_neg hd, e] at hp
      dsimp only at hp
      rcases List.mem_cons.1 hp with e1 | e1
      · rw [e1] at hc
        rcases List.mem_cons.1 hc with e2 | e2
        · rw [e2]; simpa using hd
        · exact ih t (by rw [e]; exact List.mem_cons_self _ _) c e2
      · exact ih part (by rw [e]; exact List.mem_cons_of_mem _ e1) c hc

theorem maximalRunsFrom_eq (d : Char) :
    ∀ (s cur t : List Char) (ts : List (List Char)),
      boostSplit (fun c => [d].contains c) s = t :: ts →
      maximalRunsFrom d cur s = ((cur ++ t) :: ts).filter (fun x => !decide (x = [])) := by
  intro s
  induction s with
  | nil =>
    intro cur t ts e
    simp only [boostSplit, List.cons.injEq] at e
    obtain ⟨e1, e2⟩ := e
    subst e1
    subst e2
    unfold maximalRunsFrom
    by_cases hc : cur = []
    · simp [hc]
    · simp [hc]
  | cons x xs ih =>
    intro cur t ts e
    obtain ⟨t', ts', e'⟩ := boostSplit_ne_nil (fun c => [d].contains c) xs
    unfold boostSplit at e
    unfold maximalRunsFrom
    by_cases hx : x = d
    · have hd : (fun c => [d].contains c) x = true := by simp [hx]
      rw [if_pos hd] at e
      simp only [List.cons.injEq] at e
      obtain ⟨e1, e2⟩ := e
      subst e1
      rw [if_pos hx, ih [] t' ts' e', ← e2, e']
      by_cases hc : cur = []
      · simp [hc]
      · simp [hc]
    · have hd : ¬ (fun c => [d].contains c) x = true := by simp [hx]
      rw [if_neg hd, e'] at e
      simp only [List.cons.injEq] at e
      obtain ⟨e1, e2⟩ := e
      rw [if_neg hx, ih (cur ++ [x]) t' ts' e', ← e1, ← e2]
      simp

theorem infix_delimiter_iff (d : Char) (part : List Char) (hp : ∀ c ∈ part, c ≠ d) :
    part <:+: [d] ↔ part = [] := by
  constructor
  · intro h
    cases part with
    | nil => rfl
    | cons c cs =>
      exfalso
      have hm : c ∈ [d] := h.subset (List.mem_cons_self _ _)
      exact hp c (List.mem_cons_self _ _) (List.mem_singleton.1 hm)
  · intro h
    rw [h]
    exact List.nil_infix

theorem SplitBy_eq_filter (s : List Char) :
    SplitBy s ['|'] = (boostSplit (fun c => ['|'].contains c) s).filter
      (fun x => !decide (x = [])) := by
  unfold SplitBy
  apply List.filter_congr
  intro part hp
  have hnd : ∀ c ∈ part, c ≠ '|' := by
    intro c hc e
    have := boostSplit_no_delim (fun c => ['|'].contains c) s part hp c hc
    rw [e] at this
    simp at this
  have := infix_delimiter_iff '|' part hnd
  by_cases he : part = []
  · simp [he]
  · have hni : ¬ part <:+: ['|'] := fun h => he (this.1 h)
    simp [he, hni]

/-- C36: for every string `s`, `SplitBy(s, "|")` is the list of the maximal
non-empty runs of characters of `s` other than the bar, in order; no token is
empty and none holds a bar; the strings `A||B` and `|A|B|` give the tokens of
`A|B`, and the empty string gives none. -/
theorem C36_SplitBy_bar_gives_maximal_runs :
    (∀ s : List Char, SplitBy s ['|'] = maximalRuns '|' s) ∧
    (∀ s : List Char, ∀ t ∈ SplitBy s ['|'], t ≠ [] ∧ '|' ∉ t) ∧
    SplitBy "A||B".toList ['|'] = SplitBy "A|B".toList ['|'] ∧
    SplitBy "|A|B|".toList ['|'] = SplitBy "A|B".toList ['|'] ∧
    SplitBy "A|B".toList ['|'] = [['A'], ['B']] ∧
    SplitBy [] ['|'] = [] := by
  refine ⟨?_, ?_, by decide, by decide, by decide, by decide⟩
  · intro s
    obtain ⟨t, ts, e⟩ := boostSplit_ne_nil (fun c => ['|'].contains c) s
    rw [SplitBy_eq_filter, maximalRuns, maximalRunsFrom_eq '|' s [] t ts e, e]
    rfl
  · intro s t ht
    rw [SplitBy_eq_filter] at ht
    obtain ⟨hm, hne⟩ := List.mem_filter.1 ht
    refine ⟨by simpa using hne, ?_⟩
    intro hbar
    have := boostSplit_no_delim (fun c => ['|'].contains c) s t hm '|' hbar
    simp at this

/-- The runs of a string with a doubled, a leading and a trailing bar. -/
theorem maximalRuns_test_string :
    maximalRuns '|' "|AB||C|".toList = [['A', 'B'], ['C']] ∧
    SplitBy "|AB||C|".toList ['|'] = [['A', 'B'], ['C']] := by
  decide

/-! ## A malformed amount in the schedule of a trigger object -/

/-- The loop throws when one of the amount tokens is rejected by
`ParsePaymentAmount`. -/
theorem parsePaymentLoop_fails (E : Externals) (tok : List Char) (e0 : String)
    (hbad : ParsePaymentAmount E tok = Except.error e0) :
    ∀ (toksA toksM : List (List Char)) (vec : List CGovernancePayment),
      toksA.length = toksM.length → tok ∈ toksM →
      ∃ e v, parsePaymentLoop E toksA toksM vec = (Except.error e, v) := by
  intro toksA
  induction toksA with
  | nil =>
    intro toksM vec hlen hin
    cases toksM with
    | nil => cases hin
    | cons _ _ => cases hlen
  | cons tokA restA ih =>
    intro toksM vec hlen hin
    cases toksM with
    | nil => cases hin
    | cons tokM restM =>
      have hlen' : restA.length = restM.length := by
        simpa using hlen
      unfold parsePaymentLoop
      split
      · exact ⟨_, _, rfl⟩
      · split
        · exact ⟨_, _, rfl⟩
        · split
          · exact ⟨_, _, rfl⟩
          · rename_i nAmount hok
            split
            · rcases List.mem_cons.1 hin with e1 | e1
              · rw [e1, hok] at hbad
                cases hbad
              · exact ih restM _ hlen' e1
            · exact ⟨_, _, rfl⟩

theorem ParsePaymentSchedule_fails (E : Externals) (strAddresses strAmounts : List Char)
    (tok : List Char) (e0 : String)
    (hin : tok ∈ SplitBy strAmounts ['|'])
    (hbad : ParsePaymentAmount E tok = Except.error e0)
    (vec : List CGovernancePayment) :
    ∃ e v, CSuperblock.ParsePaymentSchedule E vec strAddresses strAmounts =
      (Except.error e, v) := by
  unfold CSuperblock.ParsePaymentSchedule
  dsimp only
  split
  · exact ⟨_, _, rfl⟩
  · rename_i hlen
    split
    · exact ⟨_, _, rfl⟩
    · exact parsePaymentLoop_fails E tok e0 hbad _ _ vec (not_not.1 hlen) hin

/-- C18: when one of the amount tokens is malformed (`ParsePaymentAmount`
throws on it), wherever it stands among the tokens, `ParsePaymentSchedule`
throws; the constructor, its only caller, then throws as well, so no trigger
and no schedule, partial or complete, comes into being, and `AddNewTrigger`
returns false with the registry as it was. -/
theorem C18_malformed_amount_leaves_no_schedule (E : Externals)
    (strAddresses strAmounts : List Char) (tok : List Char) (e0 : String)
    (hin : tok ∈ SplitBy strAmounts ['|'])
    (hbad : ParsePaymentAmount E tok = Except.error e0) :
    (∀ vec, ∃ e v, CSuperblock.ParsePaymentSchedule E vec strAddresses strAmounts =
      (Except.error e, v)) ∧
    (∀ (governance : GovStore) (nHash : uint256) (obj : CGovernanceObject),
      governance nHash = some obj →
      (jsonGet obj.jsonObject "payment_addresses").get_str = Except.ok strAddresses →
      (jsonGet obj.jsonObject "payment_amounts").get_str = Except.ok strAmounts →
      (∃ e, CSuperblock.construct E governance nHash = Except.error e) ∧
      ∀ mapTrigger : trigger_m_t,
        CGovernanceTriggerManager.AddNewTrigger E governance mapTrigger nHash =
          (false, mapTrigger)) := by
  refine ⟨ParsePaymentSchedule_fails E strAddresses strAmounts tok e0 hin hbad, ?_⟩
  intro governance nHash obj hobj hA hM
  have hcon : ∃ e, CSuperblock.construct E governance nHash = Except.error e := by
    cases hc : CSuperblock.construct E governance nHash with
    | error e => exact ⟨e, rfl⟩
    | ok sb =>
      exfalso
      obtain ⟨h, v, ⟨obj', sA, sM, hobj', _, _, hA', hM', hp⟩, _⟩ :=
        (construct_ok_iff E governance nHash sb).1 hc
      rw [hobj] at hobj'
      injection hobj' with hobj'
      rw [← hobj', hA] at hA'
      rw [← hobj', hM] at hM'
      injection hA' with hA'
      injection hM' with hM'
      obtain ⟨e, v', hf⟩ := ParsePaymentSchedule_fails E strAddresses strAmounts tok e0
        hin hbad []
      rw [hA', hM', hp] at hf
      injection hf with hf1 _
      cases hf1
  refine ⟨hcon, ?_⟩
  intro mapTrigger
  obtain ⟨e, he⟩ := hcon
  unfold CGovernanceTriggerManager.AddNewTrigger
  split
  · rfl
  · rw [he]

theorem C18_malformed_amount_leaves_no_schedule_witness :
    (∀ vec, ∃ e v, CSuperblock.ParsePaymentSchedule testExternals vec ['A', '|', 'B']
        ['1', '0', '|', 'x'] = (Except.error e, v)) ∧
    (∀ (governance : GovStore) (nHash : uint256) (obj : CGovernanceObject),
      governance nHash = some obj →
      (jsonGet obj.jsonObject "payment_addresses").get_str = Except.ok ['A', '|', 'B'] →
      (jsonGet obj.jsonObject "payment_amounts").get_str = Except.ok ['1', '0', '|', 'x'] →
      (∃ e, CSuperblock.construct testExternals governance nHash = Except.error e) ∧
      ∀ mapTrigger : trigger_m_t,
        CGovernanceTriggerManager.AddNewTrigger testExternals governance mapTrigger nHash =
          (false, mapTrigger)) :=
  C18_malformed_amount_leaves_no_schedule testExternals ['A', '|', 'B'] ['1', '0', '|', 'x']
    ['x'] "ParsePaymentAmount: Amount string contains invalid character"
    (by decide) (by rfl)

/-- Registration on a store whose object under hash 1 carries the amounts
`10|x`: the constructor throws and the registry stays empty. -/
theorem AddNewTrigger_test_malformed_amount :
    CGovernanceTriggerManager.AddNewTrigger testExternals
        (fun k => if k = 1 then
          some { testTriggerObject 40 5 true with
            jsonObject := [("event_block_height", UniValue.VNUM 40),
              ("payment_addresses", UniValue.VSTR ['A', '|', 'B']),
              ("payment_amounts", UniValue.VSTR ['1', '0', '|', 'x'])] }
          else none) [] 1 = (false, []) := by
  decide

end BiblePay
